import Mathlib

/-!
# Verification development for `src/master/master-settings.c`

A shallow embedding of the settings loader: the section state machine
(`parse_section`, `parse_setting`), the constructors of the settings tree, the
validator (`settings_verify`, `auth_settings_verify`,
`namespace_settings_verify`) and the validation / commit pass of
`master_settings_read`.

Representation choices

* A non-NULL C string is a `String`; a `const char *` that may be NULL is an
  `Option String`. The bytes of the C string are those of the UTF-8 encoding:
  a search for an ASCII character or an ASCII substring gives the same answer
  on the characters as on the bytes, and where the source indexes bytes
  (`separator[1]`) the model counts bytes.
* A struct whose fields are reached through a `setting_def` table is a record
  holding a typed cell for every field name (`fields`); `offsetof (struct, name)`
  is identified with `name`, the `DEF` macro derives both from one identifier.
  Integer fields are unbounded integers; the field assigner only stores values
  in the range of `int`.
* A linked list (`next` pointers) is a `List`; a pointer into the tree is the
  position of its target (servers by allocation order, auth backends by
  creation order, sockets and namespaces by list position).
* The operating system (user database, file system) is a parameter: a state
  and the answers of the calls the validator makes in that state.
* The two memory pools are named; the memory of a pool is the server list
  allocated in it, and `settings_root` is NULL or points into a pool.
* The settings library (`parse_setting_from_defs`, `settings_read`) is not part
  of this file; both functions are modelled from the specification.
* Log output (`i_error`, `i_warning`) is not modelled; `i_fatal` ends the
  process (`call_result.exited`).
-/

namespace MasterSettings

/-! ## C string helpers -/

/-- The test `strchr (s, c) != NULL`. -/
def strchr (s : String) (c : Char) : Bool := s.toList.contains c

/-- The test `strncmp (s, p, strlen p) == 0`: the string starts with `p`. -/
def strncmp_eq (s p : String) : Bool := p.toList.isPrefixOf s.toList

/-- The pointer `s + n` of a string of length at least `n`. -/
def str_skip (s : String) (n : Nat) : String := String.mk (s.toList.drop n)

/-- Substring search on character lists. -/
def strstr_list (needle : List Char) : List Char → Bool
  | [] => needle.isEmpty
  | c :: cs => needle.isPrefixOf (c :: cs) || strstr_list needle cs

/-- The test `strstr (hay, needle) != NULL`. -/
def strstr (hay needle : String) : Bool := strstr_list needle.toList hay.toList

/-- Lower-casing of a string, `str_lcase`. -/
def str_lcase (s : String) : String := String.mk (s.toList.map Char.toLower)

/-- The test `strcasecmp (a, b) == 0`. -/
def strcasecmp_eq (a b : String) : Bool := str_lcase a == str_lcase b

/-- The part of a string before the first occurrence of a character, `t_strcut`. -/
def t_strcut (s : String) (c : Char) : String :=
  String.mk (s.toList.takeWhile (fun x => x != c))

/-- Reading of a possibly NULL string where the C code dereferences it without
a test; the fields read this way are never NULL in a tree built by the parser. -/
def cstr (s : Option String) : String := s.getD ""

/-! ## Enumerations -/

inductive settings_type
  | SETTINGS_TYPE_ROOT
  | SETTINGS_TYPE_SERVER
  | SETTINGS_TYPE_AUTH
  | SETTINGS_TYPE_AUTH_SOCKET
  | SETTINGS_TYPE_NAMESPACE
  | SETTINGS_TYPE_SOCKET
  deriving DecidableEq, Repr

/-- The enum `mail_protocol` of the common header; `MAIL_PROTOCOL_ANY` is 0. -/
inductive mail_protocol
  | MAIL_PROTOCOL_ANY
  | MAIL_PROTOCOL_IMAP
  | MAIL_PROTOCOL_POP3
  deriving DecidableEq, Repr

inductive setting_type
  | SET_STR
  | SET_INT
  | SET_BOOL
  deriving DecidableEq, Repr

open settings_type mail_protocol setting_type

/-- One row of a schema table: `{ type, #name, offsetof (struct, name) }`. -/
structure setting_def where
  type : setting_type
  name : String
  deriving DecidableEq, Repr

/-! ## Typed cells -/

/-- The content of one struct field reached through a schema table. -/
inductive set_value
  | str (s : Option String)
  | int (i : Int)
  | bool (b : Bool)
  deriving DecidableEq, Repr

/-- Read a cell as `const char *`; a zeroed cell reads as NULL. -/
def set_value.get_str : set_value → Option String
  | .str s => s
  | _ => none

/-- Read a cell as an integer; a zeroed cell reads as 0. -/
def set_value.get_int : set_value → Int
  | .int i => i
  | _ => 0

/-- Read a cell as a boolean; a zeroed cell reads as FALSE. -/
def set_value.get_bool : set_value → Bool
  | .bool b => b
  | _ => false

/-- The schema fields of one struct, by field name. -/
abbrev fields := String → set_value

/-- Memory returned by `p_new`: every field zeroed. -/
def fields_zero : fields := fun _ => set_value.str none

/-! ## Schema tables -/

def setting_defs : List setting_def := [
  /- common -/
  ⟨SET_STR, "base_dir"⟩,
  ⟨SET_STR, "log_path"⟩,
  ⟨SET_STR, "info_log_path"⟩,
  ⟨SET_STR, "log_timestamp"⟩,
  /- general -/
  ⟨SET_STR, "protocols"⟩,
  ⟨SET_STR, "listen"⟩,
  ⟨SET_STR, "ssl_listen"⟩,
  ⟨SET_BOOL, "ssl_disable"⟩,
  ⟨SET_STR, "ssl_ca_file"⟩,
  ⟨SET_STR, "ssl_cert_file"⟩,
  ⟨SET_STR, "ssl_key_file"⟩,
  ⟨SET_STR, "ssl_parameters_file"⟩,
  ⟨SET_STR, "ssl_parameters_regenerate"⟩,
  ⟨SET_STR, "ssl_cipher_list"⟩,
  ⟨SET_BOOL, "ssl_verify_client_cert"⟩,
  ⟨SET_BOOL, "disable_plaintext_auth"⟩,
  ⟨SET_BOOL, "verbose_ssl"⟩,
  /- login -/
  ⟨SET_STR, "login_dir"⟩,
  ⟨SET_STR, "login_executable"⟩,
  ⟨SET_STR, "login_user"⟩,
  ⟨SET_STR, "login_greeting"⟩,
  ⟨SET_BOOL, "login_process_per_connection"⟩,
  ⟨SET_BOOL, "login_chroot"⟩,
  ⟨SET_BOOL, "login_greeting_capability"⟩,
  ⟨SET_INT, "login_process_size"⟩,
  ⟨SET_INT, "login_processes_count"⟩,
  ⟨SET_INT, "login_max_processes_count"⟩,
  ⟨SET_INT, "login_max_logging_users"⟩,
  /- mail -/
  ⟨SET_STR, "valid_chroot_dirs"⟩,
  ⟨SET_STR, "mail_chroot"⟩,
  ⟨SET_INT, "max_mail_processes"⟩,
  ⟨SET_BOOL, "verbose_proctitle"⟩,
  ⟨SET_INT, "first_valid_uid"⟩,
  ⟨SET_INT, "last_valid_uid"⟩,
  ⟨SET_INT, "first_valid_gid"⟩,
  ⟨SET_INT, "last_valid_gid"⟩,
  ⟨SET_STR, "mail_extra_groups"⟩,
  ⟨SET_STR, "default_mail_env"⟩,
  ⟨SET_STR, "mail_cache_fields"⟩,
  ⟨SET_STR, "mail_never_cache_fields"⟩,
  ⟨SET_INT, "mailbox_idle_check_interval"⟩,
  ⟨SET_BOOL, "mail_full_filesystem_access"⟩,
  ⟨SET_INT, "mail_max_keyword_length"⟩,
  ⟨SET_BOOL, "mail_save_crlf"⟩,
  ⟨SET_BOOL, "mail_read_mmaped"⟩,
  ⟨SET_BOOL, "mmap_disable"⟩,
  ⟨SET_BOOL, "mmap_no_write"⟩,
  ⟨SET_STR, "lock_method"⟩,
  ⟨SET_BOOL, "maildir_stat_dirs"⟩,
  ⟨SET_BOOL, "maildir_copy_with_hardlinks"⟩,
  ⟨SET_BOOL, "maildir_check_content_changes"⟩,
  ⟨SET_STR, "mbox_read_locks"⟩,
  ⟨SET_STR, "mbox_write_locks"⟩,
  ⟨SET_INT, "mbox_lock_timeout"⟩,
  ⟨SET_INT, "mbox_dotlock_change_timeout"⟩,
  ⟨SET_BOOL, "mbox_dirty_syncs"⟩,
  ⟨SET_BOOL, "mbox_lazy_writes"⟩,
  ⟨SET_INT, "umask"⟩,
  ⟨SET_BOOL, "mail_drop_priv_before_exec"⟩,
  ⟨SET_STR, "mail_executable"⟩,
  ⟨SET_INT, "mail_process_size"⟩,
  ⟨SET_BOOL, "mail_use_modules"⟩,
  ⟨SET_STR, "mail_modules"⟩,
  ⟨SET_STR, "mail_log_prefix"⟩,
  /- imap -/
  ⟨SET_INT, "imap_max_line_length"⟩,
  ⟨SET_STR, "imap_capability"⟩,
  ⟨SET_STR, "imap_client_workarounds"⟩,
  /- pop3 -/
  ⟨SET_BOOL, "pop3_no_flag_updates"⟩,
  ⟨SET_BOOL, "pop3_enable_last"⟩,
  ⟨SET_STR, "pop3_client_workarounds"⟩]

def auth_setting_defs : List setting_def := [
  ⟨SET_STR, "mechanisms"⟩,
  ⟨SET_STR, "realms"⟩,
  ⟨SET_STR, "default_realm"⟩,
  ⟨SET_STR, "userdb"⟩,
  ⟨SET_STR, "passdb"⟩,
  ⟨SET_INT, "cache_size"⟩,
  ⟨SET_INT, "cache_ttl"⟩,
  ⟨SET_STR, "executable"⟩,
  ⟨SET_STR, "user"⟩,
  ⟨SET_STR, "chroot"⟩,
  ⟨SET_STR, "username_chars"⟩,
  ⟨SET_STR, "username_translation"⟩,
  ⟨SET_STR, "anonymous_username"⟩,
  ⟨SET_BOOL, "verbose"⟩,
  ⟨SET_BOOL, "debug"⟩,
  ⟨SET_BOOL, "ssl_require_client_cert"⟩,
  ⟨SET_INT, "count"⟩,
  ⟨SET_INT, "process_size"⟩]

def socket_setting_defs : List setting_def := [
  ⟨SET_STR, "path"⟩,
  ⟨SET_INT, "mode"⟩,
  ⟨SET_STR, "user"⟩,
  ⟨SET_STR, "group"⟩]

def auth_socket_setting_defs : List setting_def := [
  ⟨SET_STR, "type"⟩]

def namespace_setting_defs : List setting_def := [
  ⟨SET_STR, "type"⟩,
  ⟨SET_STR, "separator"⟩,
  ⟨SET_STR, "prefix"⟩,
  ⟨SET_STR, "location"⟩,
  ⟨SET_BOOL, "inbox"⟩,
  ⟨SET_BOOL, "hidden"⟩]

/-! ## Build-time constants

The macros `PKG_RUNDIR`, `SSLDIR`, ... and the feature tests `HAVE_SSL`,
`HAVE_MODULES`, `MMAP_CONFLICTS_WRITE` come from the build configuration. -/

structure build_config where
  PKG_RUNDIR : String
  DEFAULT_FAILURE_STAMP_FORMAT : String
  SSLDIR : String
  PKG_LIBEXECDIR : String
  MODULEDIR : String
  HAVE_SSL : Bool
  HAVE_MODULES : Bool
  MMAP_CONFLICTS_WRITE : Bool

/-! ## The settings tree -/

/-- The fields of a struct given by a static initialiser: the listed members,
every other field zeroed. -/
def fields_of_list (l : List (String × set_value)) : fields :=
  fun k => (l.lookup k).getD (set_value.str none)

/-- A string member of a static initialiser. -/
def MEMBER_str (name : String) (v : Option String) : String × set_value :=
  (name, set_value.str v)

/-- An integer member of a static initialiser. -/
def MEMBER_int (name : String) (v : Int) : String × set_value :=
  (name, set_value.int v)

/-- A boolean member of a static initialiser. -/
def MEMBER_bool (name : String) (v : Bool) : String × set_value :=
  (name, set_value.bool v)

/-- The struct `settings`: the fields of `setting_defs` (in `vals`) and the
members that no schema names. `server` is the back-reference to the owning
server. -/
structure settings where
  server : Option Nat
  protocol : mail_protocol
  vals : fields
  login_uid : Nat
  listen_fd : Int
  ssl_listen_fd : Int

/-- A pointer to a struct `auth_settings`: NULL, the `auth_defaults` member of
a server, or the `n`-th auth backend created in a server. -/
inductive auth_ptr
  | null
  | defaults (server : Nat)
  | node (server : Nat) (n : Nat)
  deriving DecidableEq, Repr

/-- The struct `socket_settings`, fields of `socket_setting_defs`. -/
structure socket_settings where
  vals : fields

/-- The struct `auth_socket_settings`; `type` is the field of
`auth_socket_setting_defs`. -/
structure auth_socket_settings where
  parent : auth_ptr
  vals : fields
  master : socket_settings
  client : socket_settings

/-- The member `type` of an auth socket. -/
def auth_socket_settings.type (as : auth_socket_settings) : Option String :=
  (as.vals "type").get_str

/-- The struct `auth_settings`; `sockets` is the list linked through `next`. -/
structure auth_settings where
  parent : Option Nat
  name : Option String
  vals : fields
  uid : Nat
  gid : Nat
  sockets : List auth_socket_settings

/-- The struct `namespace_settings`, fields of `namespace_setting_defs`. -/
structure namespace_settings where
  parent : Option Nat
  vals : fields

/-- The struct `server_settings`. `defaults` points to the imap or to the pop3
settings object of the same server, and is recorded as the protocol of its
target; `auths` and `namespaces` are the lists linked through `next`, head
first. -/
structure server_settings where
  name : Option String
  defaults : Option mail_protocol
  imap : Option settings
  pop3 : Option settings
  auth_defaults : auth_settings
  auths : List auth_settings
  namespaces : List namespace_settings
  login_gid : Nat

def default_settings (cfg : build_config) : settings where
  server := none
  protocol := MAIL_PROTOCOL_ANY
  vals := fields_of_list [
    /- common -/
    MEMBER_str "base_dir" (some cfg.PKG_RUNDIR),
    MEMBER_str "log_path" none,
    MEMBER_str "info_log_path" none,
    MEMBER_str "log_timestamp" (some cfg.DEFAULT_FAILURE_STAMP_FORMAT),
    /- general -/
    MEMBER_str "protocols" (some "imap imaps"),
    MEMBER_str "listen" (some "*"),
    MEMBER_str "ssl_listen" none,
    MEMBER_bool "ssl_disable" (!cfg.HAVE_SSL),
    MEMBER_str "ssl_ca_file" none,
    MEMBER_str "ssl_cert_file" (some (cfg.SSLDIR ++ "/certs/dovecot.pem")),
    MEMBER_str "ssl_key_file" (some (cfg.SSLDIR ++ "/private/dovecot.pem")),
    MEMBER_str "ssl_parameters_file" (some "ssl-parameters.dat"),
    MEMBER_int "ssl_parameters_regenerate" 24,
    MEMBER_str "ssl_cipher_list" none,
    MEMBER_bool "ssl_verify_client_cert" false,
    MEMBER_bool "disable_plaintext_auth" true,
    MEMBER_bool "verbose_ssl" false,
    /- login -/
    MEMBER_str "login_dir" (some "login"),
    MEMBER_str "login_executable" none,
    MEMBER_str "login_user" (some "dovecot"),
    MEMBER_str "login_greeting" (some "Dovecot ready."),
    MEMBER_bool "login_process_per_connection" true,
    MEMBER_bool "login_chroot" true,
    MEMBER_bool "login_greeting_capability" false,
    MEMBER_int "login_process_size" 32,
    MEMBER_int "login_processes_count" 3,
    MEMBER_int "login_max_processes_count" 128,
    MEMBER_int "login_max_logging_users" 256,
    /- mail -/
    MEMBER_str "valid_chroot_dirs" none,
    MEMBER_str "mail_chroot" none,
    MEMBER_int "max_mail_processes" 1024,
    MEMBER_bool "verbose_proctitle" false,
    MEMBER_int "first_valid_uid" 500,
    MEMBER_int "last_valid_uid" 0,
    MEMBER_int "first_valid_gid" 1,
    MEMBER_int "last_valid_gid" 0,
    MEMBER_str "mail_extra_groups" none,
    MEMBER_str "default_mail_env" none,
    MEMBER_str "mail_cache_fields" (some "flags"),
    MEMBER_str "mail_never_cache_fields" (some "imap.envelope"),
    MEMBER_int "mailbox_idle_check_interval" 30,
    MEMBER_bool "mail_full_filesystem_access" false,
    MEMBER_int "mail_max_keyword_length" 50,
    MEMBER_bool "mail_save_crlf" false,
    MEMBER_bool "mail_read_mmaped" false,
    MEMBER_bool "mmap_disable" false,
    MEMBER_bool "mmap_no_write" cfg.MMAP_CONFLICTS_WRITE,
    MEMBER_str "lock_method" (some "fcntl"),
    MEMBER_bool "maildir_stat_dirs" false,
    MEMBER_bool "maildir_copy_with_hardlinks" false,
    MEMBER_bool "maildir_check_content_changes" false,
    MEMBER_str "mbox_read_locks" (some "fcntl"),
    MEMBER_str "mbox_write_locks" (some "dotlock fcntl"),
    MEMBER_int "mbox_lock_timeout" 300,
    MEMBER_int "mbox_dotlock_change_timeout" 30,
    MEMBER_bool "mbox_dirty_syncs" true,
    MEMBER_bool "mbox_lazy_writes" true,
    MEMBER_int "umask" 63,
    MEMBER_bool "mail_drop_priv_before_exec" false,
    MEMBER_str "mail_executable" (some (cfg.PKG_LIBEXECDIR ++ "/imap")),
    MEMBER_int "mail_process_size" 256,
    MEMBER_bool "mail_use_modules" false,
    MEMBER_str "mail_modules" (some (cfg.MODULEDIR ++ "/imap")),
    MEMBER_str "mail_log_prefix" (some "%Us(%u): "),
    /- imap -/
    MEMBER_int "imap_max_line_length" 65536,
    MEMBER_str "imap_capability" none,
    MEMBER_str "imap_client_workarounds" (some "outlook-idle"),
    /- pop3 -/
    MEMBER_bool "pop3_no_flag_updates" false,
    MEMBER_bool "pop3_enable_last" false,
    MEMBER_str "pop3_client_workarounds" none]
  login_uid := 0
  listen_fd := -1
  ssl_listen_fd := -1

def default_auth_settings (cfg : build_config) : auth_settings where
  parent := none
  name := none
  vals := fields_of_list [
    MEMBER_str "mechanisms" (some "plain"),
    MEMBER_str "realms" none,
    MEMBER_str "default_realm" none,
    MEMBER_str "userdb" (some "passwd"),
    MEMBER_str "passdb" (some "pam"),
    MEMBER_int "cache_size" 0,
    MEMBER_int "cache_ttl" 3600,
    MEMBER_str "executable" (some (cfg.PKG_LIBEXECDIR ++ "/dovecot-auth")),
    MEMBER_str "user" (some "root"),
    MEMBER_str "chroot" none,
    MEMBER_str "username_chars"
      (some "abcdefghijklmnopqrstuvwxyzABCDEFGHIJKLMNOPQRSTUVWXYZ01234567890.-_@"),
    MEMBER_str "username_translation" (some ""),
    MEMBER_str "anonymous_username" (some "anonymous"),
    MEMBER_bool "verbose" false,
    MEMBER_bool "debug" false,
    MEMBER_bool "ssl_require_client_cert" false,
    MEMBER_int "count" 1,
    MEMBER_int "process_size" 256]
  uid := 0
  gid := 0
  sockets := []

/-! ## The generic field assigner -/

/-- Modelled from the spec: the boolean vocabulary of the field assigner
(`parse_setting_from_defs` lives in the settings library, not in this file):
case-insensitive yes / true / 1 and no / false / 0. -/
def get_bool (value : String) : Option Bool :=
  let v := str_lcase value
  if v == "yes" || v == "true" || v == "1" then some true
  else if v == "no" || v == "false" || v == "0" then some false
  else none

/-- Value of a string of decimal digits, most significant first. -/
def parse_digits : List Char → Nat → Option Nat
  | [], acc => some acc
  | c :: cs, acc =>
    if c.isDigit then parse_digits cs (acc * 10 + (c.toNat - 48)) else none

/-- Bounds of the C type int. -/
def INT_MAX : Int := 2147483647

def INT_MIN : Int := -2147483648

/-- Modelled from the spec: the integer syntax of the field assigner: base 10,
optional sign, at least one digit, within the range of int. -/
def get_int (value : String) : Option Int :=
  let check (neg : Bool) (ds : List Char) : Option Int :=
    if ds.isEmpty then none
    else match parse_digits ds 0 with
      | none => none
      | some n =>
        let i : Int := if neg then -(n : Int) else (n : Int)
        if INT_MIN ≤ i ∧ i ≤ INT_MAX then some i else none
  match value.toList with
  | '-' :: ds => check true ds
  | '+' :: ds => check false ds
  | ds => check false ds

/-- Modelled from the spec: `parse_setting_from_defs` of the settings library,
the generic field assigner of section 4.2. The first row of the schema whose
name is `key` decides the kind; the parsed value is written through the
accessor of that row; an absent key or an unparsable value is an error and
writes nothing. The result is the error message or the updated struct. -/
def parse_setting_from_defs (defs : List setting_def) (base : fields)
    (key value : String) : Except String fields :=
  match defs.find? (fun d => d.name == key) with
  | none => .error ("Unknown setting: " ++ key)
  | some d =>
    match d.type with
    | SET_STR => .ok (Function.update base d.name (.str (some value)))
    | SET_INT =>
      match get_int value with
      | some i => .ok (Function.update base d.name (.int i))
      | none => .error ("Invalid number: " ++ value)
    | SET_BOOL =>
      match get_bool value with
      | some b => .ok (Function.update base d.name (.bool b))
      | none => .error ("Invalid boolean: " ++ value)

/-! ## Pointers into the tree and the parse context

A callback returns `Except`: an error carries the message the C function
reports (through its return value or `*errormsg`), success carries the context
after the call. Dereferencing a pointer that has no target is undefined in C;
it is reported as the error `null_deref`. -/

def null_deref : String := "NULL pointer dereference"

/-- A pointer to a struct `auth_socket_settings`: the auth backend it was
appended to and its position in that socket list. -/
structure auth_socket_ptr where
  auth : auth_ptr
  idx : Nat
  deriving DecidableEq, Repr

/-- The two `socket_settings` members of an auth socket. -/
inductive socket_slot
  | master
  | client
  deriving DecidableEq, Repr

/-- A pointer to a struct `socket_settings`: `&auth_socket->master` or
`&auth_socket->client`. -/
structure socket_ptr where
  auth_socket : auth_socket_ptr
  slot : socket_slot
  deriving DecidableEq, Repr

/-- A pointer to a struct `namespace_settings`: the server and the position in
its namespace list. -/
structure namespace_ptr where
  server : Nat
  idx : Nat
  deriving DecidableEq, Repr

/-- The struct `settings_parse_ctx`. `root` is the server list that `ctx->root`
points to, in allocation order; `server` is the position of `ctx->server` in
it. -/
structure settings_parse_ctx where
  type : settings_type
  parent_type : settings_type
  protocol : mail_protocol
  root : List server_settings
  server : Nat
  auth : auth_ptr
  socket : Option socket_ptr
  auth_socket : Option auth_socket_ptr
  namespace_ : Option namespace_ptr
  level : Int

/-- The auth backend a pointer refers to. New backends are linked in at the head
of `auths`, so the `n`-th one created is `n` places before the end. -/
def auth_read (root : List server_settings) : auth_ptr → Option auth_settings
  | .null => none
  | .defaults s => (root[s]?).map (fun srv => srv.auth_defaults)
  | .node s n =>
    match root[s]? with
    | none => none
    | some srv =>
      if n < srv.auths.length then srv.auths[srv.auths.length - 1 - n]? else none

/-- Store through an auth pointer. -/
def auth_write (root : List server_settings) (p : auth_ptr) (a : auth_settings) :
    List server_settings :=
  match p with
  | .null => root
  | .defaults s =>
    match root[s]? with
    | none => root
    | some srv => root.set s { srv with auth_defaults := a }
  | .node s n =>
    match root[s]? with
    | none => root
    | some srv =>
      if n < srv.auths.length then
        root.set s { srv with auths := srv.auths.set (srv.auths.length - 1 - n) a }
      else root

/-- The auth socket a pointer refers to. -/
def auth_socket_read (root : List server_settings) (p : auth_socket_ptr) :
    Option auth_socket_settings :=
  match auth_read root p.auth with
  | none => none
  | some a => a.sockets[p.idx]?

/-- Store through an auth socket pointer. -/
def auth_socket_write (root : List server_settings) (p : auth_socket_ptr)
    (as : auth_socket_settings) : List server_settings :=
  match auth_read root p.auth with
  | none => root
  | some a => auth_write root p.auth { a with sockets := a.sockets.set p.idx as }

/-- The socket settings a pointer refers to. -/
def socket_read (root : List server_settings) (p : socket_ptr) : Option socket_settings :=
  match auth_socket_read root p.auth_socket with
  | none => none
  | some as =>
    match p.slot with
    | .master => some as.master
    | .client => some as.client

/-- Store through a socket pointer. -/
def socket_write (root : List server_settings) (p : socket_ptr) (so : socket_settings) :
    List server_settings :=
  match auth_socket_read root p.auth_socket with
  | none => root
  | some as =>
    match p.slot with
    | .master => auth_socket_write root p.auth_socket { as with master := so }
    | .client => auth_socket_write root p.auth_socket { as with client := so }

/-- The namespace a pointer refers to. -/
def namespace_read (root : List server_settings) (p : namespace_ptr) :
    Option namespace_settings :=
  match root[p.server]? with
  | none => none
  | some srv => srv.namespaces[p.idx]?

/-- Store through a namespace pointer. -/
def namespace_write (root : List server_settings) (p : namespace_ptr)
    (ns : namespace_settings) : List server_settings :=
  match root[p.server]? with
  | none => root
  | some srv => root.set p.server { srv with namespaces := srv.namespaces.set p.idx ns }

/-! ## Constructors of the tree

A constructor returns the pointer to the new object, or the message stored in
`*errormsg` when it returns NULL, together with the tree after the call. -/

/-- The function `auth_settings_new`: copy the defaults of the server, set
`parent` and `name`, link the new backend in at the head of `server->auths`. -/
def auth_settings_new (root : List server_settings) (server : Nat) (name : String) :
    Except String auth_ptr × List server_settings :=
  match root[server]? with
  | none => (.error null_deref, root)
  | some srv =>
    let auth : auth_settings :=
      { srv.auth_defaults with parent := some server, name := some name }
    (.ok (auth_ptr.node server srv.auths.length),
     root.set server { srv with auths := auth :: srv.auths })

def parse_new_auth (root : List server_settings) (server : Nat) (name : String) :
    Except String auth_ptr × List server_settings :=
  if strchr name '/' then
    (.error "Authentication process name must not contain '/'", root)
  else
    match root[server]? with
    | none => (.error null_deref, root)
    | some srv =>
      if srv.auths.any (fun auth => auth.name == some name) then
        (.error "Authentication process already exists with the same name", root)
      else auth_settings_new root server name

/-- The function `auth_socket_settings_new`: a zeroed socket with `parent` and
the lower-cased `type`, appended at the end of `auth->sockets`. -/
def auth_socket_settings_new (root : List server_settings) (auth : auth_ptr)
    (type : String) : Except String auth_socket_ptr × List server_settings :=
  match auth_read root auth with
  | none => (.error null_deref, root)
  | some a =>
    let as : auth_socket_settings :=
      { parent := auth
        vals := Function.update fields_zero "type" (set_value.str (some (str_lcase type)))
        master := ⟨fields_zero⟩
        client := ⟨fields_zero⟩ }
    (.ok ⟨auth, a.sockets.length⟩,
     auth_write root auth { a with sockets := a.sockets ++ [as] })

def parse_new_auth_socket (root : List server_settings) (auth : auth_ptr)
    (name : String) : Except String auth_socket_ptr × List server_settings :=
  if name != "connect" && name != "listen" then
    (.error "Unknown auth socket type", root)
  else
    match auth_read root auth with
    | none => (.error null_deref, root)
    | some a =>
      if (!a.sockets.isEmpty && name == "connect") ||
         (!a.sockets.isEmpty &&
          (a.sockets.head?.bind auth_socket_settings.type) == some "listen") then
        (.error "With connect auth socket no other sockets can be used in same auth section",
         root)
      else auth_socket_settings_new root auth name

/-- The function `namespace_settings_new`: a zeroed namespace with `parent` and
the lower-cased `type`, appended at the end of `server->namespaces`. -/
def namespace_settings_new (root : List server_settings) (server : Nat)
    (type : String) : Except String namespace_ptr × List server_settings :=
  match root[server]? with
  | none => (.error null_deref, root)
  | some srv =>
    let ns : namespace_settings :=
      { parent := some server
        vals := Function.update fields_zero "type" (set_value.str (some (str_lcase type))) }
    (.ok ⟨server, srv.namespaces.length⟩,
     root.set server { srv with namespaces := srv.namespaces ++ [ns] })

def parse_new_namespace (root : List server_settings) (server : Nat) (name : String) :
    Except String namespace_ptr × List server_settings :=
  if !strcasecmp_eq name "private" && !strcasecmp_eq name "shared" &&
     !strcasecmp_eq name "public" then
    (.error "Unknown namespace type", root)
  else namespace_settings_new root server name

/-- The function `create_new_server`. `self` is the position the new server
takes in the server list, the target of the back-references
`server->imap->server` and `server->pop3->server`. -/
def create_new_server (cfg : build_config) (self : Nat) (name : String)
    (imap_defaults pop3_defaults : settings) : server_settings where
  name := some name
  defaults := none
  imap := some
    { imap_defaults with
      server := some self
      protocol := MAIL_PROTOCOL_IMAP
      vals :=
        Function.update
          (Function.update
            (Function.update imap_defaults.vals "login_executable"
              (set_value.str (some (cfg.PKG_LIBEXECDIR ++ "/imap-login"))))
            "mail_executable" (set_value.str (some (cfg.PKG_LIBEXECDIR ++ "/imap"))))
          "mail_modules" (set_value.str (some (cfg.MODULEDIR ++ "/imap"))) }
  pop3 := some
    { pop3_defaults with
      server := some self
      protocol := MAIL_PROTOCOL_POP3
      vals :=
        Function.update
          (Function.update
            (Function.update pop3_defaults.vals "login_executable"
              (set_value.str (some (cfg.PKG_LIBEXECDIR ++ "/pop3-login"))))
            "mail_executable" (set_value.str (some (cfg.PKG_LIBEXECDIR ++ "/pop3"))))
          "mail_modules" (set_value.str (some (cfg.MODULEDIR ++ "/pop3"))) }
  auth_defaults := default_auth_settings cfg
  auths := []
  namespaces := []
  login_gid := 0

/-! ## The two callbacks of the section state machine -/

/-- One attempt of `parse_setting` at Root or Server scope: assign the key in
the schema `setting_defs` on one protocol settings object of the server. The
result is the error (or none) and the server after the attempt. -/
def assign_protocol (server : server_settings) (proto : mail_protocol)
    (key value : String) : Option String × server_settings :=
  match proto with
  | MAIL_PROTOCOL_POP3 =>
    match server.pop3 with
    | none => (some null_deref, server)
    | some set =>
      match parse_setting_from_defs setting_defs set.vals key value with
      | .ok v => (none, { server with pop3 := some { set with vals := v } })
      | .error e => (some e, server)
  | _ =>
    match server.imap with
    | none => (some null_deref, server)
    | some set =>
      match parse_setting_from_defs setting_defs set.vals key value with
      | .ok v => (none, { server with imap := some { set with vals := v } })
      | .error e => (some e, server)

/-- Assignment in the schema `auth_setting_defs` through `ctx->auth`. -/
def assign_auth (ctx : settings_parse_ctx) (key value : String) :
    Except String settings_parse_ctx :=
  match auth_read ctx.root ctx.auth with
  | none => .error null_deref
  | some a =>
    match parse_setting_from_defs auth_setting_defs a.vals key value with
    | .ok v => .ok { ctx with root := auth_write ctx.root ctx.auth { a with vals := v } }
    | .error e => .error e

/-- The two attempts of `parse_setting` at Root or Server scope: the imap
settings if the protocol scope is Any or Imap, then, if no error occurred, the
pop3 settings if the scope is Any or Pop3. The result is the value of `error`
after the attempts and the server after them. -/
def assign_protocols (protocol : mail_protocol) (server : server_settings)
    (key value : String) : Option String × server_settings :=
  let r1 : Option String × server_settings :=
    if protocol == MAIL_PROTOCOL_ANY || protocol == MAIL_PROTOCOL_IMAP then
      assign_protocol server MAIL_PROTOCOL_IMAP key value
    else (none, server)
  if r1.1 == none && (protocol == MAIL_PROTOCOL_ANY || protocol == MAIL_PROTOCOL_POP3) then
    assign_protocol r1.2 MAIL_PROTOCOL_POP3 key value
  else r1

/-- The cases `SETTINGS_TYPE_ROOT` and `SETTINGS_TYPE_SERVER` of the switch in
`parse_setting`. -/
def parse_setting_server (key value : String) (ctx : settings_parse_ctx) :
    Except String settings_parse_ctx :=
  match ctx.root[ctx.server]? with
  | none => .error null_deref
  | some server =>
    let r := assign_protocols ctx.protocol server key value
    let ctx2 : settings_parse_ctx := { ctx with root := ctx.root.set ctx.server r.2 }
    match r.1 with
    | none => .ok ctx2
    | some error =>
      if strncmp_eq key "auth_" then assign_auth ctx2 (str_skip key 5) value
      else .error error

/-- The case `SETTINGS_TYPE_AUTH_SOCKET` of the switch in `parse_setting`. -/
def parse_setting_auth_socket (key value : String) (ctx : settings_parse_ctx) :
    Except String settings_parse_ctx :=
  match ctx.auth_socket with
  | none => .error null_deref
  | some p =>
    match auth_socket_read ctx.root p with
    | none => .error null_deref
    | some as =>
      match parse_setting_from_defs auth_socket_setting_defs as.vals key value with
      | .ok v => .ok { ctx with root := auth_socket_write ctx.root p { as with vals := v } }
      | .error e => .error e

/-- The case `SETTINGS_TYPE_NAMESPACE` of the switch in `parse_setting`. -/
def parse_setting_namespace (key value : String) (ctx : settings_parse_ctx) :
    Except String settings_parse_ctx :=
  match ctx.namespace_ with
  | none => .error null_deref
  | some p =>
    match namespace_read ctx.root p with
    | none => .error null_deref
    | some ns =>
      match parse_setting_from_defs namespace_setting_defs ns.vals key value with
      | .ok v => .ok { ctx with root := namespace_write ctx.root p { ns with vals := v } }
      | .error e => .error e

/-- The case `SETTINGS_TYPE_SOCKET` of the switch in `parse_setting`. -/
def parse_setting_socket (key value : String) (ctx : settings_parse_ctx) :
    Except String settings_parse_ctx :=
  match ctx.socket with
  | none => .error null_deref
  | some p =>
    match socket_read ctx.root p with
    | none => .error null_deref
    | some so =>
      match parse_setting_from_defs socket_setting_defs so.vals key value with
      | .ok v => .ok { ctx with root := socket_write ctx.root p { vals := v } }
      | .error e => .error e

def parse_setting (key value : String) (ctx : settings_parse_ctx) :
    Except String settings_parse_ctx :=
  /- backwards compatibility -/
  if key == "auth" then
    match parse_new_auth ctx.root ctx.server value with
    | (.ok auth, root) => .ok { ctx with root := root, auth := auth }
    | (.error error, _) => .error error
  else if key == "login" then
    .ok ctx
  else
    match ctx.type with
    | SETTINGS_TYPE_ROOT => parse_setting_server key value ctx
    | SETTINGS_TYPE_SERVER => parse_setting_server key value ctx
    | SETTINGS_TYPE_AUTH =>
      assign_auth ctx (if strncmp_eq key "auth_" then str_skip key 5 else key) value
    | SETTINGS_TYPE_AUTH_SOCKET => parse_setting_auth_socket key value ctx
    | SETTINGS_TYPE_NAMESPACE => parse_setting_namespace key value ctx
    | SETTINGS_TYPE_SOCKET => parse_setting_socket key value ctx

/-- The closing branch of `parse_section` (`type == NULL`). -/
def parse_section_close (ctx : settings_parse_ctx) : settings_parse_ctx :=
  if ctx.level - 1 > 0 then
    { ctx with
      level := ctx.level - 1
      type := ctx.parent_type
      protocol := MAIL_PROTOCOL_ANY
      parent_type :=
        match ctx.parent_type with
        | SETTINGS_TYPE_AUTH_SOCKET => SETTINGS_TYPE_AUTH
        | _ => SETTINGS_TYPE_ROOT }
  else
    { ctx with
      level := ctx.level - 1
      type := SETTINGS_TYPE_ROOT
      server := 0
      auth := auth_ptr.defaults 0
      namespace_ := none }

/-- The branch `strcmp (type, "server") == 0` of `parse_section`: the new
server copies the imap and pop3 settings of the active server and is linked
after the last server of the list. -/
def section_server (cfg : build_config) (name : String) (ctx : settings_parse_ctx) :
    Except String settings_parse_ctx :=
  if ctx.type != SETTINGS_TYPE_ROOT then
    .error "Server section not allowed here"
  else
    match ctx.root[ctx.server]? with
    | none => .error null_deref
    | some cur =>
      match cur.imap, cur.pop3 with
      | some imap, some pop3 =>
        .ok { ctx with
              type := SETTINGS_TYPE_SERVER
              server := ctx.root.length
              root := ctx.root ++ [create_new_server cfg ctx.root.length name imap pop3] }
      | _, _ => .error null_deref

/-- The branch `strcmp (type, "protocol") == 0` of `parse_section`. -/
def section_protocol (name : String) (ctx : settings_parse_ctx) :
    Except String settings_parse_ctx :=
  if (ctx.type != SETTINGS_TYPE_ROOT && ctx.type != SETTINGS_TYPE_SERVER) ||
     ctx.level != 1 then
    .error "Protocol section not allowed here"
  else if name == "imap" then
    .ok { ctx with protocol := MAIL_PROTOCOL_IMAP }
  else if name == "pop3" then
    .ok { ctx with protocol := MAIL_PROTOCOL_POP3 }
  else .error "Unknown protocol name"

/-- The branch `strcmp (type, "auth") == 0` of `parse_section`. -/
def section_auth (name : String) (ctx : settings_parse_ctx) :
    Except String settings_parse_ctx :=
  if ctx.type != SETTINGS_TYPE_ROOT && ctx.type != SETTINGS_TYPE_SERVER then
    .error "Auth section not allowed here"
  else
    match parse_new_auth ctx.root ctx.server name with
    | (.ok auth, root) =>
      .ok { ctx with type := SETTINGS_TYPE_AUTH, root := root, auth := auth }
    | (.error e, _) => .error e

/-- The branch of `parse_section` for a socket section inside an auth section. -/
def section_socket (name : String) (ctx : settings_parse_ctx) :
    Except String settings_parse_ctx :=
  match parse_new_auth_socket ctx.root ctx.auth name with
  | (.ok as, root) =>
    .ok { ctx with type := SETTINGS_TYPE_AUTH_SOCKET, root := root, auth_socket := some as }
  | (.error e, _) => .error e

/-- The branches `master` and `client` of `parse_section` inside an auth socket
section: `ctx->socket` is bound to the corresponding member. -/
def section_master_client (slot : socket_slot) (ctx : settings_parse_ctx) :
    Except String settings_parse_ctx :=
  match ctx.auth_socket with
  | none => .error null_deref
  | some as => .ok { ctx with type := SETTINGS_TYPE_SOCKET, socket := some ⟨as, slot⟩ }

/-- The branch `strcmp (type, "namespace") == 0` of `parse_section`. When it is
reached from an auth socket scope the type has become `SETTINGS_TYPE_SOCKET`;
both are refused here. -/
def section_namespace (name : String) (ctx : settings_parse_ctx) :
    Except String settings_parse_ctx :=
  if ctx.type != SETTINGS_TYPE_ROOT && ctx.type != SETTINGS_TYPE_SERVER then
    .error "Namespace section not allowed here"
  else
    match parse_new_namespace ctx.root ctx.server name with
    | (.ok ns, root) =>
      .ok { ctx with type := SETTINGS_TYPE_NAMESPACE, root := root, namespace_ := some ns }
    | (.error e, _) => .error e

/-- The opening branch of `parse_section`, after `ctx->level++` and
`ctx->parent_type = ctx->type` (already applied to `ctx`). -/
def parse_section_open (cfg : build_config) (type name : String)
    (ctx : settings_parse_ctx) : Except String settings_parse_ctx :=
  if type == "server" then section_server cfg name ctx
  else if type == "protocol" then section_protocol name ctx
  else if type == "auth" then section_auth name ctx
  else if ctx.type == SETTINGS_TYPE_AUTH && type == "socket" then section_socket name ctx
  else if ctx.type == SETTINGS_TYPE_AUTH_SOCKET && type == "master" then
    section_master_client .master ctx
  else if ctx.type == SETTINGS_TYPE_AUTH_SOCKET && type == "client" then
    section_master_client .client ctx
  else if type == "namespace" then section_namespace name ctx
  else .error "Unknown section type"

/-- The callback `parse_section`; `type` is none for a closing section. -/
def parse_section (cfg : build_config) (type : Option String) (name : String)
    (ctx : settings_parse_ctx) : Except String settings_parse_ctx :=
  match type with
  | none => .ok (parse_section_close ctx)
  | some t =>
    parse_section_open cfg t name
      { ctx with level := ctx.level + 1, parent_type := ctx.type }

/-! ## The tokenizer -/

/-- What the tokenizer delivers for a configuration source: a `key = value`
line, a section event (`type` is none for a closing section), or a place where
the tokenizer itself rejects the source. -/
inductive settings_event
  | key_value (key value : String)
  | sect (type : Option String) (name : String)
  | invalid

/-- Modelled from the spec: `settings_read` of the settings library (section 6,
tokenizer / reader). The events of the source are handed to the two callbacks
in order; the first rejection, by a callback or by the tokenizer, stops the
reading and makes the result FALSE. The context returned with FALSE is the one
before the rejected event. -/
def settings_read {γ : Type} (input : List settings_event)
    (callback : String → String → γ → Except String γ)
    (sect_callback : Option String → String → γ → Except String γ) :
    γ → Bool × γ :=
  fun context =>
    match input with
    | [] => (true, context)
    | .key_value key value :: rest =>
      match callback key value context with
      | .ok c => settings_read rest callback sect_callback c
      | .error _ => (false, context)
    | .sect type name :: rest =>
      match sect_callback type name context with
      | .ok c => settings_read rest callback sect_callback c
      | .error _ => (false, context)
    | .invalid :: _ => (false, context)

/-! ## The operating environment -/

/-- The members of struct passwd that are read. -/
structure passwd where
  pw_uid : Nat
  pw_gid : Nat

/-- The operating system as seen by the validator. `σ` is the state of the
system (file system, user database); `access` is true when the C call returns
0; the two directory primitives change the state. -/
structure os_env (σ : Type) where
  master_uid : Nat
  getegid : σ → Nat
  getpwnam : σ → String → Option passwd
  access : σ → String → Nat → Bool
  safe_mkdir : σ → String → Nat → Nat → Nat → Int × σ
  unlink_directory : σ → String → Bool → Int × σ

def X_OK : Nat := 1

def W_OK : Nat := 2

def R_OK : Nat := 4

/-- How a call ends: it returns TRUE or FALSE, or the process exits in
`i_fatal`. -/
inductive call_result
  | returned (b : Bool)
  | exited
  deriving DecidableEq, Repr

/-! ## The validator -/

/-- String field of a settings object. -/
def settings.str (set : settings) (name : String) : Option String :=
  (set.vals name).get_str

/-- Integer field of a settings object. -/
def settings.int (set : settings) (name : String) : Int :=
  (set.vals name).get_int

/-- Boolean field of a settings object. -/
def settings.bool (set : settings) (name : String) : Bool :=
  (set.vals name).get_bool

/-- The function `fix_base_path`, as the new value of `*str`. -/
def fix_base_path (set : settings) (str : Option String) : Option String :=
  match str with
  | none => none
  | some s =>
    match s.toList with
    | [] => some s
    | c :: _ =>
      if c != '/' then some (cstr (set.str "base_dir") ++ "/" ++ s) else some s

/-- The function `get_login_uid`; the result holds the settings object and the
`login_gid` of its server after the call. -/
def get_login_uid {σ : Type} (env : os_env σ) (os : σ) (set : settings)
    (login_gid : Nat) : Bool × settings × Nat :=
  match env.getpwnam os (cstr (set.str "login_user")) with
  | none => (false, set, login_gid)
  | some pw =>
    if login_gid == 0 then (true, { set with login_uid := pw.pw_uid }, pw.pw_gid)
    else if login_gid != pw.pw_gid then (false, set, login_gid)
    else (true, { set with login_uid := pw.pw_uid }, login_gid)

/-- The settings object `server->defaults` points to. -/
def server_settings.defaults_set (server : server_settings) : Option settings :=
  match server.defaults with
  | some MAIL_PROTOCOL_IMAP => server.imap
  | some MAIL_PROTOCOL_POP3 => server.pop3
  | _ => none

/-- Set `ssl_verify_client_cert = TRUE` in a settings object that is present. -/
def force_verify_client_cert (set : Option settings) : Option settings :=
  set.map (fun s =>
    { s with vals := Function.update s.vals "ssl_verify_client_cert" (set_value.bool true) })

/-- The function `auth_settings_verify`. `server` is `auth->parent`, the server
whose list holds the backend; the result holds the backend and the server
after the call. -/
def auth_settings_verify {σ : Type} (env : os_env σ) (os : σ)
    (server : server_settings) (auth : auth_settings) :
    Bool × auth_settings × server_settings :=
  match env.getpwnam os (cstr ((auth.vals "user").get_str)) with
  | none => (false, auth, server)
  | some pw =>
    match server.defaults_set with
    | none => (false, auth, server)
    | some defaults =>
      if defaults.login_uid == pw.pw_uid && env.master_uid != pw.pw_uid then
        (false, auth, server)
      else
        let auth1 : auth_settings := { auth with uid := pw.pw_uid, gid := pw.pw_gid }
        if !env.access os (t_strcut (cstr ((auth1.vals "executable").get_str)) ' ') X_OK then
          (false, auth1, server)
        else
          let chroot := fix_base_path defaults ((auth1.vals "chroot").get_str)
          let auth2 : auth_settings :=
            { auth1 with vals := Function.update auth1.vals "chroot" (set_value.str chroot) }
          match chroot with
          | some dir =>
            if !env.access os dir X_OK then (false, auth2, server)
            else if (auth2.vals "ssl_require_client_cert").get_bool then
              (true, auth2,
                { server with
                  pop3 := force_verify_client_cert server.pop3
                  imap := force_verify_client_cert server.imap })
            else (true, auth2, server)
          | none =>
            if (auth2.vals "ssl_require_client_cert").get_bool then
              (true, auth2,
                { server with
                  pop3 := force_verify_client_cert server.pop3
                  imap := force_verify_client_cert server.imap })
            else (true, auth2, server)

/-- The function `namespace_settings_verify`: a separator that is present may
not have a second byte (`separator[0] != 0 && separator[1] != 0` is refused).
The bytes of the C string are those of the UTF-8 encoding. -/
def namespace_settings_verify (ns : namespace_settings) : Bool :=
  match (ns.vals "separator").get_str with
  | none => true
  | some sep => decide (sep.utf8ByteSize < 2)

/-- The function `get_directory`: the part before the last slash, or a dot. -/
def get_directory (path : String) : String :=
  if path.toList.contains '/' then
    String.mk ((path.toList.reverse.dropWhile (fun c => c != '/')).drop 1).reverse
  else "."

def settings_is_active (set : settings) : Bool :=
  if set.protocol == MAIL_PROTOCOL_IMAP then strstr (cstr (set.str "protocols")) "imap"
  else strstr (cstr (set.str "protocols")) "pop3"

/-- The function `settings_have_connect_sockets`; `servers` is the list that
starts at `set->server`. -/
def settings_have_connect_sockets (servers : List server_settings) : Bool :=
  servers.any (fun server =>
    server.auths.any (fun auth =>
      !auth.sockets.isEmpty &&
        (auth.sockets.head?.bind auth_socket_settings.type) == some "connect"))

/-- The checks of `settings_verify` that follow the second `safe_mkdir`: the
process limits, the uid and gid ranges, the login executable. -/
def settings_verify_limits {σ : Type} (env : os_env σ) (os : σ) (set : settings) : Bool :=
  if set.int "max_mail_processes" < 1 then false
  else if set.int "last_valid_uid" != 0 &&
      decide (set.int "first_valid_uid" > set.int "last_valid_uid") then false
  else if set.int "last_valid_gid" != 0 &&
      decide (set.int "first_valid_gid" > set.int "last_valid_gid") then false
  else if !env.access os (t_strcut (cstr (set.str "login_executable")) ' ') X_OK then false
  else if set.int "login_processes_count" < 1 then false
  else if set.int "login_max_logging_users" < 1 then false
  else true

/-- The step `fix relative paths` of `settings_verify`: `ssl_parameters_file`
and `login_dir` are made absolute. -/
def settings_fix_paths (set : settings) : settings :=
  let set1 : settings :=
    { set with
      vals := Function.update set.vals "ssl_parameters_file"
        (set_value.str (fix_base_path set (set.str "ssl_parameters_file"))) }
  { set1 with
    vals := Function.update set1.vals "login_dir"
      (set_value.str (fix_base_path set1 (set1.str "login_dir"))) }

/-- The login directory is emptied unless a connect socket is in use; the
result is the return value of `unlink_directory` (0 when it is not called) and
the state of the system. -/
def settings_unlink_login_dir {σ : Type} (env : os_env σ) (os : σ) (set : settings)
    (servers : List server_settings) : Int × σ :=
  if !settings_have_connect_sockets servers then
    env.unlink_directory os (cstr (set.str "login_dir")) false
  else (0, os)

/-- The part of `settings_verify` after `fix relative paths`: the base
directory is created, the login directory is emptied (unless a connect socket
is in use) and created, then the limits are checked. `servers` is the list
that starts at `set->server`. -/
def settings_verify_dirs {σ : Type} (env : os_env σ) (os : σ) (set : settings)
    (login_gid : Nat) (servers : List server_settings) : call_result × σ :=
  let os1 := (env.safe_mkdir os (cstr (set.str "base_dir")) 448 env.master_uid
    (env.getegid os)).2
  match settings_unlink_login_dir env os1 set servers with
  | (ret, os2) =>
    if ret < 0 then (.returned false, os2)
    else
      let os3 := (env.safe_mkdir os2 (cstr (set.str "login_dir")) 488 env.master_uid
        login_gid).2
      (.returned (settings_verify_limits env os3 set), os3)

/-- The function `settings_verify`. `server` is `set->server`, the server that
owns the settings object, and `next` the servers linked after it; the result
holds the settings object, the `login_gid` of the server and the state of the
system after the call. -/
def settings_verify {σ : Type} (cfg : build_config) (env : os_env σ) (os : σ)
    (set : settings) (server : server_settings) (next : List server_settings) :
    call_result × settings × Nat × σ :=
  match get_login_uid env os set server.login_gid with
  | (false, set1, gid) => (.returned false, set1, gid, os)
  | (true, set1, gid) =>
    if !env.access os (t_strcut (cstr (set1.str "mail_executable")) ' ') X_OK then
      (.returned false, set1, gid, os)
    else if cfg.HAVE_MODULES && set1.bool "mail_use_modules" &&
        !env.access os (cstr (set1.str "mail_modules")) (R_OK ||| X_OK) then
      (.returned false, set1, gid, os)
    else if (match set1.str "log_path" with
        | none => false
        | some path => !env.access os path W_OK && !env.access os (get_directory path) W_OK) then
      (.returned false, set1, gid, os)
    else if (match set1.str "info_log_path" with
        | none => false
        | some path => !env.access os path W_OK && !env.access os (get_directory path) W_OK) then
      (.returned false, set1, gid, os)
    else if cfg.HAVE_SSL && !set1.bool "ssl_disable" &&
        (match set1.str "ssl_ca_file" with
         | none => false
         | some path => !env.access os path R_OK) then
      (.exited, set1, gid, os)
    else if cfg.HAVE_SSL && !set1.bool "ssl_disable" &&
        !env.access os (cstr (set1.str "ssl_cert_file")) R_OK then
      (.returned false, set1, gid, os)
    else if cfg.HAVE_SSL && !set1.bool "ssl_disable" &&
        !env.access os (cstr (set1.str "ssl_key_file")) R_OK then
      (.returned false, set1, gid, os)
    else
      let set2 := settings_fix_paths set1
      match settings_verify_dirs env os set2 gid ({ server with login_gid := gid } :: next) with
      | (r, os1) => (r, set2, gid, os1)

/-! ## The validation loop of `master_settings_read` -/

/-- The imap part of one loop iteration: an inactive imap object is dropped, an
active one is verified (unless `nochecks`) and becomes `server->defaults`. -/
def check_imap {σ : Type} (cfg : build_config) (env : os_env σ) (nochecks : Bool) (os : σ)
    (server : server_settings) (next : List server_settings) :
    call_result × server_settings × σ :=
  match server.imap with
  | none => (.returned false, server, os)
  | some imap =>
    if !settings_is_active imap then (.returned true, { server with imap := none }, os)
    else if !nochecks then
      match settings_verify cfg env os imap server next with
      | (.returned true, set, gid, os1) =>
        (.returned true,
          { server with
            imap := some set
            login_gid := gid
            defaults := some MAIL_PROTOCOL_IMAP },
          os1)
      | (r, set, gid, os1) =>
        (r, { server with imap := some set, login_gid := gid }, os1)
    else (.returned true, { server with defaults := some MAIL_PROTOCOL_IMAP }, os)

/-- The pop3 part of one loop iteration. -/
def check_pop3 {σ : Type} (cfg : build_config) (env : os_env σ) (nochecks : Bool) (os : σ)
    (server : server_settings) (next : List server_settings) :
    call_result × server_settings × σ :=
  match server.pop3 with
  | none => (.returned false, server, os)
  | some pop3 =>
    if !settings_is_active pop3 then (.returned true, { server with pop3 := none }, os)
    else if !nochecks then
      match settings_verify cfg env os pop3 server next with
      | (.returned true, set, gid, os1) =>
        (.returned true,
          { server with
            pop3 := some set
            login_gid := gid
            defaults :=
              if server.defaults.isNone then some MAIL_PROTOCOL_POP3 else server.defaults },
          os1)
      | (r, set, gid, os1) =>
        (r, { server with pop3 := some set, login_gid := gid }, os1)
    else
      (.returned true,
        { server with
          defaults :=
            if server.defaults.isNone then some MAIL_PROTOCOL_POP3 else server.defaults },
        os)

/-- The loop over the auth backends of a server: `done` holds the backends
already verified (in list order), the second argument those still to verify. -/
def verify_auths {σ : Type} (env : os_env σ) (os : σ) :
    server_settings → List auth_settings → List auth_settings →
    Bool × server_settings
  | server, done, [] => (true, { server with auths := done })
  | server, done, auth :: rest =>
    match auth_settings_verify env os { server with auths := done ++ auth :: rest } auth with
    | (true, auth1, server1) => verify_auths env os server1 (done ++ [auth1]) rest
    | (false, auth1, server1) => (false, { server1 with auths := done ++ auth1 :: rest })

/-- The end of one loop iteration for a server that keeps a protocol: it must
have an auth backend; unless `nochecks`, every backend and every namespace is
verified. -/
def check_auths {σ : Type} (env : os_env σ) (nochecks : Bool) (os : σ)
    (server : server_settings) : Bool × server_settings :=
  if server.auths.isEmpty then (false, server)
  else if !nochecks then
    match verify_auths env os server [] server.auths with
    | (false, server1) => (false, server1)
    | (true, server1) => (server1.namespaces.all namespace_settings_verify, server1)
  else (true, server)

/-- One iteration of the loop over the servers, up to the decision whether the
server stays linked. -/
def verify_server {σ : Type} (cfg : build_config) (env : os_env σ) (nochecks : Bool)
    (os : σ) (server : server_settings) (next : List server_settings) :
    call_result × server_settings × σ :=
  match server.imap, server.pop3 with
  | some imap, some pop3 =>
    if (imap.str "protocols").isNone || (pop3.str "protocols").isNone then
      (.returned false, server, os)
    else
      match check_imap cfg env nochecks os server next with
      | (.returned true, server1, os1) =>
        match check_pop3 cfg env nochecks os1 server1 next with
        | (.returned true, server2, os2) =>
          if server2.defaults.isNone then (.returned true, server2, os2)
          else
            let r := check_auths env nochecks os2 server2
            (.returned r.1, r.2, os2)
        | r => r
      | r => r
  | _, _ => (.returned false, server, os)

/-- The loop `for (server = ctx.root; server != NULL; server = server->next)`:
the result holds the list that starts at `ctx.root` after the loop, from
which the servers without an active protocol have been unlinked. -/
def verify_servers {σ : Type} (cfg : build_config) (env : os_env σ) (nochecks : Bool) :
    σ → List server_settings → call_result × List server_settings × σ
  | os, [] => (.returned true, [], os)
  | os, server :: next =>
    match verify_server cfg env nochecks os server next with
    | (.returned true, server1, os1) =>
      match verify_servers cfg env nochecks os1 next with
      | (r, servers, os2) =>
        if server1.defaults.isNone then (r, servers, os2)
        else (r, server1 :: servers, os2)
    | (r, server1, os1) => (r, server1 :: next, os1)

/-! ## The two pools and the published root -/

/-- The two pools created by `master_settings_init`. -/
inductive pool_t
  | settings
  | settings2
  deriving DecidableEq, Repr

/-- The global state of the module: which pool each of the two variables
holds, the server list allocated in each pool, and `settings_root`, which is
NULL or points to the first server of the list in a pool. -/
structure master_state where
  settings_pool : pool_t
  settings2_pool : pool_t
  mem : pool_t → List server_settings
  settings_root : Option pool_t

/-- The tree `settings_root` refers to. -/
def master_state.published (st : master_state) : List server_settings :=
  match st.settings_root with
  | none => []
  | some p => st.mem p

def master_settings_init : master_state where
  settings_pool := pool_t.settings
  settings2_pool := pool_t.settings2
  mem := fun _ => []
  settings_root := none

/-- The call `p_clear (settings_pool)`. -/
def p_clear_settings_pool (st : master_state) : master_state :=
  { st with mem := Function.update st.mem st.settings_pool [] }

/-- The tree under construction is stored in the pool `settings_pool`. -/
def store_pending (st : master_state) (root : List server_settings) : master_state :=
  { st with mem := Function.update st.mem st.settings_pool root }

/-- The context `master_settings_read` starts the tokenizer with. -/
def initial_ctx (cfg : build_config) : settings_parse_ctx where
  type := SETTINGS_TYPE_ROOT
  parent_type := SETTINGS_TYPE_ROOT
  protocol := MAIL_PROTOCOL_ANY
  root := [create_new_server cfg 0 "default" (default_settings cfg) (default_settings cfg)]
  server := 0
  auth := auth_ptr.defaults 0
  socket := none
  auth_socket := none
  namespace_ := none
  level := 0

/-- The function `master_settings_read`. `input` is what the tokenizer
produces for the file at `path`. -/
def master_settings_read {σ : Type} (cfg : build_config) (env : os_env σ) (os : σ)
    (st : master_state) (input : List settings_event) (nochecks : Bool) :
    call_result × master_state × σ :=
  let st1 := p_clear_settings_pool st
  match settings_read input parse_setting (parse_section cfg) (initial_ctx cfg) with
  | (false, ctx) => (.returned false, store_pending st1 ctx.root, os)
  | (true, ctx) =>
    if ctx.level != 0 then (.returned false, store_pending st1 ctx.root, os)
    else
      /- If server sections were defined, skip the root -/
      let root := if ctx.root.tail.isEmpty then ctx.root else ctx.root.tail
      match verify_servers cfg env nochecks os root with
      | (.returned true, servers, os1) =>
        /- settings ok, swap them -/
        (.returned true,
          { settings_pool := st1.settings2_pool
            settings2_pool := st1.settings_pool
            mem := Function.update st1.mem st1.settings_pool servers
            settings_root := if servers.isEmpty then none else some st1.settings_pool },
          os1)
      | (r, servers, os1) => (r, store_pending st1 servers, os1)

/-! ## Notions used in the statements

Projections of the tree, kinds of events, invariants of the parser and of the
module state. -/

/-- The socket types of the backend a pointer refers to. -/
def socket_types (root : List server_settings) (auth : auth_ptr) : Option (List (Option String)) :=
  (auth_read root auth).map (fun a => a.sockets.map auth_socket_settings.type)

/-- The names of the auth backends of every server, in list order. -/
def auth_names (root : List server_settings) : List (List (Option String)) :=
  root.map (fun s => s.auths.map (fun a => a.name))

/-- The names of the auth backends of every server are pairwise distinct. -/
def names_nodup (root : List server_settings) : Prop :=
  ∀ names ∈ auth_names root, names.Nodup

/-- The imap and pop3 settings objects of every server. -/
def protocol_sets (root : List server_settings) : List (Option settings × Option settings) :=
  root.map (fun s => (s.imap, s.pop3))

/-- The events of a source that consists of key / value lines only. -/
def key_events (keys : List (String × String)) : List settings_event :=
  keys.map (fun kv => settings_event.key_value kv.1 kv.2)

/-- At Root scope with the root server active and both its settings objects present. -/
def at_top_level (ctx : settings_parse_ctx) : Prop :=
  ctx.type = SETTINGS_TYPE_ROOT ∧ ctx.server = 0 ∧
    (ctx.root[0]?).map (fun s => s.imap.isSome && s.pop3.isSome) = some true

/-- An event that creates an auth backend: an `auth` section or the legacy
key `auth = name`. -/
def is_auth_event : settings_event → Bool
  | .key_value k _ => k == "auth"
  | .sect t _ => t == some "auth"
  | .invalid => false

/-- A line `auth_user = value`. -/
def is_auth_user_key : settings_event → Bool
  | .key_value k _ => k == "auth_user"
  | _ => false

/-- The callback an event is handed to. -/
def deliver (cfg : build_config) : settings_event → settings_parse_ctx →
    Except String settings_parse_ctx
  | .key_value k v, c => parse_setting k v c
  | .sect t n, c => parse_section cfg t n c
  | .invalid, _ => .error "rejected by the tokenizer"

/-- A scope that is reached without an auth section. -/
def plain_type (t : settings_type) : Prop :=
  t = SETTINGS_TYPE_ROOT ∨ t = SETTINGS_TYPE_SERVER ∨ t = SETTINGS_TYPE_NAMESPACE

/-- The state of a parser that has met no auth section and no legacy auth key:
`ctx->auth` is the template of the root server and no server has a backend. -/
def no_backend (ctx : settings_parse_ctx) : Prop :=
  ctx.auth = auth_ptr.defaults 0 ∧ (∀ names ∈ auth_names ctx.root, names = []) ∧
    plain_type ctx.type ∧ plain_type ctx.parent_type ∧ 0 < ctx.root.length

/-- The nesting depth after the events of a source read at depth `d`: an
opening section adds one, a closing section takes one away; none if a closing
section has no open section to close. -/
def section_depth_from : Nat → List settings_event → Option Nat
  | d, [] => some d
  | d, .sect (some _) _ :: rest => section_depth_from (d + 1) rest
  | d, .sect none _ :: rest => if d = 0 then none else section_depth_from (d - 1) rest
  | d, _ :: rest => section_depth_from d rest

/-- The field `user` of the auth template of every server. -/
def template_users (root : List server_settings) : List set_value :=
  root.map (fun s => s.auth_defaults.vals "user")

/-- An event that is neither an auth event nor a line `auth_user = value`. -/
def is_other_event (e : settings_event) : Bool :=
  !is_auth_event e && !is_auth_user_key e

/-- The uid and gid ranges of a settings object are in order. -/
def range_ok (set : settings) : Prop :=
  (set.int "last_valid_uid" ≠ 0 → set.int "first_valid_uid" ≤ set.int "last_valid_uid") ∧
  (set.int "last_valid_gid" ≠ 0 → set.int "first_valid_gid" ≤ set.int "last_valid_gid")

/-- Every settings object that is present in a server has its ranges in order. -/
def server_ranges_ok (server : server_settings) : Prop :=
  ∀ set, server.imap = some set ∨ server.pop3 = some set → range_ok set

/-- The global states the module can be in: the state after
`master_settings_init`, and every state that a call of `master_settings_read`
leaves behind, for any state of the system, input and `nochecks`. -/
inductive reachable {σ : Type} (cfg : build_config) (env : os_env σ) : master_state → Prop
  | init : reachable cfg env master_settings_init
  | read (st : master_state) (os : σ) (input : List settings_event) (nochecks : Bool) :
      reachable cfg env st →
      reachable cfg env (master_settings_read cfg env os st input nochecks).2.1

/-- The two pool variables hold different pools and the published root, if
any, lives in `settings2_pool`. -/
def pools_ok (st : master_state) : Prop :=
  st.settings_pool ≠ st.settings2_pool ∧
    (st.settings_root = none ∨ st.settings_root = some st.settings2_pool)

/-! ## Sample data

A build configuration, an operating environment and some sources on which the
statements below are evaluated. -/

def sample_cfg : build_config where
  PKG_RUNDIR := "/var/run/dovecot"
  DEFAULT_FAILURE_STAMP_FORMAT := "%b %d %H:%M:%S "
  SSLDIR := "/etc/ssl"
  PKG_LIBEXECDIR := "/usr/libexec/dovecot"
  MODULEDIR := "/usr/lib/dovecot"
  HAVE_SSL := true
  HAVE_MODULES := false
  MMAP_CONFLICTS_WRITE := false

/-- An environment where the users dovecot and root exist, every access test
succeeds and the directory primitives succeed. -/
def sample_env : os_env Unit where
  master_uid := 0
  getegid := fun _ => 0
  getpwnam := fun _ name =>
    if name == "dovecot" then some ⟨97, 97⟩
    else if name == "root" then some ⟨0, 0⟩
    else none
  access := fun _ _ _ => true
  safe_mkdir := fun _ _ _ _ _ => (1, ())
  unlink_directory := fun _ _ _ => (0, ())

/-- The context the parser is in after it has accepted `input`. -/
def ctx_after (input : List settings_event) : settings_parse_ctx :=
  (settings_read input parse_setting (parse_section sample_cfg) (initial_ctx sample_cfg)).2

/-- Inside `auth default`, after a closed `socket connect` section. -/
def ctx_connect : settings_parse_ctx :=
  ctx_after [.sect (some "auth") "default", .sect (some "socket") "connect", .sect none ""]

/-- Inside `auth default`, after a closed `socket listen` section. -/
def ctx_listen : settings_parse_ctx :=
  ctx_after [.sect (some "auth") "default", .sect (some "socket") "listen", .sect none ""]

/-- A server named b without auth backends, second in `sample_root`. -/
def sample_srv_b : server_settings :=
  create_new_server sample_cfg 1 "b" (default_settings sample_cfg) (default_settings sample_cfg)

/-- Two servers; the first one has an auth backend named default. -/
def sample_root : List server_settings :=
  (parse_new_auth
    [create_new_server sample_cfg 0 "a" (default_settings sample_cfg) (default_settings sample_cfg),
     sample_srv_b] 0 "default").2

/-- Auth backends a and b in the default server, a again in a server x. -/
def sample_input_auths : List settings_event :=
  [.sect (some "auth") "a", .sect none "", .key_value "auth" "b",
   .sect (some "server") "x", .sect (some "auth") "a", .key_value "user" "nobody",
   .sect none "", .sect none ""]

/-- The top-level line `login_executable = /opt/imap-login` followed by the
opening of a server section. -/
def sample_input_inherit : List settings_event :=
  key_events [("login_executable", "/opt/imap-login")] ++ [.sect (some "server") "a"]

/-- Two top-level lines, for the inheritance of a new server. -/
def sample_keys : List (String × String) :=
  [("login_executable", "/opt/imap-login"), ("first_valid_uid", "1000")]

/-- The single top-level line `auth_user = vmail`. -/
def sample_input_auth_user : List settings_event :=
  [.key_value "auth_user" "vmail"]

/-- Events before a line `auth_user`: a top-level key. -/
def sample_pre : List settings_event :=
  [.key_value "protocols" "imap"]

/-- Events after a line `auth_user`: a server section with an `auth_` key. -/
def sample_post : List settings_event :=
  [.sect (some "server") "x", .key_value "auth_passdb" "ldap", .sect none ""]

/-- A source with one auth section and nothing else. -/
def sample_input_ok : List settings_event :=
  [.sect (some "auth") "default", .sect none ""]

/-- A source whose uid range is empty: first 600, last 500. -/
def sample_input_range : List settings_event :=
  [.sect (some "auth") "default", .sect none "",
   .key_value "first_valid_uid" "600", .key_value "last_valid_uid" "500"]

/-- A source that names no known protocol. -/
def sample_input_no_protocol : List settings_event :=
  [.key_value "protocols" "none"]

/-- The global state after a successful load of `sample_input_ok`. -/
def sample_state : master_state :=
  (master_settings_read sample_cfg sample_env () master_settings_init sample_input_ok false).2.1

/-- A source with an auth section and the uid range 500 to 600. -/
def sample_input_range_ok : List settings_event :=
  [.sect (some "auth") "default", .sect none "",
   .key_value "first_valid_uid" "500", .key_value "last_valid_uid" "600"]

/-! ## Notions and sample data for the section table, the protocol scope and
the validation loop -/

/-- A namespace whose only written field is the separator. -/
def sample_namespace (sep : String) : namespace_settings where
  parent := some 0
  vals := Function.update fields_zero "separator" (set_value.str (some sep))

/-- An auth section, then a namespace section with the separator `é`. -/
def sample_input_multibyte : List settings_event :=
  [.sect (some "auth") "default", .sect none "",
   .sect (some "namespace") "private", .key_value "separator" "é", .sect none ""]

/-- A callback result as the boolean the tokenizer sees. -/
def accepted {α : Type} : Except String α → Bool
  | .ok _ => true
  | .error _ => false

/-- The pointers that the opening of a section dereferences are not NULL: the
active server is in the list with both its settings objects and, in an auth
socket scope, an auth socket is bound. -/
def ctx_targets (ctx : settings_parse_ctx) : Bool :=
  ((ctx.root[ctx.server]?).map (fun s => s.imap.isSome && s.pop3.isSome) == some true) &&
  (ctx.type != SETTINGS_TYPE_AUTH_SOCKET || ctx.auth_socket.isSome)

/-- The scope is Root or Server. -/
def root_or_server (t : settings_type) : Bool :=
  t == SETTINGS_TYPE_ROOT || t == SETTINGS_TYPE_SERVER

/-- The rule of the specification for a new socket of an auth backend whose
sockets have the types `types`: the name is connect or listen, a connect
socket excludes every other socket of the backend, whatever the order. -/
def socket_admissible (types : List (Option String)) (name : String) : Bool :=
  (name == "connect" && types.isEmpty) ||
  (name == "listen" && !types.contains (some "connect"))

/-- The section-open event is `socket listen` in Auth scope and the active
backend already has a socket. -/
def listen_after_socket (ctx : settings_parse_ctx) (type name : String) : Bool :=
  type == "socket" && ctx.type == SETTINGS_TYPE_AUTH && name == "listen" &&
    ((socket_types ctx.root ctx.auth).map (fun types => !types.isEmpty) == some true)

/-- The transition table of the specification for section-open events, for
the context before the event: the token, the scope it is allowed in, the new
depth and the names it admits. The socket row is the rule `socket_admissible`
applied to the sockets of the active backend; the name of a namespace is
compared without regard to case. -/
def section_allowed (ctx : settings_parse_ctx) (type name : String) : Bool :=
  (type == "server" && ctx.type == SETTINGS_TYPE_ROOT) ||
  (type == "protocol" && root_or_server ctx.type && ctx.level + 1 == 1 &&
    (name == "imap" || name == "pop3")) ||
  (type == "auth" && root_or_server ctx.type && !strchr name '/' &&
    ((ctx.root[ctx.server]?).map
      (fun s => s.auths.any (fun a => a.name == some name)) == some false)) ||
  (type == "socket" && ctx.type == SETTINGS_TYPE_AUTH &&
    ((socket_types ctx.root ctx.auth).map (fun types => socket_admissible types name)
      == some true)) ||
  ((type == "master" || type == "client") && ctx.type == SETTINGS_TYPE_AUTH_SOCKET) ||
  (type == "namespace" && root_or_server ctx.type &&
    (strcasecmp_eq name "private" || strcasecmp_eq name "shared" ||
      strcasecmp_eq name "public"))

/-- The active type after an accepted section-open event. -/
def section_new_type (ctx : settings_parse_ctx) (type : String) : settings_type :=
  if type == "server" then SETTINGS_TYPE_SERVER
  else if type == "protocol" then ctx.type
  else if type == "auth" then SETTINGS_TYPE_AUTH
  else if type == "socket" then SETTINGS_TYPE_AUTH_SOCKET
  else if type == "master" || type == "client" then SETTINGS_TYPE_SOCKET
  else SETTINGS_TYPE_NAMESPACE

/-- What the field assigner decides from the schema, the key and the value
alone: the field to write and its new content, or the error. -/
def parse_cell (defs : List setting_def) (key value : String) :
    Except String (String × set_value) :=
  match defs.find? (fun d => d.name == key) with
  | none => .error ("Unknown setting: " ++ key)
  | some d =>
    match d.type with
    | SET_STR => .ok (d.name, set_value.str (some value))
    | SET_INT =>
      match get_int value with
      | some i => .ok (d.name, set_value.int i)
      | none => .error ("Invalid number: " ++ value)
    | SET_BOOL =>
      match get_bool value with
      | some b => .ok (d.name, set_value.bool b)
      | none => .error ("Invalid boolean: " ++ value)

/-- A top-level `protocol imap` block that is closed again, then a key. -/
def sample_input_imap_block : List settings_event :=
  [.sect (some "protocol") "imap", .sect none "", .key_value "login_greeting" "hello"]

/-- The words of a string that are separated by spaces; `cur` holds the
characters of the current word, last first. -/
def space_words_list : List Char → List Char → List (List Char)
  | [], cur => [cur.reverse]
  | c :: cs, cur =>
    if c = ' ' then cur.reverse :: space_words_list cs [] else space_words_list cs (c :: cur)

/-- The space-separated words of a string. -/
def space_words (s : String) : List String :=
  (space_words_list s.toList []).map String.mk

/-- The source `protocols = imaps`. -/
def sample_input_imaps : List settings_event :=
  [.key_value "protocols" "imaps"]

/-- The default server of `initial_ctx sample_cfg`. -/
def sample_default_server : server_settings :=
  create_new_server sample_cfg 0 "default" (default_settings sample_cfg)
    (default_settings sample_cfg)

/-- The imap settings of `sample_default_server`. -/
def sample_default_imap : settings :=
  sample_default_server.imap.getD (default_settings sample_cfg)

/-- The pop3 settings of `sample_default_server`. -/
def sample_default_pop3 : settings :=
  sample_default_server.pop3.getD (default_settings sample_cfg)

/-- A projection of a server that does not look at its auth template, its auth
list or its namespaces. -/
def ignores_auth {β : Type} (f : server_settings → β) : Prop :=
  ∀ (s : server_settings) (ad : auth_settings) (auths : List auth_settings)
    (ns : List namespace_settings),
    f { s with auth_defaults := ad, auths := auths, namespaces := ns } = f s

/-- The servers the validation loop starts from: the servers after the sentinel
if a server section was read, the sentinel default server otherwise. -/
def candidates (cfg : build_config) (input : List settings_event) : List server_settings :=
  let ctx := (settings_read input parse_setting (parse_section cfg) (initial_ctx cfg)).2
  if ctx.root.tail.isEmpty then ctx.root else ctx.root.tail

/-- One of the two settings objects of the server is active. -/
def server_is_active (s : server_settings) : Bool :=
  s.imap.any settings_is_active || s.pop3.any settings_is_active

/-- The names of the server sections of a source, in order. -/
def declared_servers (input : List settings_event) : List String :=
  input.filterMap (fun e =>
    match e with
    | .sect (some t) n => if t == "server" then some n else none
    | _ => none)

/-- The server `pub` is what an iteration of the validation loop that returned
TRUE has made of the server `orig`. -/
def published_as {σ : Type} (cfg : build_config) (env : os_env σ) (nochecks : Bool)
    (orig pub : server_settings) : Prop :=
  ∃ os next os1, verify_server cfg env nochecks os orig next = (.returned true, pub, os1)

/-- The members of a server that the auth checks leave alone. -/
def same_frame (a b : server_settings) : Prop :=
  b.name = a.name ∧ b.defaults = a.defaults ∧ b.imap.isSome = a.imap.isSome ∧
    b.pop3.isSome = a.pop3.isSome

/-- The members of a server outside its auth template, auth list and
namespaces. -/
def server_core (s : server_settings) :
    Option String × Option mail_protocol × Option settings × Option settings × Nat :=
  (s.name, s.defaults, s.imap, s.pop3, s.login_gid)

/-- The shape of a server as the parser leaves it: `defaults` is NULL, both
settings objects are present, each carries its protocol and a `protocols`
string. -/
def parsed_server (s : server_settings) : Prop :=
  s.defaults = none ∧
  ∃ imap pop3, s.imap = some imap ∧ s.pop3 = some pop3 ∧
    imap.protocol = MAIL_PROTOCOL_IMAP ∧ pop3.protocol = MAIL_PROTOCOL_POP3 ∧
    (imap.str "protocols").isSome = true ∧ (pop3.str "protocols").isSome = true

/-- An environment with the users dovecot (97, 97), imaplogin (100, 50),
poplogin (101, 50) and root (0, 0); every access test succeeds except on
`/etc/ssl/missing-ca.pem`, and the directory primitives succeed. -/
def sample_env_users : os_env Unit where
  master_uid := 0
  getegid := fun _ => 0
  getpwnam := fun _ name =>
    if name == "dovecot" then some ⟨97, 97⟩
    else if name == "imaplogin" then some ⟨100, 50⟩
    else if name == "poplogin" then some ⟨101, 50⟩
    else if name == "root" then some ⟨0, 0⟩
    else none
  access := fun _ path _ => path != "/etc/ssl/missing-ca.pem"
  safe_mkdir := fun _ _ _ _ _ => (1, ())
  unlink_directory := fun _ _ _ => (0, ())

/-- Both protocols are active; imap logins run as imaplogin, pop3 logins as
poplogin, and the auth backend runs as poplogin as well. -/
def sample_input_two_logins : List settings_event :=
  [.key_value "protocols" "imap pop3",
   .sect (some "protocol") "imap", .key_value "login_user" "imaplogin", .sect none "",
   .sect (some "protocol") "pop3", .key_value "login_user" "poplogin", .sect none "",
   .sect (some "auth") "default", .key_value "user" "poplogin", .sect none ""]

/-- The uid range 600 to 500 at top level; the server a resets `last_valid_uid`
to 0 and has an auth backend. -/
def sample_input_template_range : List settings_event :=
  [.key_value "first_valid_uid" "600", .key_value "last_valid_uid" "500",
   .sect (some "server") "a", .key_value "last_valid_uid" "0",
   .sect (some "auth") "default", .sect none "", .sect none ""]

/-- A server a with `protocols = imap pop3s` and an auth backend. -/
def sample_input_pop3s : List settings_event :=
  [.key_value "protocols" "imap",
   .sect (some "server") "a", .key_value "protocols" "imap pop3s",
   .sect (some "auth") "default", .sect none "", .sect none ""]

/-- A server a with `protocols = imaps pop3s` and an auth backend. -/
def sample_input_ssl_names : List settings_event :=
  [.sect (some "server") "a", .key_value "protocols" "imaps pop3s",
   .sect (some "auth") "default", .sect none "", .sect none ""]

/-- No auth section; the SSL CA file is one that cannot be read. -/
def sample_input_missing_ca : List settings_event :=
  [.key_value "ssl_ca_file" "/etc/ssl/missing-ca.pem"]

/-- A server a with an auth backend; the default server has none. -/
def sample_input_server_a : List settings_event :=
  [.sect (some "server") "a", .sect (some "auth") "default", .sect none "", .sect none ""]

/-- A server a without active protocol, then a server b with an auth backend. -/
def sample_input_two_servers : List settings_event :=
  [.sect (some "server") "a", .key_value "protocols" "none", .sect none "",
   .sect (some "server") "b", .sect (some "auth") "default", .sect none "", .sect none ""]

/-- The source `protocols = imap` with an auth section. -/
def sample_input_imap_only : List settings_event :=
  [.key_value "protocols" "imap", .sect (some "auth") "default", .sect none ""]

/-- The first server the loop visits for a source, with `sample_cfg`. -/
def sample_candidate (input : List settings_event) : server_settings :=
  ((candidates sample_cfg input)[0]?).getD sample_srv_b

/-- The imap settings of `sample_candidate`. -/
def sample_candidate_imap (input : List settings_event) : settings :=
  (sample_candidate input).imap.getD (default_settings sample_cfg)

/-- The pop3 settings of `sample_candidate`. -/
def sample_candidate_pop3 (input : List settings_event) : settings :=
  (sample_candidate input).pop3.getD (default_settings sample_cfg)

/-- The pointers of a parser context have targets: every server has the shape
`parsed_server`, `ctx->server` is a server of the list, and an auth socket is
bound whenever the type or the parent type is AuthSocket. -/
def ctx_wf (ctx : settings_parse_ctx) : Prop :=
  (∀ s ∈ ctx.root, parsed_server s) ∧ ctx.server < ctx.root.length ∧
  ((ctx.type = SETTINGS_TYPE_AUTH_SOCKET ∨ ctx.parent_type = SETTINGS_TYPE_AUTH_SOCKET) →
    ctx.auth_socket.isSome = true)

/-! ## Notions and sample data for the login group, the client certificates and
the nesting of sections -/

/-- The member `ssl_require_client_cert` of an auth backend. -/
def auth_requires_cert (a : auth_settings) : Bool :=
  (a.vals "ssl_require_client_cert").get_bool

/-- What the validation of a kept server does to `ssl_verify_client_cert`, from
the server `orig` the parser left to the server `pub` after its iteration: the
backends keep their `ssl_require_client_cert`; if one of them has it set, every
settings object that is present has `ssl_verify_client_cert` set; if none has,
every settings object that is present holds the value it had after the
parse. -/
def cert_checked (orig pub : server_settings) : Prop :=
  pub.auths.map auth_requires_cert = orig.auths.map auth_requires_cert ∧
  (pub.auths.any auth_requires_cert = true →
    ∀ set, pub.imap = some set ∨ pub.pop3 = some set →
      set.bool "ssl_verify_client_cert" = true) ∧
  (pub.auths.any auth_requires_cert = false →
    (∀ set, pub.imap = some set → ∃ set0, orig.imap = some set0 ∧
      set.bool "ssl_verify_client_cert" = set0.bool "ssl_verify_client_cert") ∧
    (∀ set, pub.pop3 = some set → ∃ set0, orig.pop3 = some set0 ∧
      set.bool "ssl_verify_client_cert" = set0.bool "ssl_verify_client_cert"))

/-- An environment with the users dovecot (97, 97), imaplogin (100, 0),
poplogin (101, 50) and root (0, 0); every access test and every directory
primitive succeeds. -/
def sample_env_wheel : os_env Unit where
  master_uid := 0
  getegid := fun _ => 0
  getpwnam := fun _ name =>
    if name == "dovecot" then some ⟨97, 97⟩
    else if name == "imaplogin" then some ⟨100, 0⟩
    else if name == "poplogin" then some ⟨101, 50⟩
    else if name == "root" then some ⟨0, 0⟩
    else none
  access := fun _ _ _ => true
  safe_mkdir := fun _ _ _ _ _ => (1, ())
  unlink_directory := fun _ _ _ => (0, ())

/-- Both protocols are active; imap logins run as imaplogin, pop3 logins as
poplogin; one auth backend. -/
def sample_input_two_groups : List settings_event :=
  [.key_value "protocols" "imap pop3",
   .sect (some "protocol") "imap", .key_value "login_user" "imaplogin", .sect none "",
   .sect (some "protocol") "pop3", .key_value "login_user" "poplogin", .sect none "",
   .sect (some "auth") "default", .sect none ""]

/-- As `sample_input_two_groups` with the two login users exchanged. -/
def sample_input_two_groups_swapped : List settings_event :=
  [.key_value "protocols" "imap pop3",
   .sect (some "protocol") "imap", .key_value "login_user" "poplogin", .sect none "",
   .sect (some "protocol") "pop3", .key_value "login_user" "imaplogin", .sect none "",
   .sect (some "auth") "default", .sect none ""]

/-- One auth backend with `ssl_require_client_cert = yes`. -/
def sample_input_cert : List settings_event :=
  [.sect (some "auth") "default", .key_value "ssl_require_client_cert" "yes", .sect none ""]

/-- The source `server a { auth x { socket listen { } } }` up to the close of
the auth section. -/
def sample_input_nested : List settings_event :=
  [.sect (some "server") "a", .sect (some "auth") "x", .sect (some "socket") "listen",
   .sect none "", .sect none ""]

/-- The source `protocol imap { auth x { } login_greeting = hello`, the
protocol section still open. -/
def sample_input_in_protocol : List settings_event :=
  [.sect (some "protocol") "imap", .sect (some "auth") "x", .sect none "",
   .key_value "login_greeting" "hello"]

/-- The source `server a { auth_user = vmail`, the server section still
open. -/
def sample_input_server_auth_user : List settings_event :=
  [.sect (some "server") "a", .key_value "auth_user" "vmail"]

/-! ## Auth sockets (C1, C2, C3) -/

/-- C1 (defect in the code): the backend built by `auth default { socket connect { } `
holds one socket of type connect; a further section `socket listen` is not
rejected: `parse_new_auth_socket` returns a pointer to a new socket and the
socket list of the backend becomes connect, listen. -/
theorem C1_listen_accepted_after_connect :
    socket_types ctx_connect.root ctx_connect.auth = some [some "connect"] ∧
    (parse_new_auth_socket ctx_connect.root ctx_connect.auth "listen").1 =
      .ok ⟨auth_ptr.node 0 0, 1⟩ ∧
    socket_types (parse_new_auth_socket ctx_connect.root ctx_connect.auth "listen").2
      ctx_connect.auth = some [some "connect", some "listen"] := by
  refine ⟨by decide, rfl, by decide⟩

/-- C2: for every auth backend whose socket list is not empty, whatever the
types of its sockets, `parse_new_auth_socket` rejects the name connect: it
returns NULL with the error message, and the tree (so the socket list of the
backend) is the one before the call. -/
theorem C2_connect_rejected_on_nonempty (root : List server_settings) (auth : auth_ptr)
    (h : (auth_read root auth).map (fun a => a.sockets.isEmpty) = some false) :
    parse_new_auth_socket root auth "connect" =
      (.error "With connect auth socket no other sockets can be used in same auth section",
       root) := by
  unfold parse_new_auth_socket
  cases hr : auth_read root auth with
  | none => simp [hr] at h
  | some a =>
    simp [hr] at h
    simp [h]

theorem C2_connect_rejected_on_nonempty_witness :
    (auth_read ctx_listen.root ctx_listen.auth).map (fun a => a.sockets.isEmpty) = some false ∧
    parse_new_auth_socket ctx_listen.root ctx_listen.auth "connect" =
      (.error "With connect auth socket no other sockets can be used in same auth section",
       ctx_listen.root) :=
  ⟨by decide, C2_connect_rejected_on_nonempty ctx_listen.root ctx_listen.auth (by decide)⟩

/-- C3 (defect in the code): the backend built by `auth default { socket listen { } `
holds one socket, of type listen; a further section `socket listen` is
rejected with the message about connect sockets, and nothing is appended. -/
theorem C3_listen_rejected_after_listen :
    socket_types ctx_listen.root ctx_listen.auth = some [some "listen"] ∧
    parse_new_auth_socket ctx_listen.root ctx_listen.auth "listen" =
      (.error "With connect auth socket no other sockets can be used in same auth section",
       ctx_listen.root) := by
  refine ⟨by decide, ?_⟩
  have h : (auth_read ctx_listen.root ctx_listen.auth).map
      (fun a => (a.sockets.isEmpty, a.sockets.head?.bind auth_socket_settings.type)) =
      some (false, some "listen") := by decide
  unfold parse_new_auth_socket
  cases hr : auth_read ctx_listen.root ctx_listen.auth with
  | none => simp [hr] at h
  | some a =>
    simp [hr] at h
    simp [h]

/-! ## Auth backends of a server (C4) -/

/-- C4: for every server of the tree and every name without a slash,
`parse_new_auth` fails with the duplicate-name error exactly when a backend of
that same server already has the name (the backends of the other servers of
the tree play no part); when no backend of the server has the name the call
succeeds, and the new backend, linked in at the head of the auth list of the
server, is the copy of `auth_defaults` with `parent` and `name` set. -/
theorem C4_parse_new_auth (root : List server_settings) (server : Nat)
    (srv : server_settings) (name : String)
    (hsrv : root[server]? = some srv) (hname : strchr name '/' = false) :
    ((parse_new_auth root server name).1 =
        .error "Authentication process already exists with the same name" ↔
      ∃ a ∈ srv.auths, a.name = some name) ∧
    ((∀ a ∈ srv.auths, a.name ≠ some name) →
      parse_new_auth root server name =
        (.ok (auth_ptr.node server srv.auths.length),
         root.set server
          { srv with
            auths :=
              { srv.auth_defaults with parent := some server, name := some name } ::
                srv.auths })) := by
  unfold parse_new_auth
  simp only [hname, hsrv]
  by_cases hany : srv.auths.any (fun auth => auth.name == some name) = true
  · have hex : ∃ a ∈ srv.auths, a.name = some name := by
      simpa [List.any_eq_true] using hany
    refine ⟨?_, ?_⟩
    · simp [hany, hex]
    · intro hall
      obtain ⟨a, ha, hn⟩ := hex
      exact absurd hn (hall a ha)
  · have hnex : ¬ ∃ a ∈ srv.auths, a.name = some name := by
      simpa [List.any_eq_true] using hany
    refine ⟨?_, ?_⟩
    · simp [hany, hnex, auth_settings_new, hsrv]
    · intro _
      simp [hany, auth_settings_new, hsrv]

theorem C4_parse_new_auth_witness :
    sample_root[1]? = some sample_srv_b ∧ strchr "default" '/' = false ∧
    sample_root.map (fun s => s.auths.map (fun a => a.name)) = [[some "default"], []] ∧
    (parse_new_auth sample_root 1 "default").1 = .ok (auth_ptr.node 1 0) := by
  refine ⟨rfl, by decide, by decide, ?_⟩
  have h := (C4_parse_new_auth sample_root 1 sample_srv_b "default" rfl (by decide)).2
    (by simp [sample_srv_b, create_new_server])
  rw [h]
  rfl

/-! ## Names of the auth backends (C5) -/

theorem set_same {α : Type} (l : List α) (i : Nat) (x : α) (h : l[i]? = some x) :
    l.set i x = l := by
  apply List.ext_getElem?
  intro j
  rw [List.getElem?_set]
  split
  · next hij =>
    subst hij
    have hlt : i < l.length := by
      by_contra hc
      rw [List.getElem?_eq_none (by omega)] at h
      exact absurd h (by simp)
    simp [hlt, h]
  · rfl

theorem auth_names_set {root : List server_settings} {i : Nat} {srv s1 : server_settings}
    (h : root[i]? = some srv)
    (hs : s1.auths.map (fun a => a.name) = srv.auths.map (fun a => a.name)) :
    auth_names (root.set i s1) = auth_names root := by
  unfold auth_names
  rw [List.map_set]
  apply set_same
  simp [h, hs]

theorem auth_names_auth_write {root : List server_settings} {p : auth_ptr}
    {a a1 : auth_settings} (h : auth_read root p = some a) (hn : a1.name = a.name) :
    auth_names (auth_write root p a1) = auth_names root := by
  cases p with
  | null => simp [auth_read] at h
  | defaults s =>
    cases hr : root[s]? with
    | none => simp [auth_write, hr]
    | some srv =>
      simp only [auth_write, hr]
      exact auth_names_set hr rfl
  | node s n =>
    cases hr : root[s]? with
    | none => simp [auth_write, hr]
    | some srv =>
      simp only [auth_read, hr] at h
      simp only [auth_write, hr]
      split
      · next hlt =>
        simp only [hlt, if_true] at h
        apply auth_names_set hr
        simp only [List.map_set]
        apply set_same
        simp [h, hn]
      · rfl

theorem auth_names_auth_socket_write {root : List server_settings} {p : auth_socket_ptr}
    {as : auth_socket_settings} :
    auth_names (auth_socket_write root p as) = auth_names root := by
  unfold auth_socket_write
  cases hr : auth_read root p.auth with
  | none => rfl
  | some a => exact auth_names_auth_write hr rfl

theorem auth_names_socket_write {root : List server_settings} {p : socket_ptr}
    {so : socket_settings} :
    auth_names (socket_write root p so) = auth_names root := by
  unfold socket_write
  cases auth_socket_read root p.auth_socket with
  | none => rfl
  | some as =>
    cases p.slot <;> exact auth_names_auth_socket_write

theorem auth_names_namespace_write {root : List server_settings} {p : namespace_ptr}
    {ns : namespace_settings} :
    auth_names (namespace_write root p ns) = auth_names root := by
  unfold namespace_write
  cases hr : root[p.server]? with
  | none => rfl
  | some srv => exact auth_names_set hr rfl

theorem assign_protocol_auths (server : server_settings) (proto : mail_protocol)
    (key value : String) :
    (assign_protocol server proto key value).2.auths = server.auths := by
  unfold assign_protocol
  cases proto <;> simp only <;> split <;> try rfl
  all_goals (split <;> rfl)

theorem auth_names_assign_auth {ctx ctx1 : settings_parse_ctx} {key value : String}
    (h : assign_auth ctx key value = .ok ctx1) :
    auth_names ctx1.root = auth_names ctx.root := by
  unfold assign_auth at h
  cases hr : auth_read ctx.root ctx.auth with
  | none => simp [hr] at h
  | some a =>
    simp only [hr] at h
    split at h
    · injection h with h
      subst h
      exact auth_names_auth_write hr rfl
    · simp at h

theorem assign_auth_frame {ctx ctx1 : settings_parse_ctx} {key value : String}
    (h : assign_auth ctx key value = .ok ctx1) :
    ctx1 = { ctx with root := ctx1.root } := by
  unfold assign_auth at h
  cases hr : auth_read ctx.root ctx.auth with
  | none => simp [hr] at h
  | some a =>
    simp only [hr] at h
    split at h
    · injection h with h
      subst h
      rfl
    · simp at h

theorem assign_protocols_auths (protocol : mail_protocol) (server : server_settings)
    (key value : String) :
    (assign_protocols protocol server key value).2.auths = server.auths := by
  unfold assign_protocols
  simp only
  split <;> split <;> simp [assign_protocol_auths]

theorem parse_setting_server_frame {ctx ctx1 : settings_parse_ctx} {key value : String}
    (h : parse_setting_server key value ctx = .ok ctx1) :
    ctx1 = { ctx with root := ctx1.root } ∧ auth_names ctx1.root = auth_names ctx.root := by
  unfold parse_setting_server at h
  split at h
  · simp at h
  · next server hs =>
    have hn : auth_names (ctx.root.set ctx.server
        (assign_protocols ctx.protocol server key value).2) = auth_names ctx.root :=
      auth_names_set hs (by rw [assign_protocols_auths])
    simp only at h
    split at h
    · injection h with h
      subst h
      exact ⟨rfl, hn⟩
    · split at h
      · have h1 := assign_auth_frame h
        have h2 := auth_names_assign_auth h
        exact ⟨h1, by rw [h2]; exact hn⟩
      · simp at h

theorem parse_setting_frame {ctx ctx1 : settings_parse_ctx} {key value : String}
    (hk : key ≠ "auth") (h : parse_setting key value ctx = .ok ctx1) :
    ctx1 = { ctx with root := ctx1.root } ∧ auth_names ctx1.root = auth_names ctx.root := by
  unfold parse_setting at h
  have hk1 : (key == "auth") = false := by simpa using hk
  simp only [hk1, Bool.false_eq_true, if_false] at h
  split at h
  · injection h with h
    subst h
    exact ⟨rfl, rfl⟩
  · split at h
    · exact parse_setting_server_frame h
    · exact parse_setting_server_frame h
    · exact ⟨assign_auth_frame h, auth_names_assign_auth h⟩
    · unfold parse_setting_auth_socket at h
      split at h
      · simp at h
      · split at h
        · simp at h
        · split at h
          · injection h with h
            subst h
            exact ⟨rfl, auth_names_auth_socket_write⟩
          · simp at h
    · unfold parse_setting_namespace at h
      split at h
      · simp at h
      · split at h
        · simp at h
        · split at h
          · injection h with h
            subst h
            exact ⟨rfl, auth_names_namespace_write⟩
          · simp at h
    · unfold parse_setting_socket at h
      split at h
      · simp at h
      · split at h
        · simp at h
        · split at h
          · injection h with h
            subst h
            exact ⟨rfl, auth_names_socket_write⟩
          · simp at h

/-- Effect of an accepted `parse_new_auth` on the names. -/
theorem parse_new_auth_names {root root1 : List server_settings} {server : Nat}
    {name : String} {p : auth_ptr}
    (h : parse_new_auth root server name = (.ok p, root1)) :
    ∃ names, (auth_names root)[server]? = some names ∧ some name ∉ names ∧
      auth_names root1 = (auth_names root).set server (some name :: names) ∧
      p = auth_ptr.node server names.length := by
  unfold parse_new_auth at h
  split at h
  · simp at h
  · split at h
    · simp at h
    · next srv hs =>
      split at h
      · simp at h
      · next hany =>
        unfold auth_settings_new at h
        simp only [hs] at h
        injection h with h1 h2
        injection h1 with h1
        subst h1 h2
        refine ⟨srv.auths.map (fun a => a.name), ?_, ?_, ?_, ?_⟩
        · simp [auth_names, hs]
        · simpa [List.any_eq_true] using hany
        · simp [auth_names, List.map_set]
        · simp
theorem parse_new_auth_socket_names {root root1 : List server_settings} {auth : auth_ptr}
    {name : String} {r : Except String auth_socket_ptr}
    (h : parse_new_auth_socket root auth name = (r, root1)) :
    auth_names root1 = auth_names root := by
  unfold parse_new_auth_socket at h
  split at h
  · injection h with _ h; rw [← h]
  · split at h
    · injection h with _ h; rw [← h]
    · next a ha =>
      split at h
      · injection h with _ h; rw [← h]
      · unfold auth_socket_settings_new at h
        simp only [ha] at h
        injection h with _ h
        rw [← h]
        exact auth_names_auth_write ha rfl

theorem parse_new_namespace_names {root root1 : List server_settings} {server : Nat}
    {name : String} {r : Except String namespace_ptr}
    (h : parse_new_namespace root server name = (r, root1)) :
    auth_names root1 = auth_names root := by
  unfold parse_new_namespace at h
  split at h
  · injection h with _ h; rw [← h]
  · unfold namespace_settings_new at h
    split at h
    · injection h with _ h; rw [← h]
    · next srv hs =>
      injection h with _ h
      rw [← h]
      exact auth_names_set hs rfl

/-- Effect of an accepted section event on the names of the auth backends and
on `ctx->auth`. -/
theorem parse_section_names {cfg : build_config} {type : Option String} {name : String}
    {ctx ctx1 : settings_parse_ctx} (h : parse_section cfg type name ctx = .ok ctx1) :
    (type = some "auth" ∧ ∃ names, (auth_names ctx.root)[ctx.server]? = some names ∧
        some name ∉ names ∧
        auth_names ctx1.root = (auth_names ctx.root).set ctx.server (some name :: names)) ∨
    (type ≠ some "auth" ∧
      (auth_names ctx1.root = auth_names ctx.root ∨
        auth_names ctx1.root = auth_names ctx.root ++ [[]]) ∧
      (ctx1.auth = ctx.auth ∨ ctx1.auth = auth_ptr.defaults 0)) := by
  unfold parse_section at h
  cases type with
  | none =>
    simp only at h
    injection h with h
    subst h
    right
    refine ⟨by simp, Or.inl ?_, ?_⟩
    · unfold parse_section_close; split <;> rfl
    · unfold parse_section_close; split
      · left; rfl
      · right; rfl
  | some t =>
    simp only at h
    unfold parse_section_open at h
    split at h
    · next ht =>
      -- server
      right
      have ht1 : t = "server" := by simpa using ht
      subst ht1
      unfold section_server at h
      split at h
      · simp at h
      · split at h
        · simp at h
        · split at h
          · injection h with h
            subst h
            refine ⟨by decide, Or.inr ?_, Or.inl rfl⟩
            simp [auth_names, create_new_server]
          · simp at h
    · split at h
      · next ht =>
        right
        have ht1 : t = "protocol" := by simpa using ht
        subst ht1
        unfold section_protocol at h
        split at h
        · simp at h
        · split at h
          · injection h with h; subst h
            exact ⟨by decide, Or.inl rfl, Or.inl rfl⟩
          · split at h
            · injection h with h; subst h
              exact ⟨by decide, Or.inl rfl, Or.inl rfl⟩
            · simp at h
      · split at h
        · next ht =>
          left
          have ht1 : t = "auth" := by simpa using ht
          subst ht1
          refine ⟨rfl, ?_⟩
          unfold section_auth at h
          split at h
          · simp at h
          · split at h
            · next auth root hp =>
              injection h with h
              subst h
              obtain ⟨names, h1, h2, h3, _⟩ := parse_new_auth_names hp
              exact ⟨names, h1, h2, h3⟩
            · simp at h
        · next hnauth =>
          right
          have hne : some t ≠ some "auth" := by
            intro hc
            injection hc with hc
            exact hnauth (by simp [hc])
          refine ⟨hne, ?_⟩
          split at h
          · unfold section_socket at h
            split at h
            · next as root hp =>
              injection h with h; subst h
              exact ⟨Or.inl (parse_new_auth_socket_names hp), Or.inl rfl⟩
            · simp at h
          · split at h
            · unfold section_master_client at h
              split at h
              · simp at h
              · injection h with h; subst h
                exact ⟨Or.inl rfl, Or.inl rfl⟩
            · split at h
              · unfold section_master_client at h
                split at h
                · simp at h
                · injection h with h; subst h
                  exact ⟨Or.inl rfl, Or.inl rfl⟩
              · split at h
                · unfold section_namespace at h
                  split at h
                  · simp at h
                  · split at h
                    · next ns root hp =>
                      injection h with h; subst h
                      exact ⟨Or.inl (parse_new_namespace_names hp), Or.inl rfl⟩
                    · simp at h
                · simp at h
/-- An invariant kept by every accepted callback holds after a reading that
returns TRUE. -/
theorem settings_read_invariant {γ : Type} (P : γ → Prop)
    (callback : String → String → γ → Except String γ)
    (sect_callback : Option String → String → γ → Except String γ)
    (hkv : ∀ k v c c1, P c → callback k v c = .ok c1 → P c1)
    (hsect : ∀ t n c c1, P c → sect_callback t n c = .ok c1 → P c1)
    (input : List settings_event) :
    ∀ c, P c → (settings_read input callback sect_callback c).1 = true →
      P (settings_read input callback sect_callback c).2 := by
  induction input with
  | nil => intro c hc _; simpa [settings_read] using hc
  | cons e rest ih =>
    intro c hc h
    cases e with
    | key_value k v =>
      unfold settings_read at h ⊢
      cases hcb : callback k v c with
      | error e => simp [hcb] at h
      | ok c1 =>
        simp only [hcb] at h ⊢
        exact ih c1 (hkv k v c c1 hc hcb) h
    | sect t n =>
      unfold settings_read at h ⊢
      cases hcb : sect_callback t n c with
      | error e => simp [hcb] at h
      | ok c1 =>
        simp only [hcb] at h ⊢
        exact ih c1 (hsect t n c c1 hc hcb) h
    | invalid => simp [settings_read] at h

theorem parse_setting_auth_names {ctx ctx1 : settings_parse_ctx} {value : String}
    (h : parse_setting "auth" value ctx = .ok ctx1) :
    ∃ names, (auth_names ctx.root)[ctx.server]? = some names ∧ some value ∉ names ∧
      auth_names ctx1.root = (auth_names ctx.root).set ctx.server (some value :: names) := by
  unfold parse_setting at h
  simp only [beq_self_eq_true, if_true] at h
  split at h
  · next auth root hp =>
    injection h with h
    subst h
    obtain ⟨names, h1, h2, h3, _⟩ := parse_new_auth_names hp
    exact ⟨names, h1, h2, h3⟩
  · simp at h

theorem names_nodup_new_auth {N N1 : List (List (Option String))} {s : Nat}
    {names : List (Option String)} {n : Option String}
    (hN : ∀ l ∈ N, l.Nodup) (h1 : N[s]? = some names) (h2 : n ∉ names)
    (h3 : N1 = N.set s (n :: names)) : ∀ l ∈ N1, l.Nodup := by
  intro l hl
  subst h3
  rcases List.mem_or_eq_of_mem_set hl with hl | hl
  · exact hN l hl
  · subst hl
    have hmem : names ∈ N := List.getElem?_mem h1
    exact List.nodup_cons.mpr ⟨h2, hN names hmem⟩

theorem names_nodup_parse_setting (k v : String) (c c1 : settings_parse_ctx)
    (hc : names_nodup c.root) (h : parse_setting k v c = .ok c1) : names_nodup c1.root := by
  by_cases hk : k = "auth"
  · subst hk
    obtain ⟨names, h1, h2, h3⟩ := parse_setting_auth_names h
    exact names_nodup_new_auth hc h1 h2 h3
  · have := (parse_setting_frame hk h).2
    unfold names_nodup
    rw [this]
    exact hc

theorem names_nodup_parse_section (cfg : build_config) (t : Option String) (n : String)
    (c c1 : settings_parse_ctx)
    (hc : names_nodup c.root) (h : parse_section cfg t n c = .ok c1) :
    names_nodup c1.root := by
  rcases parse_section_names h with ⟨_, names, h1, h2, h3⟩ | ⟨_, h1 | h1, _⟩
  · exact names_nodup_new_auth hc h1 h2 h3
  · unfold names_nodup; rw [h1]; exact hc
  · unfold names_nodup; rw [h1]
    intro l hl
    rcases List.mem_append.mp hl with hl | hl
    · exact hc l hl
    · simp at hl; subst hl; exact List.nodup_nil

/-- C5: in the tree built by any sequence of events that the parser accepts
from its initial state (section events and key / value events, the legacy key
`auth = name` included), no two backends in the auth list of one server have
equal names. -/
theorem C5_auth_names_unique (cfg : build_config) (input : List settings_event)
    (h : (settings_read input parse_setting (parse_section cfg) (initial_ctx cfg)).1 = true) :
    ∀ server ∈ (settings_read input parse_setting (parse_section cfg) (initial_ctx cfg)).2.root,
      server.auths.Pairwise (fun a b => a.name ≠ b.name) := by
  have hinv := settings_read_invariant (fun c => names_nodup c.root) parse_setting
    (parse_section cfg) names_nodup_parse_setting (names_nodup_parse_section cfg) input
    (initial_ctx cfg) (by simp [names_nodup, auth_names, initial_ctx, create_new_server]) h
  intro server hs
  have hn : (server.auths.map (fun a => a.name)).Nodup :=
    hinv _ (by simp only [auth_names]; exact List.mem_map_of_mem _ hs)
  exact (List.pairwise_map.mp hn)

theorem C5_auth_names_unique_witness :
    (settings_read sample_input_auths parse_setting (parse_section sample_cfg)
      (initial_ctx sample_cfg)).1 = true ∧
    ∀ server ∈ (settings_read sample_input_auths parse_setting (parse_section sample_cfg)
        (initial_ctx sample_cfg)).2.root,
      server.auths.Pairwise (fun a b => a.name ≠ b.name) :=
  ⟨by decide, C5_auth_names_unique sample_cfg sample_input_auths (by decide)⟩


/-! ## Defaults of a new server (C6) -/

theorem protocol_sets_set {root : List server_settings} {i : Nat} {srv s1 : server_settings}
    (h : root[i]? = some srv) (h1 : s1.imap = srv.imap) (h2 : s1.pop3 = srv.pop3) :
    protocol_sets (root.set i s1) = protocol_sets root := by
  unfold protocol_sets
  rw [List.map_set]
  apply set_same
  simp [h, h1, h2]

theorem protocol_sets_auth_write (root : List server_settings) (p : auth_ptr)
    (a1 : auth_settings) : protocol_sets (auth_write root p a1) = protocol_sets root := by
  cases p with
  | null => rfl
  | defaults s =>
    cases hr : root[s]? with
    | none => simp [auth_write, hr]
    | some srv =>
      simp only [auth_write, hr]
      exact protocol_sets_set hr rfl rfl
  | node s n =>
    cases hr : root[s]? with
    | none => simp [auth_write, hr]
    | some srv =>
      simp only [auth_write, hr]
      split
      · exact protocol_sets_set hr rfl rfl
      · rfl

theorem protocol_sets_head (root : List server_settings) :
    (root[0]?).map (fun s => s.imap.isSome && s.pop3.isSome) =
      ((protocol_sets root)[0]?).map (fun p => p.1.isSome && p.2.isSome) := by
  cases root <;> simp [protocol_sets]

theorem assign_protocol_some (server : server_settings) (proto : mail_protocol)
    (key value : String) :
    (assign_protocol server proto key value).2.imap.isSome = server.imap.isSome ∧
    (assign_protocol server proto key value).2.pop3.isSome = server.pop3.isSome := by
  unfold assign_protocol
  cases proto <;> simp only <;> split <;> try exact ⟨rfl, rfl⟩
  all_goals (split <;> simp_all)

theorem assign_protocols_some (protocol : mail_protocol) (server : server_settings)
    (key value : String) :
    (assign_protocols protocol server key value).2.imap.isSome = server.imap.isSome ∧
    (assign_protocols protocol server key value).2.pop3.isSome = server.pop3.isSome := by
  unfold assign_protocols
  simp only
  split <;> split <;> simp [assign_protocol_some]

theorem parse_new_auth_protocol_sets {root root1 : List server_settings} {server : Nat}
    {name : String} {r : Except String auth_ptr}
    (h : parse_new_auth root server name = (r, root1)) :
    protocol_sets root1 = protocol_sets root := by
  unfold parse_new_auth at h
  split at h
  · injection h with _ h; rw [← h]
  · split at h
    · injection h with _ h; rw [← h]
    · next srv hs =>
      split at h
      · injection h with _ h; rw [← h]
      · unfold auth_settings_new at h
        simp only [hs] at h
        injection h with _ h
        rw [← h]
        exact protocol_sets_set hs rfl rfl

theorem parse_setting_auth_frame {ctx ctx1 : settings_parse_ctx} {value : String}
    (h : parse_setting "auth" value ctx = .ok ctx1) :
    ctx1 = { ctx with root := ctx1.root, auth := ctx1.auth } ∧
      protocol_sets ctx1.root = protocol_sets ctx.root := by
  unfold parse_setting at h
  simp only [beq_self_eq_true, if_true] at h
  split at h
  · next auth root hp =>
    injection h with h
    subst h
    exact ⟨rfl, parse_new_auth_protocol_sets hp⟩
  · simp at h

theorem at_top_level_parse_setting (k v : String) (c c1 : settings_parse_ctx)
    (hc : at_top_level c) (h : parse_setting k v c = .ok c1) : at_top_level c1 := by
  obtain ⟨ht, hs, hp⟩ := hc
  cases hr : c.root[0]? with
  | none => simp [hr] at hp
  | some srv =>
    have hp0 := hp
    simp only [hr, Option.map_some', Option.some.injEq] at hp
    have hlt : 0 < c.root.length := by
      by_contra hc0
      rw [List.getElem?_eq_none (by omega)] at hr
      exact absurd hr (by simp)
    by_cases hk : k = "auth"
    · subst hk
      obtain ⟨hf, hps⟩ := parse_setting_auth_frame h
      refine ⟨by rw [hf]; exact ht, by rw [hf]; exact hs, ?_⟩
      rw [protocol_sets_head, hps, ← protocol_sets_head]
      exact hp0
    · have hf := (parse_setting_frame hk h).1
      refine ⟨by rw [hf]; exact ht, by rw [hf]; exact hs, ?_⟩
      unfold parse_setting at h
      have hk1 : (k == "auth") = false := by simpa using hk
      simp only [hk1, Bool.false_eq_true, if_false, ht] at h
      split at h
      · injection h with h
        subst h
        simp [hr, hp]
      · unfold parse_setting_server at h
        simp only [hs, hr] at h
        have hsome := assign_protocols_some c.protocol srv k v
        have hh : ((c.root.set 0 (assign_protocols c.protocol srv k v).2)[0]?).map
            (fun s => s.imap.isSome && s.pop3.isSome) = some true := by
          simp [List.getElem?_set, hlt, hsome.1, hsome.2, hp]
        split at h
        · injection h with h
          subst h
          exact hh
        · split at h
          · unfold assign_auth at h
            split at h
            · simp at h
            · split at h
              · injection h with h
                subst h
                simp only
                rw [protocol_sets_head, protocol_sets_auth_write, ← protocol_sets_head]
                exact hh
              · simp at h
          · simp at h

theorem at_top_level_initial (cfg : build_config) : at_top_level (initial_ctx cfg) := by
  simp [at_top_level, initial_ctx, create_new_server]

theorem key_events_read (cfg : build_config) (keys : List (String × String)) :
    ∀ c, at_top_level c →
      (settings_read (key_events keys) parse_setting (parse_section cfg) c).1 = true →
      at_top_level (settings_read (key_events keys) parse_setting (parse_section cfg) c).2 := by
  induction keys with
  | nil => intro c hc _; simpa [key_events, settings_read] using hc
  | cons kv rest ih =>
    intro c hc h
    simp only [key_events, List.map_cons] at h ⊢
    unfold settings_read at h ⊢
    cases hcb : parse_setting kv.1 kv.2 c with
    | error e => simp [hcb] at h
    | ok c1 =>
      simp only [hcb] at h ⊢
      exact ih c1 (at_top_level_parse_setting _ _ _ _ hc hcb) h

/-- C6 (counterexample): after the accepted top-level line
`login_executable = /opt/imap-login`, the section `server a` is accepted and
its server is second in the list, but not every schema field of its imap
settings equals that of the imap settings of the root server: the field
`login_executable` differs. -/
theorem C6_login_executable_not_inherited :
    (settings_read sample_input_inherit parse_setting (parse_section sample_cfg)
      (initial_ctx sample_cfg)).1 = true ∧
    (ctx_after sample_input_inherit).server = 1 ∧
    ¬ ∀ d ∈ setting_defs,
      (((ctx_after sample_input_inherit).root[1]?).bind (fun s => s.imap)).map
          (fun set => set.vals d.name) =
        (((ctx_after sample_input_inherit).root[0]?).bind (fun s => s.imap)).map
          (fun set => set.vals d.name) := by
  refine ⟨by decide, by decide, ?_⟩
  intro h
  have h1 := h ⟨SET_STR, "login_executable"⟩ (by decide)
  revert h1
  decide

theorem create_new_server_imap_vals (cfg : build_config) (self : Nat) (name : String)
    (i p : settings) :
    ((create_new_server cfg self name i p).imap).map (fun set => set.vals) =
      some (Function.update
          (Function.update
            (Function.update i.vals "login_executable"
              (set_value.str (some (cfg.PKG_LIBEXECDIR ++ "/imap-login"))))
            "mail_executable" (set_value.str (some (cfg.PKG_LIBEXECDIR ++ "/imap"))))
          "mail_modules" (set_value.str (some (cfg.MODULEDIR ++ "/imap")))) := rfl

theorem create_new_server_pop3_vals (cfg : build_config) (self : Nat) (name : String)
    (i p : settings) :
    ((create_new_server cfg self name i p).pop3).map (fun set => set.vals) =
      some (Function.update
          (Function.update
            (Function.update p.vals "login_executable"
              (set_value.str (some (cfg.PKG_LIBEXECDIR ++ "/pop3-login"))))
            "mail_executable" (set_value.str (some (cfg.PKG_LIBEXECDIR ++ "/pop3"))))
          "mail_modules" (set_value.str (some (cfg.MODULEDIR ++ "/pop3")))) := rfl

theorem update3_other {base : fields} {a b c : set_value} {k : String}
    (hk : k ∉ ["login_executable", "mail_executable", "mail_modules"]) :
    Function.update (Function.update (Function.update base "login_executable" a)
      "mail_executable" b) "mail_modules" c k = base k := by
  simp only [List.mem_cons, List.mem_singleton, List.not_mem_nil, or_false, not_or] at hk
  obtain ⟨h1, h2, h3⟩ := hk
  rw [Function.update_noteq h3, Function.update_noteq h2, Function.update_noteq h1]

/-- C6 (amended): when a server section is opened after any sequence of
accepted top-level key assignments, the section is accepted, and every field
of the imap (pop3) settings of the new server other than `login_executable`,
`mail_executable` and `mail_modules` equals the corresponding field of the
imap (pop3) settings of the root server at that moment; these three fields
hold the built-in values of the protocol. -/
theorem C6_server_inherits_top_level (cfg : build_config) (keys : List (String × String))
    (name : String)
    (h : (settings_read (key_events keys) parse_setting (parse_section cfg)
      (initial_ctx cfg)).1 = true) :
    ∃ ctx1 root_imap root_pop3 new_imap new_pop3,
      parse_section cfg (some "server") name
        (settings_read (key_events keys) parse_setting (parse_section cfg)
          (initial_ctx cfg)).2 = .ok ctx1 ∧
      ctx1.type = SETTINGS_TYPE_SERVER ∧
      ctx1.server = (settings_read (key_events keys) parse_setting (parse_section cfg)
          (initial_ctx cfg)).2.root.length ∧
      ((settings_read (key_events keys) parse_setting (parse_section cfg)
          (initial_ctx cfg)).2.root[0]?).bind (fun s => s.imap) = some root_imap ∧
      ((settings_read (key_events keys) parse_setting (parse_section cfg)
          (initial_ctx cfg)).2.root[0]?).bind (fun s => s.pop3) = some root_pop3 ∧
      (ctx1.root[ctx1.server]?).bind (fun s => s.imap) = some new_imap ∧
      (ctx1.root[ctx1.server]?).bind (fun s => s.pop3) = some new_pop3 ∧
      (∀ k, k ∉ ["login_executable", "mail_executable", "mail_modules"] →
        new_imap.vals k = root_imap.vals k ∧ new_pop3.vals k = root_pop3.vals k) ∧
      new_imap.vals "login_executable" =
        set_value.str (some (cfg.PKG_LIBEXECDIR ++ "/imap-login")) ∧
      new_imap.vals "mail_executable" = set_value.str (some (cfg.PKG_LIBEXECDIR ++ "/imap")) ∧
      new_imap.vals "mail_modules" = set_value.str (some (cfg.MODULEDIR ++ "/imap")) ∧
      new_pop3.vals "login_executable" =
        set_value.str (some (cfg.PKG_LIBEXECDIR ++ "/pop3-login")) ∧
      new_pop3.vals "mail_executable" = set_value.str (some (cfg.PKG_LIBEXECDIR ++ "/pop3")) ∧
      new_pop3.vals "mail_modules" = set_value.str (some (cfg.MODULEDIR ++ "/pop3")) := by
  have hinv := key_events_read cfg keys (initial_ctx cfg) (at_top_level_initial cfg) h
  generalize (settings_read (key_events keys) parse_setting (parse_section cfg)
    (initial_ctx cfg)).2 = ctx at hinv ⊢
  obtain ⟨ht, hs, hp⟩ := hinv
  cases hr : ctx.root[0]? with
  | none => simp [hr] at hp
  | some srv =>
    simp only [hr, Option.map_some', Option.some.injEq, Bool.and_eq_true] at hp
    obtain ⟨hi, hpo⟩ := hp
    obtain ⟨imap, himap⟩ := Option.isSome_iff_exists.mp hi
    obtain ⟨pop3, hpop3⟩ := Option.isSome_iff_exists.mp hpo
    have hopen : parse_section cfg (some "server") name ctx =
        .ok { ctx with
              level := ctx.level + 1
              parent_type := ctx.type
              type := SETTINGS_TYPE_SERVER
              server := ctx.root.length
              root := ctx.root ++ [create_new_server cfg ctx.root.length name imap pop3] } := by
      simp [parse_section, parse_section_open, section_server, ht, hs, hr, himap, hpop3]
    have hvi := create_new_server_imap_vals cfg ctx.root.length name imap pop3
    have hvp := create_new_server_pop3_vals cfg ctx.root.length name imap pop3
    cases hni : (create_new_server cfg ctx.root.length name imap pop3).imap with
    | none => simp [hni] at hvi
    | some ni =>
      cases hnp : (create_new_server cfg ctx.root.length name imap pop3).pop3 with
      | none => simp [hnp] at hvp
      | some np =>
        simp only [hni, Option.map_some', Option.some.injEq] at hvi
        simp only [hnp, Option.map_some', Option.some.injEq] at hvp
        refine ⟨_, imap, pop3, ni, np, hopen, rfl, rfl, by simp [himap], by simp [hpop3],
          by simp [hni], by simp [hnp], ?_, ?_, ?_, ?_, ?_, ?_, ?_⟩
        · intro k hk
          rw [hvi, hvp]
          exact ⟨update3_other hk, update3_other hk⟩
        all_goals (first | rw [hvi] | rw [hvp])
        all_goals simp [Function.update]


theorem C6_server_inherits_top_level_witness :
    (settings_read (key_events sample_keys) parse_setting (parse_section sample_cfg)
      (initial_ctx sample_cfg)).1 = true ∧
    ∃ ctx1 root_imap new_imap,
      parse_section sample_cfg (some "server") "a"
        (settings_read (key_events sample_keys) parse_setting (parse_section sample_cfg)
          (initial_ctx sample_cfg)).2 = .ok ctx1 ∧
      ((settings_read (key_events sample_keys) parse_setting (parse_section sample_cfg)
          (initial_ctx sample_cfg)).2.root[0]?).bind (fun s => s.imap) = some root_imap ∧
      (ctx1.root[ctx1.server]?).bind (fun s => s.imap) = some new_imap ∧
      new_imap.vals "first_valid_uid" = root_imap.vals "first_valid_uid" := by
  refine ⟨by decide, ?_⟩
  obtain ⟨ctx1, root_imap, _, new_imap, _, h1, _, _, h2, _, h3, _, h4, _⟩ :=
    C6_server_inherits_top_level sample_cfg sample_keys "a" (by decide)
  exact ⟨ctx1, root_imap, new_imap, h1, h2, h3, (h4 "first_valid_uid" (by decide)).1⟩


/-! ## The key `auth_user` without an auth section (C7) -/

theorem settings_read_nil {γ : Type}
    (callback : String → String → γ → Except String γ)
    (sect_callback : Option String → String → γ → Except String γ) (c : γ) :
    settings_read [] callback sect_callback c = (true, c) := rfl

theorem settings_read_key_value {γ : Type}
    (callback : String → String → γ → Except String γ)
    (sect_callback : Option String → String → γ → Except String γ)
    (k v : String) (rest : List settings_event) (c : γ) :
    settings_read (.key_value k v :: rest) callback sect_callback c =
      match callback k v c with
      | .ok c1 => settings_read rest callback sect_callback c1
      | .error _ => (false, c) := rfl

theorem settings_read_sect {γ : Type}
    (callback : String → String → γ → Except String γ)
    (sect_callback : Option String → String → γ → Except String γ)
    (t : Option String) (n : String) (rest : List settings_event) (c : γ) :
    settings_read (.sect t n :: rest) callback sect_callback c =
      match sect_callback t n c with
      | .ok c1 => settings_read rest callback sect_callback c1
      | .error _ => (false, c) := rfl

theorem settings_read_invalid {γ : Type}
    (callback : String → String → γ → Except String γ)
    (sect_callback : Option String → String → γ → Except String γ)
    (rest : List settings_event) (c : γ) :
    settings_read (.invalid :: rest) callback sect_callback c = (false, c) := rfl

theorem settings_read_append {γ : Type}
    (callback : String → String → γ → Except String γ)
    (sect_callback : Option String → String → γ → Except String γ)
    (xs ys : List settings_event) :
    ∀ c, (settings_read (xs ++ ys) callback sect_callback c).1 = true →
      (settings_read xs callback sect_callback c).1 = true ∧
      settings_read (xs ++ ys) callback sect_callback c =
        settings_read ys callback sect_callback (settings_read xs callback sect_callback c).2 := by
  induction xs with
  | nil => intro c h; exact ⟨by simp [settings_read_nil], by simp [settings_read_nil]⟩
  | cons e rest ih =>
    intro c h
    cases e with
    | key_value k v =>
      simp only [List.cons_append, settings_read_key_value] at h ⊢
      cases hcb : callback k v c with
      | error e => simp [hcb] at h
      | ok c1 =>
        simp only [hcb] at h ⊢
        exact ih c1 h
    | sect t n =>
      simp only [List.cons_append, settings_read_sect] at h ⊢
      cases hcb : sect_callback t n c with
      | error e => simp [hcb] at h
      | ok c1 =>
        simp only [hcb] at h ⊢
        exact ih c1 h
    | invalid => simp [settings_read_invalid] at h

theorem auth_names_length (root : List server_settings) :
    (auth_names root).length = root.length := by simp [auth_names]

theorem parse_section_plain {cfg : build_config} {t : Option String} {n : String}
    {c c1 : settings_parse_ctx} (ht : t ≠ some "auth")
    (h1 : plain_type c.type) (h2 : plain_type c.parent_type)
    (h : parse_section cfg t n c = .ok c1) :
    plain_type c1.type ∧ plain_type c1.parent_type := by
  unfold parse_section at h
  cases t with
  | none =>
    simp only at h
    injection h with h
    subst h
    unfold parse_section_close
    split
    · refine ⟨h2, ?_⟩
      simp only
      split
      · next hp => rw [hp] at h2; simp [plain_type] at h2
      · left; rfl
    · exact ⟨Or.inl rfl, h2⟩
  | some t =>
    simp only at h
    unfold parse_section_open at h
    split at h
    · unfold section_server at h
      split at h
      · simp at h
      · split at h
        · simp at h
        · split at h
          · injection h with h; subst h
            exact ⟨Or.inr (Or.inl rfl), h1⟩
          · simp at h
    · split at h
      · unfold section_protocol at h
        split at h
        · simp at h
        · split at h
          · injection h with h; subst h; exact ⟨h1, h1⟩
          · split at h
            · injection h with h; subst h; exact ⟨h1, h1⟩
            · simp at h
      · split at h
        · next hta =>
          exfalso
          apply ht
          have : t = "auth" := by simpa using hta
          rw [this]
        · split at h
          · next hc =>
            simp only [Bool.and_eq_true, beq_iff_eq] at hc
            rcases h1 with h1 | h1 | h1 <;> rw [h1] at hc <;> simp at hc
          · split at h
            · next hc =>
              simp only [Bool.and_eq_true, beq_iff_eq] at hc
              rcases h1 with h1 | h1 | h1 <;> rw [h1] at hc <;> simp at hc
            · split at h
              · next hc =>
                simp only [Bool.and_eq_true, beq_iff_eq] at hc
                rcases h1 with h1 | h1 | h1 <;> rw [h1] at hc <;> simp at hc
              · split at h
                · unfold section_namespace at h
                  split at h
                  · simp at h
                  · split at h
                    · injection h with h; subst h
                      exact ⟨Or.inr (Or.inr rfl), h1⟩
                    · simp at h
                · simp at h

theorem settings_read_cons (cfg : build_config) (e : settings_event)
    (rest : List settings_event) (c : settings_parse_ctx) :
    settings_read (e :: rest) parse_setting (parse_section cfg) c =
      match deliver cfg e c with
      | .ok c1 => settings_read rest parse_setting (parse_section cfg) c1
      | .error _ => (false, c) := by
  cases e with
  | key_value k v =>
    simp only [settings_read_key_value, deliver]
    cases parse_setting k v c <;> rfl
  | sect t n =>
    simp only [settings_read_sect, deliver]
    cases parse_section cfg t n c <;> rfl
  | invalid => simp only [settings_read_invalid, deliver]

/-- A property kept by every accepted event of a given kind holds after a
reading, made of events of that kind, that returns TRUE. -/
theorem settings_read_filtered (cfg : build_config) (P : settings_parse_ctx → Prop)
    (kind : settings_event → Bool)
    (hstep : ∀ e c c1, kind e = true → P c → deliver cfg e c = .ok c1 → P c1)
    (input : List settings_event) :
    ∀ c, input.all kind = true → P c →
      (settings_read input parse_setting (parse_section cfg) c).1 = true →
      P (settings_read input parse_setting (parse_section cfg) c).2 := by
  induction input with
  | nil => intro c _ hc _; simpa [settings_read_nil] using hc
  | cons e rest ih =>
    intro c hall hc h
    simp only [List.all_cons, Bool.and_eq_true] at hall
    rw [settings_read_cons] at h ⊢
    cases hd : deliver cfg e c with
    | error m => simp [hd] at h
    | ok c1 =>
      simp only [hd] at h ⊢
      exact ih c1 hall.2 (hstep e c c1 hall.1 hc hd) h

theorem no_backend_event (cfg : build_config) (e : settings_event) (c c1 : settings_parse_ctx)
    (he : is_auth_event e = false) (hc : no_backend c)
    (h : deliver cfg e c = .ok c1) :
    no_backend c1 := by
  obtain ⟨ha, hn, ht, hpt, hl⟩ := hc
  cases e with
  | key_value k v =>
    have hk : k ≠ "auth" := by simpa [is_auth_event] using he
    simp only [deliver] at h
    obtain ⟨hf, hnames⟩ := parse_setting_frame hk h
    refine ⟨by rw [hf]; exact ha, by rw [hnames]; exact hn, by rw [hf]; exact ht,
      by rw [hf]; exact hpt, ?_⟩
    rw [← auth_names_length, hnames, auth_names_length]
    exact hl
  | sect t n =>
    have hta : t ≠ some "auth" := by simpa [is_auth_event] using he
    simp only [deliver] at h
    obtain ⟨hp1, hp2⟩ := parse_section_plain hta ht hpt h
    rcases parse_section_names h with ⟨hx, _⟩ | ⟨_, hnames, hauth⟩
    · exact absurd hx hta
    · refine ⟨?_, ?_, hp1, hp2, ?_⟩
      · rcases hauth with hauth | hauth
        · rw [hauth]; exact ha
        · exact hauth
      · rcases hnames with hnames | hnames
        · rw [hnames]; exact hn
        · rw [hnames]
          intro l hl1
          rcases List.mem_append.mp hl1 with hl1 | hl1
          · exact hn l hl1
          · simpa using hl1
      · rcases hnames with hnames | hnames
        · rw [← auth_names_length, hnames, auth_names_length]; exact hl
        · have := congrArg List.length hnames
          simp only [auth_names_length, List.length_append, List.length_singleton] at this
          omega
  | invalid => simp [deliver] at h

theorem template_users_set {root : List server_settings} {i : Nat} {srv s1 : server_settings}
    (h : root[i]? = some srv)
    (hs : s1.auth_defaults.vals "user" = srv.auth_defaults.vals "user") :
    template_users (root.set i s1) = template_users root := by
  unfold template_users
  rw [List.map_set]
  apply set_same
  simp [h, hs]

theorem assign_protocol_auth_defaults (server : server_settings) (proto : mail_protocol)
    (key value : String) :
    (assign_protocol server proto key value).2.auth_defaults = server.auth_defaults := by
  unfold assign_protocol
  cases proto <;> simp only <;> split <;> try rfl
  all_goals (split <;> rfl)

theorem assign_protocols_auth_defaults (protocol : mail_protocol) (server : server_settings)
    (key value : String) :
    (assign_protocols protocol server key value).2.auth_defaults = server.auth_defaults := by
  unfold assign_protocols
  simp only
  split <;> split <;> simp [assign_protocol_auth_defaults]

/-- A successful assignment writes the field named by the key and no other. -/
theorem parse_setting_from_defs_other {defs : List setting_def} {base v1 : fields}
    {key value : String} (h : parse_setting_from_defs defs base key value = .ok v1)
    {k : String} (hk : k ≠ key) : v1 k = base k := by
  unfold parse_setting_from_defs at h
  split at h
  · simp at h
  · next d hd =>
    have hname : d.name = key := by
      have := List.find?_some hd
      simpa using this
    have hk1 : k ≠ d.name := by rw [hname]; exact hk
    split at h
    · injection h with h; subst h; exact Function.update_noteq hk1 _ _
    · split at h
      · injection h with h; subst h; exact Function.update_noteq hk1 _ _
      · simp at h
    · split at h
      · injection h with h; subst h; exact Function.update_noteq hk1 _ _
      · simp at h

theorem str_skip_auth_user {k : String} (hp : strncmp_eq k "auth_" = true)
    (hk : k ≠ "auth_user") : str_skip k 5 ≠ "user" := by
  intro hs
  apply hk
  unfold strncmp_eq at hp
  rw [List.isPrefixOf_iff_prefix] at hp
  obtain ⟨t, ht⟩ := hp
  unfold str_skip at hs
  have h5 : k.toList.drop 5 = t := by
    rw [← ht]
    rfl
  rw [h5] at hs
  have ht2 : t = "user".toList := by
    have := congrArg String.toList hs
    simpa using this
  rw [ht2] at ht
  have : k = String.mk k.toList := rfl
  rw [this, ← ht]
  rfl

theorem template_users_auth_write_defaults {root : List server_settings} {a a1 : auth_settings}
    (h : auth_read root (auth_ptr.defaults 0) = some a)
    (hu : a1.vals "user" = a.vals "user") :
    template_users (auth_write root (auth_ptr.defaults 0) a1) = template_users root := by
  cases hr : root[0]? with
  | none => simp [auth_write, hr]
  | some srv =>
    simp only [auth_read, hr, Option.map_some', Option.some.injEq] at h
    simp only [auth_write, hr]
    exact template_users_set hr (by simp [hu, h])

theorem template_users_head_auth_write {root : List server_settings} {a a1 : auth_settings}
    (h : auth_read root (auth_ptr.defaults 0) = some a) :
    (template_users (auth_write root (auth_ptr.defaults 0) a1))[0]? = some (a1.vals "user") := by
  cases hr : root[0]? with
  | none => simp [auth_read, hr] at h
  | some srv =>
    have hlt : 0 < root.length := by
      by_contra hc0
      rw [List.getElem?_eq_none (by omega)] at hr
      exact absurd hr (by simp)
    simp [auth_write, hr, template_users, List.getElem?_set, hlt]

/-- An accepted key other than `auth` and `auth_user`, met before any auth
section, leaves the field `user` of every auth template as it is. -/
theorem template_users_parse_setting {k v : String} {c c1 : settings_parse_ctx}
    (hk : k ≠ "auth") (hku : k ≠ "auth_user") (hc : no_backend c)
    (h : parse_setting k v c = .ok c1) :
    template_users c1.root = template_users c.root := by
  obtain ⟨ha, _, ht, _, _⟩ := hc
  unfold parse_setting at h
  have hk1 : (k == "auth") = false := by simpa using hk
  simp only [hk1, Bool.false_eq_true, if_false] at h
  split at h
  · injection h with h; subst h; rfl
  · have hserver : parse_setting_server k v c = .ok c1 →
        template_users c1.root = template_users c.root := by
      intro h
      unfold parse_setting_server at h
      split at h
      · simp at h
      · next server hs =>
        have hn : template_users (c.root.set c.server
            (assign_protocols c.protocol server k v).2) = template_users c.root :=
          template_users_set hs (by rw [assign_protocols_auth_defaults])
        simp only at h
        split at h
        · injection h with h; subst h; exact hn
        · split at h
          · next hp =>
            unfold assign_auth at h
            simp only [ha] at h
            split at h
            · simp at h
            · next a har =>
              split at h
              · next v1 hv =>
                injection h with h
                subst h
                simp only
                rw [template_users_auth_write_defaults har
                  (parse_setting_from_defs_other hv (Ne.symm (str_skip_auth_user hp hku)))]
                exact hn
              · simp at h
          · simp at h
    rcases ht with ht | ht | ht <;> simp only [ht] at h
    · exact hserver h
    · exact hserver h
    · unfold parse_setting_namespace at h
      split at h
      · simp at h
      · next p _ =>
        split at h
        · simp at h
        · split at h
          · injection h with h
            subst h
            simp only [namespace_write]
            cases hr : c.root[p.server]? with
            | none => rfl
            | some srv => exact template_users_set hr rfl
          · simp at h

theorem find_auth_user_setting_defs :
    setting_defs.find? (fun d => d.name == "auth_user") = none := by decide

theorem find_auth_user_namespace_defs :
    namespace_setting_defs.find? (fun d => d.name == "auth_user") = none := by decide

theorem assign_protocol_auth_user (server : server_settings) (proto : mail_protocol)
    (v : String) :
    ∃ e, assign_protocol server proto "auth_user" v = (some e, server) := by
  unfold assign_protocol
  cases proto <;> simp only <;> split <;>
    simp [parse_setting_from_defs, find_auth_user_setting_defs]

theorem assign_protocols_auth_user (protocol : mail_protocol) (server : server_settings)
    (v : String) :
    ∃ e, assign_protocols protocol server "auth_user" v = (some e, server) := by
  unfold assign_protocols
  obtain ⟨e1, h1⟩ := assign_protocol_auth_user server MAIL_PROTOCOL_IMAP v
  obtain ⟨e2, h2⟩ := assign_protocol_auth_user server MAIL_PROTOCOL_POP3 v
  cases protocol <;> simp [h1, h2]

/-- The key `auth_user`, accepted before any auth section, is stored in the
field `user` of the auth template of the root server. -/
theorem template_users_auth_user {v : String} {c c1 : settings_parse_ctx}
    (hc : no_backend c) (h : parse_setting "auth_user" v c = .ok c1) :
    (template_users c1.root)[0]? = some (set_value.str (some v)) := by
  obtain ⟨ha, _, ht, _, _⟩ := hc
  unfold parse_setting at h
  have hk1 : ("auth_user" == "auth") = false := by decide
  have hk2 : ("auth_user" == "login") = false := by decide
  simp only [hk1, hk2, Bool.false_eq_true, if_false] at h
  have hserver : parse_setting_server "auth_user" v c = .ok c1 →
      (template_users c1.root)[0]? = some (set_value.str (some v)) := by
    intro h
    unfold parse_setting_server at h
    split at h
    · simp at h
    · next server hs =>
      obtain ⟨e, he⟩ := assign_protocols_auth_user c.protocol server v
      have hp : strncmp_eq "auth_user" "auth_" = true := by decide
      have hskip : str_skip "auth_user" 5 = "user" := by decide
      simp only [he, hp, if_true, hskip, set_same _ _ _ hs] at h
      unfold assign_auth at h
      simp only [ha] at h
      split at h
      · simp at h
      · next a har =>
        have hv : parse_setting_from_defs auth_setting_defs a.vals "user" v =
            .ok (Function.update a.vals "user" (set_value.str (some v))) := by
          simp [parse_setting_from_defs, auth_setting_defs]
        simp only [hv] at h
        injection h with h
        subst h
        simp only
        rw [template_users_head_auth_write har]
        simp
  rcases ht with ht | ht | ht <;> simp only [ht] at h
  · exact hserver h
  · exact hserver h
  · unfold parse_setting_namespace at h
    split at h
    · simp at h
    · split at h
      · simp at h
      · simp [parse_setting_from_defs, find_auth_user_namespace_defs] at h

/-- An accepted section event other than `auth`, met before any auth section,
leaves the auth template of the root server as it is. -/
theorem template_users_head_parse_section {cfg : build_config} {t : Option String}
    {n : String} {c c1 : settings_parse_ctx} (ht : t ≠ some "auth") (hc : no_backend c)
    (h : parse_section cfg t n c = .ok c1) :
    (template_users c1.root)[0]? = (template_users c.root)[0]? := by
  obtain ⟨_, _, hty, _, hl⟩ := hc
  unfold parse_section at h
  cases t with
  | none =>
    simp only at h
    injection h with h
    subst h
    unfold parse_section_close
    split <;> rfl
  | some t =>
    simp only at h
    unfold parse_section_open at h
    split at h
    · unfold section_server at h
      split at h
      · simp at h
      · split at h
        · simp at h
        · split at h
          · injection h with h; subst h
            simp only [template_users, List.map_append]
            rw [List.getElem?_append_left (by simpa using hl)]
          · simp at h
    · split at h
      · unfold section_protocol at h
        split at h
        · simp at h
        · split at h
          · injection h with h; subst h; rfl
          · split at h
            · injection h with h; subst h; rfl
            · simp at h
      · split at h
        · next hta =>
          exfalso
          apply ht
          have : t = "auth" := by simpa using hta
          rw [this]
        · split at h
          · next hcond =>
            simp only [Bool.and_eq_true, beq_iff_eq] at hcond
            rcases hty with h1 | h1 | h1 <;> rw [h1] at hcond <;> simp at hcond
          · split at h
            · next hcond =>
              simp only [Bool.and_eq_true, beq_iff_eq] at hcond
              rcases hty with h1 | h1 | h1 <;> rw [h1] at hcond <;> simp at hcond
            · split at h
              · next hcond =>
                simp only [Bool.and_eq_true, beq_iff_eq] at hcond
                rcases hty with h1 | h1 | h1 <;> rw [h1] at hcond <;> simp at hcond
              · split at h
                · unfold section_namespace at h
                  split at h
                  · simp at h
                  · split at h
                    · next ns root hp =>
                      injection h with h; subst h
                      simp only
                      unfold parse_new_namespace at hp
                      split at hp
                      · simp at hp
                      · unfold namespace_settings_new at hp
                        split at hp
                        · simp at hp
                        · next srv hs =>
                          injection hp with _ hp
                          rw [← hp]
                          exact congrArg (fun l => l[0]?) (template_users_set hs rfl)
                    · simp at h
                · simp at h

theorem template_user_event (cfg : build_config) (u : Option set_value) (e : settings_event)
    (c c1 : settings_parse_ctx) (he : is_other_event e = true)
    (hc : no_backend c ∧ (template_users c.root)[0]? = u)
    (h : deliver cfg e c = .ok c1) :
    no_backend c1 ∧ (template_users c1.root)[0]? = u := by
  simp only [is_other_event, Bool.and_eq_true, Bool.not_eq_true'] at he
  refine ⟨no_backend_event cfg e c c1 he.1 hc.1 h, ?_⟩
  rw [← hc.2]
  cases e with
  | key_value k v =>
    have hk : k ≠ "auth" := by simpa [is_auth_event] using he.1
    have hku : k ≠ "auth_user" := by simpa [is_auth_user_key] using he.2
    simp only [deliver] at h
    rw [template_users_parse_setting hk hku hc.1 h]
  | sect t n =>
    have hta : t ≠ some "auth" := by simpa [is_auth_event] using he.1
    simp only [deliver] at h
    exact template_users_head_parse_section hta hc.1 h
  | invalid => simp [deliver] at h

theorem no_backend_initial (cfg : build_config) : no_backend (initial_ctx cfg) := by
  refine ⟨rfl, ?_, Or.inl rfl, Or.inl rfl, ?_⟩
  · simp [auth_names, initial_ctx, create_new_server]
  · simp [initial_ctx]

theorem parse_setting_ctx {ctx ctx1 : settings_parse_ctx} {key value : String}
    (h : parse_setting key value ctx = .ok ctx1) :
    ctx1.type = ctx.type ∧ ctx1.parent_type = ctx.parent_type ∧ ctx1.server = ctx.server ∧
    ctx1.auth_socket = ctx.auth_socket ∧ ctx1.level = ctx.level ∧
    ctx1.protocol = ctx.protocol := by
  by_cases hk : key = "auth"
  · subst hk
    unfold parse_setting at h
    simp only [beq_self_eq_true, if_true] at h
    split at h
    · injection h with h
      subst h
      exact ⟨rfl, rfl, rfl, rfl, rfl, rfl⟩
    · simp at h
  · have := (parse_setting_frame hk h).1
    rw [this]
    exact ⟨rfl, rfl, rfl, rfl, rfl, rfl⟩

theorem parse_section_open_level {cfg : build_config} {t n : String}
    {ctx ctx1 : settings_parse_ctx} (h : parse_section_open cfg t n ctx = .ok ctx1) :
    ctx1.level = ctx.level := by
  unfold parse_section_open at h
  split at h
  · unfold section_server at h
    split at h
    · simp at h
    · split at h
      · simp at h
      · split at h
        · injection h with h; subst h; rfl
        · simp at h
  · split at h
    · unfold section_protocol at h
      split at h
      · simp at h
      · split at h
        · injection h with h; subst h; rfl
        · split at h
          · injection h with h; subst h; rfl
          · simp at h
    · split at h
      · unfold section_auth at h
        split at h
        · simp at h
        · split at h
          · injection h with h; subst h; rfl
          · simp at h
      · split at h
        · unfold section_socket at h
          split at h
          · injection h with h; subst h; rfl
          · simp at h
        · split at h
          · unfold section_master_client at h
            split at h
            · simp at h
            · injection h with h; subst h; rfl
          · split at h
            · unfold section_master_client at h
              split at h
              · simp at h
              · injection h with h; subst h; rfl
            · split at h
              · unfold section_namespace at h
                split at h
                · simp at h
                · split at h
                  · injection h with h; subst h; rfl
                  · simp at h
              · simp at h

/-- After an accepted reading that starts at nesting depth `d`, the level of
the context is the nesting depth of the source, and at depth 0 the parser is
at Root scope with the root server active. -/
theorem section_depth_read (cfg : build_config) (input : List settings_event) :
    ∀ (d : Nat) (c : settings_parse_ctx), c.level = (d : Int) →
      (d = 0 → c.type = SETTINGS_TYPE_ROOT ∧ c.server = 0) →
      (settings_read input parse_setting (parse_section cfg) c).1 = true →
      ∀ d1, section_depth_from d input = some d1 →
        (settings_read input parse_setting (parse_section cfg) c).2.level = (d1 : Int) ∧
        (d1 = 0 →
          (settings_read input parse_setting (parse_section cfg) c).2.type =
            SETTINGS_TYPE_ROOT ∧
          (settings_read input parse_setting (parse_section cfg) c).2.server = 0) := by
  induction input with
  | nil =>
    intro d c hl ht _ d1 hd
    simp only [section_depth_from, Option.some.injEq] at hd
    subst hd
    simp only [settings_read_nil]
    exact ⟨hl, ht⟩
  | cons e rest ih =>
    intro d c hl ht h d1 hd
    cases e with
    | key_value k v =>
      rw [settings_read_key_value] at h ⊢
      cases hcb : parse_setting k v c with
      | error m => simp [hcb] at h
      | ok c1 =>
        simp only [hcb] at h ⊢
        obtain ⟨h1, _, h3, _, h5, _⟩ := parse_setting_ctx hcb
        simp only [section_depth_from] at hd
        exact ih d c1 (by rw [h5]; exact hl) (by rw [h1, h3]; exact ht) h d1 hd
    | sect t n =>
      rw [settings_read_sect] at h ⊢
      cases hcb : parse_section cfg t n c with
      | error m => simp [hcb] at h
      | ok c1 =>
        simp only [hcb] at h ⊢
        cases t with
        | none =>
          simp only [section_depth_from] at hd
          split at hd
          · simp at hd
          · next hd0 =>
            simp only [parse_section] at hcb
            injection hcb with hcb
            subst hcb
            refine ih (d - 1) _ ?_ ?_ h d1 hd
            · unfold parse_section_close
              split <;> (simp only; rw [hl]; omega)
            · intro hz
              have hl1 : ¬ (c.level - 1 > 0) := by rw [hl]; omega
              unfold parse_section_close
              rw [if_neg hl1]
              exact ⟨rfl, rfl⟩
        | some t =>
          simp only [section_depth_from] at hd
          simp only [parse_section] at hcb
          have hlev := parse_section_open_level hcb
          simp only at hlev
          refine ih (d + 1) c1 (by rw [hlev, hl]; push_cast; rfl) (by omega) h d1 hd
    | invalid => simp [settings_read_invalid] at h

/-- C7 (amended): for every input that the parse pass accepts and that
contains a top-level line `auth_user = v` (the events before it leave the
nesting depth 0), no later line `auth_user`, no auth section and no legacy key
`auth`: the line is read at Root scope with the root server active, the tree
built has no auth backend in the auth list of any server (so none in that of
the root server), and `v` is the field `user` of the `auth_defaults` template
of the root server. -/
theorem C7_auth_user_stored_in_template (cfg : build_config)
    (pre post : List settings_event) (v : String)
    (htop : section_depth_from 0 pre = some 0)
    (hpre : pre.all (fun e => !is_auth_event e) = true)
    (hpost : post.all is_other_event = true)
    (h : (settings_read (pre ++ .key_value "auth_user" v :: post) parse_setting
      (parse_section cfg) (initial_ctx cfg)).1 = true) :
    ((settings_read pre parse_setting (parse_section cfg) (initial_ctx cfg)).2.level = 0 ∧
      (settings_read pre parse_setting (parse_section cfg) (initial_ctx cfg)).2.type =
        SETTINGS_TYPE_ROOT ∧
      (settings_read pre parse_setting (parse_section cfg) (initial_ctx cfg)).2.server = 0) ∧
    (∀ server ∈ (settings_read (pre ++ .key_value "auth_user" v :: post) parse_setting
        (parse_section cfg) (initial_ctx cfg)).2.root, server.auths = []) ∧
    ((settings_read (pre ++ .key_value "auth_user" v :: post) parse_setting
        (parse_section cfg) (initial_ctx cfg)).2.root[0]?).map
      (fun s => s.auth_defaults.vals "user") = some (set_value.str (some v)) := by
  obtain ⟨h1, h2⟩ := settings_read_append parse_setting (parse_section cfg) pre _ _ h
  have htopc := section_depth_read cfg pre 0 (initial_ctx cfg) rfl (fun _ => ⟨rfl, rfl⟩) h1 0
    htop
  refine ⟨⟨by simpa using htopc.1, (htopc.2 rfl).1, (htopc.2 rfl).2⟩, ?_⟩
  rw [h2] at h ⊢
  have hnb := settings_read_filtered cfg no_backend (fun e => !is_auth_event e)
    (fun e c c1 he hc hd => no_backend_event cfg e c c1 (by simpa using he) hc hd)
    pre (initial_ctx cfg) hpre (no_backend_initial cfg) h1
  generalize (settings_read pre parse_setting (parse_section cfg) (initial_ctx cfg)).2 = c0
    at hnb h ⊢
  rw [settings_read_key_value] at h ⊢
  cases hkv : parse_setting "auth_user" v c0 with
  | error m => simp [hkv] at h
  | ok c1 =>
    simp only [hkv] at h ⊢
    have hnb1 : no_backend c1 :=
      no_backend_event cfg (.key_value "auth_user" v) c0 c1 (by simp [is_auth_event]) hnb hkv
    have hu1 := template_users_auth_user hnb hkv
    have hfin := settings_read_filtered cfg
      (fun c => no_backend c ∧ (template_users c.root)[0]? = some (set_value.str (some v)))
      is_other_event (template_user_event cfg _) post c1 hpost ⟨hnb1, hu1⟩ h
    generalize (settings_read post parse_setting (parse_section cfg) c1).2 = c2 at hfin ⊢
    obtain ⟨⟨_, hn, _, _, _⟩, hu⟩ := hfin
    refine ⟨?_, ?_⟩
    · intro server hs
      have := hn (server.auths.map (fun a => a.name))
        (by simp only [auth_names]; exact List.mem_map_of_mem _ hs)
      simpa using this
    · simpa [template_users] using hu


/-- C7 (counterexample): the input `auth_user = vmail` is accepted by the parse
pass; the auth list of the root server of the tree is empty, it does not have
exactly one entry; and the load of this input with checks returns FALSE: the
requirement of an auth backend is not met. -/
theorem C7_auth_user_creates_no_backend :
    (settings_read sample_input_auth_user parse_setting (parse_section sample_cfg)
      (initial_ctx sample_cfg)).1 = true ∧
    ((ctx_after sample_input_auth_user).root[0]?).map (fun s => s.auths.length) = some 0 ∧
    (master_settings_read sample_cfg sample_env () master_settings_init
      sample_input_auth_user false).1 = call_result.returned false := by
  refine ⟨by decide, by decide, by decide⟩

theorem C7_auth_user_stored_in_template_witness :
    section_depth_from 0 sample_pre = some 0 ∧
    sample_pre.all (fun e => !is_auth_event e) = true ∧
    sample_post.all is_other_event = true ∧
    (settings_read (sample_pre ++ .key_value "auth_user" "vmail" :: sample_post) parse_setting
      (parse_section sample_cfg) (initial_ctx sample_cfg)).1 = true ∧
    (∀ server ∈ (settings_read (sample_pre ++ .key_value "auth_user" "vmail" :: sample_post)
        parse_setting (parse_section sample_cfg) (initial_ctx sample_cfg)).2.root,
      server.auths = []) ∧
    ((settings_read (sample_pre ++ .key_value "auth_user" "vmail" :: sample_post) parse_setting
        (parse_section sample_cfg) (initial_ctx sample_cfg)).2.root[0]?).map
      (fun s => s.auth_defaults.vals "user") = some (set_value.str (some "vmail")) :=
  ⟨by decide, by decide, by decide, by decide,
    (C7_auth_user_stored_in_template sample_cfg sample_pre sample_post "vmail"
      (by decide) (by decide) (by decide) (by decide)).2⟩

/-! ## The validation pass: ranges and the two ways a load ends -/

theorem settings_verify_limits_range {σ : Type} {env : os_env σ} {os : σ} {set : settings}
    (h : settings_verify_limits env os set = true) : range_ok set := by
  unfold settings_verify_limits at h
  split at h
  · simp at h
  · split at h
    · simp at h
    · next hu =>
      split at h
      · simp at h
      · next hg =>
        simp only [Bool.and_eq_true, bne_iff_ne, ne_eq, decide_eq_true_eq, not_and, not_lt] at hu hg
        exact ⟨fun h0 => by have := hu h0; omega, fun h0 => by have := hg h0; omega⟩

theorem settings_verify_dirs_range {σ : Type} {env : os_env σ} {os os1 : σ}
    {set : settings} {gid : Nat} {servers : List server_settings}
    (h : settings_verify_dirs env os set gid servers = (.returned true, os1)) :
    range_ok set := by
  unfold settings_verify_dirs at h
  simp only at h
  split at h
  · simp at h
  · injection h with h1 _
    injection h1 with h1
    exact settings_verify_limits_range h1

theorem settings_verify_range {σ : Type} {cfg : build_config} {env : os_env σ} {os os1 : σ}
    {set set1 : settings} {server : server_settings} {next : List server_settings} {gid : Nat}
    (h : settings_verify cfg env os set server next = (.returned true, set1, gid, os1)) :
    range_ok set1 := by
  unfold settings_verify at h
  split at h
  · simp at h
  · repeat (split at h; · simp at h)
    simp only at h
    injection h with h1 h2
    injection h2 with h2 h3
    injection h3 with _ h4
    rw [← h2]
    exact settings_verify_dirs_range (Prod.ext h1 h4)

theorem force_verify_client_cert_range {o : Option settings}
    (h : ∀ set, o = some set → range_ok set) :
    ∀ set, force_verify_client_cert o = some set → range_ok set := by
  intro set hs
  cases o with
  | none => simp [force_verify_client_cert] at hs
  | some s =>
    simp only [force_verify_client_cert, Option.map_some', Option.some.injEq] at hs
    subst hs
    have := h s rfl
    simpa [range_ok, settings.int, Function.update] using this

theorem force_server_ranges {server : server_settings} (h : server_ranges_ok server) :
    server_ranges_ok
      { server with
        pop3 := force_verify_client_cert server.pop3
        imap := force_verify_client_cert server.imap } := by
  intro set hs
  rcases hs with hs | hs
  · exact force_verify_client_cert_range (fun s hs1 => h s (Or.inl hs1)) set hs
  · exact force_verify_client_cert_range (fun s hs1 => h s (Or.inr hs1)) set hs

theorem auth_settings_verify_ranges {σ : Type} (env : os_env σ) (os : σ)
    (server : server_settings) (auth : auth_settings) (h : server_ranges_ok server) :
    server_ranges_ok (auth_settings_verify env os server auth).2.2 := by
  unfold auth_settings_verify
  split
  · exact h
  · split
    · exact h
    · split
      · exact h
      · simp only
        split
        · exact h
        · split
          · split
            · exact h
            · split
              · exact force_server_ranges h
              · exact h
          · split
            · exact force_server_ranges h
            · exact h

theorem verify_auths_ranges {σ : Type} (env : os_env σ) (os : σ) (todo : List auth_settings) :
    ∀ (server : server_settings) (done : List auth_settings), server_ranges_ok server →
      server_ranges_ok (verify_auths env os server done todo).2 := by
  induction todo with
  | nil => intro server done h; exact h
  | cons auth rest ih =>
    intro server done h
    unfold verify_auths
    have h1 : server_ranges_ok { server with auths := done ++ auth :: rest } := h
    have h2 := auth_settings_verify_ranges env os _ auth h1
    split
    · next auth1 server1 heq =>
      rw [heq] at h2
      exact ih server1 _ h2
    · next auth1 server1 heq =>
      rw [heq] at h2
      exact h2

theorem check_auths_ranges {σ : Type} (env : os_env σ) (nochecks : Bool) (os : σ)
    (server : server_settings) (h : server_ranges_ok server) :
    server_ranges_ok (check_auths env nochecks os server).2 := by
  unfold check_auths
  split
  · exact h
  · split
    · have := verify_auths_ranges env os server.auths server [] h
      split
      · next server1 heq => rw [heq] at this; exact this
      · next server1 heq => rw [heq] at this; exact this
    · exact h

theorem check_imap_range {σ : Type} {cfg : build_config} {env : os_env σ} {os os1 : σ}
    {server server1 : server_settings} {next : List server_settings}
    (h : check_imap cfg env false os server next = (.returned true, server1, os1)) :
    (∀ set, server1.imap = some set → range_ok set) ∧ server1.pop3 = server.pop3 := by
  unfold check_imap at h
  split at h
  · simp at h
  · split at h
    · injection h with _ h
      injection h with h _
      subst h
      simp
    · simp only [Bool.not_false, if_true] at h
      split at h
      · next set gid os2 hv =>
        injection h with _ h
        injection h with h _
        subst h
        refine ⟨?_, rfl⟩
        intro s hs
        simp only [Option.some.injEq] at hs
        subst hs
        exact settings_verify_range hv
      · next r set gid os2 hne hv =>
        injection h with h _
        subst h
        exact absurd rfl hne

theorem check_pop3_range {σ : Type} {cfg : build_config} {env : os_env σ} {os os1 : σ}
    {server server1 : server_settings} {next : List server_settings}
    (h : check_pop3 cfg env false os server next = (.returned true, server1, os1)) :
    (∀ set, server1.pop3 = some set → range_ok set) ∧ server1.imap = server.imap := by
  unfold check_pop3 at h
  split at h
  · simp at h
  · split at h
    · injection h with _ h
      injection h with h _
      subst h
      simp
    · simp only [Bool.not_false, if_true] at h
      split at h
      · next set gid os2 hv =>
        injection h with _ h
        injection h with h _
        subst h
        refine ⟨?_, rfl⟩
        intro s hs
        simp only [Option.some.injEq] at hs
        subst hs
        exact settings_verify_range hv
      · next r set gid os2 hne hv =>
        injection h with h _
        subst h
        exact absurd rfl hne

theorem verify_server_ranges {σ : Type} {cfg : build_config} {env : os_env σ} {os os1 : σ}
    {server server1 : server_settings} {next : List server_settings}
    (h : verify_server cfg env false os server next = (.returned true, server1, os1)) :
    server_ranges_ok server1 := by
  unfold verify_server at h
  split at h
  · split at h
    · simp at h
    · split at h
      · next server2 os2 hi =>
        split at h
        · next server3 os3 hp =>
          obtain ⟨hi1, _⟩ := check_imap_range hi
          obtain ⟨hp1, hp2⟩ := check_pop3_range hp
          have h3 : server_ranges_ok server3 := by
            intro set hs
            rcases hs with hs | hs
            · rw [hp2] at hs; exact hi1 set hs
            · exact hp1 set hs
          split at h
          · injection h with _ h
            injection h with h _
            subst h
            exact h3
          · simp only at h
            injection h with _ h
            injection h with h _
            subst h
            exact check_auths_ranges env false os3 server3 h3
        · next r hne =>
          rw [h] at hne
          exact absurd rfl (hne server1 os1)
      · next r hne =>
        rw [h] at hne
        exact absurd rfl (hne server1 os1)
  · simp at h

theorem verify_servers_ranges {σ : Type} {cfg : build_config} {env : os_env σ}
    (servers : List server_settings) :
    ∀ (os os1 : σ) (out : List server_settings),
      verify_servers cfg env false os servers = (.returned true, out, os1) →
      ∀ s ∈ out, server_ranges_ok s := by
  induction servers with
  | nil =>
    intro os os1 out h
    simp only [verify_servers] at h
    injection h with _ h
    injection h with h _
    subst h
    simp
  | cons server next ih =>
    intro os os1 out h
    unfold verify_servers at h
    split at h
    · next server1 os2 hv =>
      have hs1 := verify_server_ranges hv
      split at h
      next r servers os3 hrec =>
      split at h
      · injection h with h1 h2
        injection h2 with h2 h3
        subst h1 h2 h3
        exact ih _ _ _ hrec
      · injection h with h1 h2
        injection h2 with h2 h3
        subst h1 h2 h3
        intro s hs
        rcases List.mem_cons.mp hs with hs | hs
        · subst hs; exact hs1
        · exact ih _ _ _ hrec s hs
    · next r server1 os2 hne hv =>
      injection h with h1 _
      exact absurd h1 hne

/-- The two ways `master_settings_read` ends: it returns TRUE after a reading
that returned TRUE at depth 0 and a validation loop that returned TRUE, and
then the pools are swapped and the root published; or it does not return TRUE,
and then only the pending pool has been written. -/
theorem master_settings_read_cases {σ : Type} (cfg : build_config) (env : os_env σ) (os : σ)
    (st : master_state) (input : List settings_event) (nochecks : Bool) :
    (∃ ctx servers os1,
      settings_read input parse_setting (parse_section cfg) (initial_ctx cfg) = (true, ctx) ∧
      ctx.level = 0 ∧
      verify_servers cfg env nochecks os
        (if ctx.root.tail.isEmpty then ctx.root else ctx.root.tail) =
          (.returned true, servers, os1) ∧
      master_settings_read cfg env os st input nochecks =
        (.returned true,
          { settings_pool := st.settings2_pool
            settings2_pool := st.settings_pool
            mem := Function.update (Function.update st.mem st.settings_pool [])
              st.settings_pool servers
            settings_root := if servers.isEmpty then none else some st.settings_pool },
          os1)) ∨
    ((master_settings_read cfg env os st input nochecks).1 ≠ .returned true ∧
      ∃ tree, (master_settings_read cfg env os st input nochecks).2.1 =
        store_pending (p_clear_settings_pool st) tree) := by
  unfold master_settings_read
  rcases hread : settings_read input parse_setting (parse_section cfg) (initial_ctx cfg)
    with ⟨b, ctx⟩
  cases b with
  | false => right; exact ⟨by simp, _, rfl⟩
  | true =>
    simp only
    by_cases hl : (ctx.level != 0) = true
    · right
      simp only [hl, if_true]
      exact ⟨by simp, _, rfl⟩
    · simp only [hl, if_false]
      have hl0 : ctx.level = 0 := by simpa using hl
      rcases hv : verify_servers cfg env nochecks os
        (if ctx.root.tail.isEmpty then ctx.root else ctx.root.tail) with ⟨r, servers, os1⟩
      cases r with
      | exited => right; exact ⟨by simp, _, rfl⟩
      | returned b =>
        cases b with
        | false => right; exact ⟨by simp, _, rfl⟩
        | true =>
          left
          exact ⟨ctx, servers, os1, rfl, hl0, hv, rfl⟩

/-! ## A failed load leaves the published tree alone (C8) -/

theorem reachable_pools_ok {σ : Type} {cfg : build_config} {env : os_env σ}
    {st : master_state} (h : reachable cfg env st) : pools_ok st := by
  induction h with
  | init => exact ⟨by decide, Or.inl rfl⟩
  | read st os input nochecks _ ih =>
    obtain ⟨hne, hroot⟩ := ih
    rcases master_settings_read_cases cfg env os st input nochecks with
      ⟨ctx, servers, os1, _, _, _, hres⟩ | ⟨_, tree, htree⟩
    · rw [hres]
      refine ⟨fun hc => hne hc.symm, ?_⟩
      simp only
      split
      · left; rfl
      · right; rfl
    · rw [htree]
      exact ⟨hne, hroot⟩

/-- C8: for every call of `master_settings_read` that returns FALSE, made in a
state of the module that is reachable from `master_settings_init`, the
published root `settings_root` after the call is the one before the call, the
tree it refers to is unchanged, and the two pool variables hold the same pools
as before: the roles of the pools are not swapped. -/
theorem C8_failed_read_keeps_published {σ : Type} (cfg : build_config) (env : os_env σ)
    (st : master_state) (hst : reachable cfg env st) (os : σ) (input : List settings_event)
    (nochecks : Bool)
    (h : (master_settings_read cfg env os st input nochecks).1 = .returned false) :
    (master_settings_read cfg env os st input nochecks).2.1.settings_root = st.settings_root ∧
    (master_settings_read cfg env os st input nochecks).2.1.published = st.published ∧
    (master_settings_read cfg env os st input nochecks).2.1.settings_pool = st.settings_pool ∧
    (master_settings_read cfg env os st input nochecks).2.1.settings2_pool =
      st.settings2_pool := by
  obtain ⟨hne, hroot⟩ := reachable_pools_ok hst
  rcases master_settings_read_cases cfg env os st input nochecks with
    ⟨ctx, servers, os1, _, _, _, hres⟩ | ⟨_, tree, htree⟩
  · rw [hres] at h
    simp at h
  · rw [htree]
    refine ⟨rfl, ?_, rfl, rfl⟩
    simp only [master_state.published, store_pending, p_clear_settings_pool]
    rcases hroot with hroot | hroot
    · simp [hroot]
    · simp only [hroot]
      rw [Function.update_noteq (Ne.symm hne), Function.update_noteq (Ne.symm hne)]

theorem C8_failed_read_keeps_published_witness :
    reachable sample_cfg sample_env sample_state ∧
    (master_settings_read sample_cfg sample_env () sample_state sample_input_range false).1 =
      .returned false ∧
    sample_state.settings_root = some pool_t.settings ∧
    (master_settings_read sample_cfg sample_env () sample_state sample_input_range
      false).2.1.settings_root = sample_state.settings_root ∧
    (master_settings_read sample_cfg sample_env () sample_state sample_input_range
      false).2.1.published = sample_state.published ∧
    (master_settings_read sample_cfg sample_env () sample_state sample_input_range
      false).2.1.settings_pool = sample_state.settings_pool ∧
    (master_settings_read sample_cfg sample_env () sample_state sample_input_range
      false).2.1.settings2_pool = sample_state.settings2_pool :=
  ⟨reachable.read _ _ _ _ reachable.init, by decide, by decide,
    C8_failed_read_keeps_published sample_cfg sample_env sample_state
      (reachable.read _ _ _ _ reachable.init) () sample_input_range false (by decide)⟩

/-! ## A load that publishes no server (C9) -/

/-- C9 (defect in the code): for the source `protocols = none` the call
`master_settings_read` returns TRUE, and the published root `settings_root` is
NULL: the published server list is empty. -/
theorem C9_success_with_null_root :
    (master_settings_read sample_cfg sample_env () master_settings_init
      sample_input_no_protocol false).1 = .returned true ∧
    (master_settings_read sample_cfg sample_env () master_settings_init
      sample_input_no_protocol false).2.1.settings_root = none ∧
    (master_settings_read sample_cfg sample_env () master_settings_init
      sample_input_no_protocol false).2.1.published.length = 0 := by
  refine ⟨by decide, by decide, by decide⟩

/-! ## The uid and gid ranges of a published tree (C10) -/

/-- C10 (counterexample): with `nochecks` set, the source with
`first_valid_uid = 600` and `last_valid_uid = 500` is loaded with success, and
the imap settings of the published server hold 600 and 500: the last uid is
not 0 and the first one is larger. -/
theorem C10_ranges_unchecked_with_nochecks :
    (master_settings_read sample_cfg sample_env () master_settings_init
      sample_input_range true).1 = .returned true ∧
    (master_settings_read sample_cfg sample_env () master_settings_init
      sample_input_range true).2.1.published.map
        (fun s => s.imap.map
          (fun set => (set.int "first_valid_uid", set.int "last_valid_uid"))) =
      [some (600, 500)] := by
  refine ⟨by decide, by decide⟩

/-- C10 (amended): for every tree published by a successful
`master_settings_read` with checks enabled (`nochecks` is FALSE), every imap
or pop3 settings object that is present satisfies
`first_valid_uid <= last_valid_uid` whenever `last_valid_uid != 0`, and
`first_valid_gid <= last_valid_gid` whenever `last_valid_gid != 0`. -/
theorem C10_ranges_hold_with_checks {σ : Type} (cfg : build_config) (env : os_env σ) (os : σ)
    (st : master_state) (input : List settings_event)
    (h : (master_settings_read cfg env os st input false).1 = .returned true) :
    ∀ server ∈ (master_settings_read cfg env os st input false).2.1.published,
      ∀ set, server.imap = some set ∨ server.pop3 = some set →
        (set.int "last_valid_uid" ≠ 0 →
          set.int "first_valid_uid" ≤ set.int "last_valid_uid") ∧
        (set.int "last_valid_gid" ≠ 0 →
          set.int "first_valid_gid" ≤ set.int "last_valid_gid") := by
  rcases master_settings_read_cases cfg env os st input false with
    ⟨ctx, servers, os1, _, _, hv, hres⟩ | ⟨hne, _⟩
  · rw [hres]
    have hr := verify_servers_ranges _ _ _ _ hv
    intro server hs set hset
    simp only [master_state.published] at hs
    split at hs
    · simp at hs
    · next p hp =>
      split at hp
      · simp at hp
      · injection hp with hp
        subst hp
        simp only [Function.update_same] at hs
        exact hr server hs set hset
  · exact absurd h hne

theorem C10_ranges_hold_with_checks_witness :
    (master_settings_read sample_cfg sample_env () master_settings_init
      sample_input_range_ok false).1 = .returned true ∧
    (master_settings_read sample_cfg sample_env () master_settings_init
      sample_input_range_ok false).2.1.published.length = 1 ∧
    ∀ server ∈ (master_settings_read sample_cfg sample_env () master_settings_init
        sample_input_range_ok false).2.1.published,
      ∀ set, server.imap = some set ∨ server.pop3 = some set →
        (set.int "last_valid_uid" ≠ 0 →
          set.int "first_valid_uid" ≤ set.int "last_valid_uid") ∧
        (set.int "last_valid_gid" ≠ 0 →
          set.int "first_valid_gid" ≤ set.int "last_valid_gid") :=
  ⟨by decide, by decide,
    C10_ranges_hold_with_checks sample_cfg sample_env () master_settings_init
      sample_input_range_ok (by decide)⟩


/-! ## The separator of a namespace (C12) -/

theorem utf8ByteSize_go_length (l : List Char) : l.length ≤ String.utf8ByteSize.go l := by
  induction l with
  | nil => simp [String.utf8ByteSize.go]
  | cons c cs ih =>
    simp only [String.utf8ByteSize.go, List.length_cons]
    have := Char.utf8Size_pos c
    omega

/-- A string has at least as many bytes as characters. -/
theorem length_le_utf8ByteSize (s : String) : s.length ≤ s.utf8ByteSize := by
  cases s with
  | mk l => exact utf8ByteSize_go_length l

/-- C12 (counterexample): the separator `é` is exactly one character long and
takes two bytes; `namespace_settings_verify` returns FALSE for a namespace
with this separator. -/
theorem C12_multibyte_separator_rejected :
    ((sample_namespace "é").vals "separator").get_str = some "é" ∧
    "é".length = 1 ∧ "é".utf8ByteSize = 2 ∧
    namespace_settings_verify (sample_namespace "é") = false := by
  refine ⟨by decide, by decide, by decide, by decide⟩

/-- C12 (amended): `namespace_settings_verify` returns TRUE for every namespace
whose separator is exactly one byte long and FALSE for every namespace whose
separator is two or more bytes long, in particular for every namespace whose
separator is two or more characters long. -/
theorem C12_separator_bytes (ns : namespace_settings) (sep : String)
    (h : (ns.vals "separator").get_str = some sep) :
    (sep.utf8ByteSize = 1 → namespace_settings_verify ns = true) ∧
    (2 ≤ sep.utf8ByteSize → namespace_settings_verify ns = false) ∧
    (2 ≤ sep.length → namespace_settings_verify ns = false) := by
  unfold namespace_settings_verify
  simp only [h]
  refine ⟨?_, ?_, ?_⟩
  · intro h1
    simp [h1]
  · intro h2
    simpa using h2
  · intro h2
    have := length_le_utf8ByteSize sep
    simp only [decide_eq_false_iff_not, not_lt]
    omega

theorem C12_separator_bytes_witness :
    ((sample_namespace "/").vals "separator").get_str = some "/" ∧
    ((sample_namespace "::").vals "separator").get_str = some "::" ∧
    "/".utf8ByteSize = 1 ∧ "::".length = 2 ∧
    namespace_settings_verify (sample_namespace "/") = true ∧
    namespace_settings_verify (sample_namespace "::") = false :=
  ⟨by decide, by decide, by decide, by decide,
    (C12_separator_bytes (sample_namespace "/") "/" (by decide)).1 (by decide),
    (C12_separator_bytes (sample_namespace "::") "::" (by decide)).2.2 (by decide)⟩

/-- A load with checks of a source whose only namespace has the separator `é`
returns FALSE. -/
theorem multibyte_separator_load_fails :
    (master_settings_read sample_cfg sample_env () master_settings_init
      sample_input_multibyte false).1 = .returned false := by
  decide

/-! ## The table of the section-open events (C13) -/

theorem accepted_iff {α : Type} (r : Except String α) :
    accepted r = true ↔ ∃ a, r = .ok a := by
  cases r <;> simp [accepted]

theorem parse_new_auth_accepted (root : List server_settings) (server : Nat) (name : String) :
    accepted (parse_new_auth root server name).1 =
      (!strchr name '/' &&
        ((root[server]?).map (fun s => s.auths.any (fun a => a.name == some name))
          == some false)) := by
  unfold parse_new_auth
  split
  · next h => simp [accepted, h]
  · next h =>
    cases hr : root[server]? with
    | none => simp [accepted, h]
    | some srv =>
      simp only [Option.map_some']
      split
      · next h2 => simp [accepted, h, h2]
      · next h2 => simp [accepted, h, h2, auth_settings_new, hr]

theorem parse_new_namespace_accepted (root : List server_settings) (server : Nat)
    (name : String) (h : (root[server]?).isSome = true) :
    accepted (parse_new_namespace root server name).1 =
      (strcasecmp_eq name "private" || strcasecmp_eq name "shared" ||
        strcasecmp_eq name "public") := by
  unfold parse_new_namespace
  cases hr : root[server]? with
  | none => simp [hr] at h
  | some srv =>
    split
    · next h2 =>
      simp only [Bool.and_eq_true, Bool.not_eq_true'] at h2
      simp [accepted, h2.1.1, h2.1.2, h2.2]
    · next h2 =>
      simp only [Bool.and_eq_true, Bool.not_eq_true', not_and, Bool.not_eq_false] at h2
      simp only [namespace_settings_new, hr, accepted]
      by_cases h3 : strcasecmp_eq name "private" = true
      · simp [h3]
      · by_cases h4 : strcasecmp_eq name "shared" = true
        · simp [h4]
        · simp only [Bool.not_eq_true] at h3 h4
          simp [h3, h4, h2 ⟨h3, h4⟩]

theorem section_server_accepted (cfg : build_config) (name : String)
    (c : settings_parse_ctx)
    (h : (c.root[c.server]?).map (fun s => s.imap.isSome && s.pop3.isSome) = some true) :
    accepted (section_server cfg name c) = (c.type == SETTINGS_TYPE_ROOT) ∧
    ∀ c1, section_server cfg name c = .ok c1 →
      c1.type = SETTINGS_TYPE_SERVER ∧ c1.level = c.level := by
  unfold section_server
  cases hr : c.root[c.server]? with
  | none => simp [hr] at h
  | some srv =>
    simp only [hr, Option.map_some', Option.some.injEq, Bool.and_eq_true] at h
    obtain ⟨i, hi⟩ := Option.isSome_iff_exists.mp h.1
    obtain ⟨p, hp⟩ := Option.isSome_iff_exists.mp h.2
    by_cases ht : c.type = SETTINGS_TYPE_ROOT
    · simp only [ht, bne_self_eq_false, Bool.false_eq_true, if_false, hi, hp, accepted,
        beq_self_eq_true, true_and]
      intro c1 h1
      injection h1 with h1
      subst h1
      exact ⟨rfl, rfl⟩
    · have hne : (c.type != SETTINGS_TYPE_ROOT) = true := by simpa using ht
      have hne2 : (c.type == SETTINGS_TYPE_ROOT) = false := by simpa using ht
      simp [hne, hne2, accepted]

theorem section_protocol_accepted (name : String) (c : settings_parse_ctx) :
    accepted (section_protocol name c) =
      (root_or_server c.type && c.level == 1 && (name == "imap" || name == "pop3")) ∧
    ∀ c1, section_protocol name c = .ok c1 → c1.type = c.type ∧ c1.level = c.level := by
  unfold section_protocol root_or_server
  split
  · next h =>
    refine ⟨?_, by simp⟩
    simp only [Bool.or_eq_true, Bool.and_eq_true, bne_iff_ne, ne_eq] at h
    simp only [accepted]
    rcases h with h | h
    · have h1 : (c.type == SETTINGS_TYPE_ROOT) = false := by simpa using h.1
      have h2 : (c.type == SETTINGS_TYPE_SERVER) = false := by simpa using h.2
      simp [h1, h2]
    · have h1 : (c.level == 1) = false := by simpa using h
      simp [h1]
  · next h =>
    simp only [Bool.or_eq_true, Bool.and_eq_true, bne_iff_ne, ne_eq, not_or, not_and,
      not_not] at h
    have h1 : (c.type == SETTINGS_TYPE_ROOT || c.type == SETTINGS_TYPE_SERVER) = true := by
      by_cases hr : c.type = SETTINGS_TYPE_ROOT
      · simp [hr]
      · simp [h.1 hr]
    have h2 : (c.level == 1) = true := by simpa using h.2
    split
    · next hn =>
      refine ⟨by simp [accepted, h1, h2, hn], ?_⟩
      intro c1 hc
      injection hc with hc
      subst hc
      exact ⟨rfl, rfl⟩
    · next hn =>
      split
      · next hn2 =>
        refine ⟨by simp [accepted, h1, h2, hn2], ?_⟩
        intro c1 hc
        injection hc with hc
        subst hc
        exact ⟨rfl, rfl⟩
      · next hn2 =>
        refine ⟨?_, by simp⟩
        simp only [Bool.not_eq_true] at hn hn2
        simp [accepted, hn, hn2]

theorem section_auth_accepted (name : String) (c : settings_parse_ctx) :
    accepted (section_auth name c) =
      (root_or_server c.type && accepted (parse_new_auth c.root c.server name).1) ∧
    ∀ c1, section_auth name c = .ok c1 →
      c1.type = SETTINGS_TYPE_AUTH ∧ c1.level = c.level := by
  unfold section_auth root_or_server
  split
  · next h =>
    refine ⟨?_, by simp⟩
    simp only [Bool.and_eq_true, bne_iff_ne, ne_eq] at h
    have h1 : (c.type == SETTINGS_TYPE_ROOT) = false := by simpa using h.1
    have h2 : (c.type == SETTINGS_TYPE_SERVER) = false := by simpa using h.2
    simp [accepted, h1, h2]
  · next h =>
    simp only [Bool.and_eq_true, bne_iff_ne, ne_eq, not_and, not_not] at h
    have h1 : (c.type == SETTINGS_TYPE_ROOT || c.type == SETTINGS_TYPE_SERVER) = true := by
      by_cases hr : c.type = SETTINGS_TYPE_ROOT
      · simp [hr]
      · simp [h hr]
    rcases hp : parse_new_auth c.root c.server name with ⟨r, root1⟩
    cases r with
    | error e => simp [accepted, h1]
    | ok a =>
      refine ⟨by simp [accepted, h1], ?_⟩
      intro c1 hc
      injection hc with hc
      subst hc
      exact ⟨rfl, rfl⟩

/-- Outside the case of a socket listen on a backend that already has a
socket, `parse_new_auth_socket` accepts exactly the names the rule
`socket_admissible` admits. -/
theorem parse_new_auth_socket_accepted (root : List server_settings) (auth : auth_ptr)
    (name : String)
    (hz : (name == "listen" &&
      ((socket_types root auth).map (fun types => !types.isEmpty) == some true)) = false) :
    accepted (parse_new_auth_socket root auth name).1 =
      ((socket_types root auth).map (fun types => socket_admissible types name)
        == some true) := by
  unfold parse_new_auth_socket socket_types at *
  cases ha : auth_read root auth with
  | none =>
    simp only [Option.map_none']
    split <;> simp [accepted]
  | some a =>
    simp only [ha, Option.map_some'] at hz ⊢
    have hnew : accepted (auth_socket_settings_new root auth name).1 = true := by
      simp [auth_socket_settings_new, ha, accepted]
    by_cases hc : name = "connect"
    · subst hc
      cases hs : a.sockets with
      | nil => simpa [socket_admissible, hs] using hnew
      | cons x xs => simp [socket_admissible, accepted]
    · by_cases hl : name = "listen"
      · subst hl
        have hemp : a.sockets = [] := by
          cases hs : a.sockets with
          | nil => rfl
          | cons x xs => simp [hs] at hz
        simpa [socket_admissible, hemp] using hnew
      · simp [socket_admissible, hc, hl, accepted]

theorem section_socket_accepted (name : String) (c : settings_parse_ctx) :
    accepted (section_socket name c) = accepted (parse_new_auth_socket c.root c.auth name).1 ∧
    ∀ c1, section_socket name c = .ok c1 →
      c1.type = SETTINGS_TYPE_AUTH_SOCKET ∧ c1.level = c.level := by
  unfold section_socket
  rcases hp : parse_new_auth_socket c.root c.auth name with ⟨r, root1⟩
  cases r with
  | error e => simp [accepted]
  | ok a =>
    refine ⟨by simp [accepted], ?_⟩
    intro c1 hc
    injection hc with hc
    subst hc
    exact ⟨rfl, rfl⟩

theorem section_master_client_accepted (slot : socket_slot) (c : settings_parse_ctx) :
    accepted (section_master_client slot c) = c.auth_socket.isSome ∧
    ∀ c1, section_master_client slot c = .ok c1 →
      c1.type = SETTINGS_TYPE_SOCKET ∧ c1.level = c.level := by
  unfold section_master_client
  cases c.auth_socket with
  | none => simp [accepted]
  | some as =>
    refine ⟨by simp [accepted], ?_⟩
    intro c1 hc
    injection hc with hc
    subst hc
    exact ⟨rfl, rfl⟩

theorem section_namespace_accepted (name : String) (c : settings_parse_ctx) :
    accepted (section_namespace name c) =
      (root_or_server c.type && accepted (parse_new_namespace c.root c.server name).1) ∧
    ∀ c1, section_namespace name c = .ok c1 →
      c1.type = SETTINGS_TYPE_NAMESPACE ∧ c1.level = c.level := by
  unfold section_namespace root_or_server
  split
  · next h =>
    refine ⟨?_, by simp⟩
    simp only [Bool.and_eq_true, bne_iff_ne, ne_eq] at h
    have h1 : (c.type == SETTINGS_TYPE_ROOT) = false := by simpa using h.1
    have h2 : (c.type == SETTINGS_TYPE_SERVER) = false := by simpa using h.2
    simp [accepted, h1, h2]
  · next h =>
    simp only [Bool.and_eq_true, bne_iff_ne, ne_eq, not_and, not_not] at h
    have h1 : (c.type == SETTINGS_TYPE_ROOT || c.type == SETTINGS_TYPE_SERVER) = true := by
      by_cases hr : c.type = SETTINGS_TYPE_ROOT
      · simp [hr]
      · simp [h hr]
    rcases hp : parse_new_namespace c.root c.server name with ⟨r, root1⟩
    cases r with
    | error e => simp [accepted, h1]
    | ok a =>
      refine ⟨by simp [accepted, h1], ?_⟩
      intro c1 hc
      injection hc with hc
      subst hc
      exact ⟨rfl, rfl⟩

/-- Where the table and the code part: on a backend that already has a socket,
`socket listen` is accepted after a connect socket, which the rule
`socket_admissible` refuses, and refused after a listen socket, which the rule
admits. -/
theorem section_table_after_socket :
    listen_after_socket ctx_connect "socket" "listen" = true ∧
    accepted (parse_section sample_cfg (some "socket") "listen" ctx_connect) = true ∧
    section_allowed ctx_connect "socket" "listen" = false ∧
    listen_after_socket ctx_listen "socket" "listen" = true ∧
    accepted (parse_section sample_cfg (some "socket") "listen" ctx_listen) = false ∧
    section_allowed ctx_listen "socket" "listen" = true := by
  refine ⟨by decide, by decide, by decide, by decide, by decide, by decide⟩

/-- C13 (counterexample): at Root scope the section `namespace PRIVATE` is
accepted, although the name is none of private, shared and public: the name
is compared without regard to case. -/
theorem C13_namespace_name_any_case :
    (initial_ctx sample_cfg).type = SETTINGS_TYPE_ROOT ∧
    accepted (parse_section sample_cfg (some "namespace") "PRIVATE" (initial_ctx sample_cfg)) =
      true ∧
    "PRIVATE" ∉ ["private", "shared", "public"] := by
  refine ⟨by decide, by decide, by decide⟩

/-- C13 (amended): for every parser state whose pointers have targets and every
section-open event other than a `socket listen` on a backend that already has
a socket, `parse_section` accepts the event if and only if it is in the table
`section_allowed`: server in Root; protocol in Root or Server with the new
depth equal to 1 and name imap or pop3; auth in Root or Server with a name
without '/' that is not yet used in the active server; socket in Auth with an
admissible name (connect on a backend without socket, listen on a backend
without connect socket); master or client in AuthSocket; namespace in Root or
Server with a name equal to private, shared or public in any letter case. On
acceptance the new type is Server, unchanged, Auth, AuthSocket, Socket,
Namespace respectively and the depth is one more; every other combination
returns FALSE with an error message. -/
theorem C13_section_table (cfg : build_config) (ctx : settings_parse_ctx)
    (type name : String) (hwf : ctx_targets ctx = true)
    (hz : listen_after_socket ctx type name = false) :
    (accepted (parse_section cfg (some type) name ctx) = section_allowed ctx type name) ∧
    (∀ ctx1, parse_section cfg (some type) name ctx = .ok ctx1 →
      ctx1.type = section_new_type ctx type ∧ ctx1.level = ctx.level + 1) ∧
    (section_allowed ctx type name = false →
      ∃ msg, parse_section cfg (some type) name ctx = .error msg) := by
  have key : (accepted (parse_section cfg (some type) name ctx) =
        section_allowed ctx type name) ∧
      (∀ ctx1, parse_section cfg (some type) name ctx = .ok ctx1 →
        ctx1.type = section_new_type ctx type ∧ ctx1.level = ctx.level + 1) := by
    simp only [ctx_targets, Bool.and_eq_true, beq_iff_eq, Bool.or_eq_true, bne_iff_ne,
      ne_eq] at hwf
    obtain ⟨hsrv, hsock⟩ := hwf
    have hsome : (ctx.root[ctx.server]?).isSome = true := by
      cases hr : ctx.root[ctx.server]? with
      | none => simp [hr] at hsrv
      | some s => rfl
    simp only [parse_section]
    unfold parse_section_open
    by_cases h1 : type = "server"
    · subst h1
      have hs := section_server_accepted cfg name
        { ctx with level := ctx.level + 1, parent_type := ctx.type } hsrv
      simp only [beq_self_eq_true, if_true]
      refine ⟨?_, ?_⟩
      · rw [hs.1]; simp [section_allowed]
      · intro c1 hc; simpa [section_new_type] using hs.2 c1 hc
    · have h1b : (type == "server") = false := by simpa using h1
      simp only [h1b, Bool.false_eq_true, if_false]
      by_cases h2 : type = "protocol"
      · subst h2
        have hs := section_protocol_accepted name
          { ctx with level := ctx.level + 1, parent_type := ctx.type }
        simp only [beq_self_eq_true, if_true]
        refine ⟨?_, ?_⟩
        · rw [hs.1]; simp [section_allowed]
        · intro c1 hc; simpa [section_new_type] using hs.2 c1 hc
      · have h2b : (type == "protocol") = false := by simpa using h2
        simp only [h2b, Bool.false_eq_true, if_false]
        by_cases h3 : type = "auth"
        · subst h3
          have hs := section_auth_accepted name
            { ctx with level := ctx.level + 1, parent_type := ctx.type }
          simp only [beq_self_eq_true, if_true]
          refine ⟨?_, ?_⟩
          · rw [hs.1, parse_new_auth_accepted]; simp [section_allowed, Bool.and_assoc]
          · intro c1 hc; simpa [section_new_type] using hs.2 c1 hc
        · have h3b : (type == "auth") = false := by simpa using h3
          simp only [h3b, Bool.false_eq_true, if_false]
          by_cases h4 : type = "socket"
          · subst h4
            by_cases ht : ctx.type = SETTINGS_TYPE_AUTH
            · have hs := section_socket_accepted name
                { ctx with level := ctx.level + 1, parent_type := ctx.type }
              have hz1 : (name == "listen" &&
                  ((socket_types ctx.root ctx.auth).map (fun types => !types.isEmpty)
                    == some true)) = false := by
                simpa [listen_after_socket, ht] using hz
              rw [if_pos (by simp [ht])]
              refine ⟨?_, ?_⟩
              · rw [hs.1, parse_new_auth_socket_accepted _ _ _ hz1]
                simp [section_allowed, ht]
              · intro c1 hc; simpa [section_new_type] using hs.2 c1 hc
            · have htb : (ctx.type == SETTINGS_TYPE_AUTH) = false := by simpa using ht
              simp [htb, accepted, section_allowed]
          · have h4b : (type == "socket") = false := by simpa using h4
            simp only [h4b, Bool.and_false, Bool.false_eq_true, if_false]
            by_cases h5 : type = "master"
            · subst h5
              by_cases ht : ctx.type = SETTINGS_TYPE_AUTH_SOCKET
              · have hs := section_master_client_accepted .master
                  { ctx with level := ctx.level + 1, parent_type := ctx.type }
                have hsk : ctx.auth_socket.isSome = true := by
                  rcases hsock with hsock | hsock
                  · exact absurd ht hsock
                  · exact hsock
                rw [if_pos (by simp [ht])]
                refine ⟨?_, ?_⟩
                · rw [hs.1]; simp [section_allowed, ht, hsk]
                · intro c1 hc; simpa [section_new_type] using hs.2 c1 hc
              · have htb : (ctx.type == SETTINGS_TYPE_AUTH_SOCKET) = false := by simpa using ht
                simp [htb, accepted, section_allowed]
            · have h5b : (type == "master") = false := by simpa using h5
              simp only [h5b, Bool.and_false, Bool.false_eq_true, if_false]
              by_cases h6 : type = "client"
              · subst h6
                by_cases ht : ctx.type = SETTINGS_TYPE_AUTH_SOCKET
                · have hs := section_master_client_accepted .client
                    { ctx with level := ctx.level + 1, parent_type := ctx.type }
                  have hsk : ctx.auth_socket.isSome = true := by
                    rcases hsock with hsock | hsock
                    · exact absurd ht hsock
                    · exact hsock
                  rw [if_pos (by simp [ht])]
                  refine ⟨?_, ?_⟩
                  · rw [hs.1]; simp [section_allowed, ht, hsk]
                  · intro c1 hc; simpa [section_new_type] using hs.2 c1 hc
                · have htb : (ctx.type == SETTINGS_TYPE_AUTH_SOCKET) = false := by
                    simpa using ht
                  simp [htb, accepted, section_allowed]
              · have h6b : (type == "client") = false := by simpa using h6
                simp only [h6b, Bool.and_false, Bool.false_eq_true, if_false]
                by_cases h7 : type = "namespace"
                · subst h7
                  have hs := section_namespace_accepted name
                    { ctx with level := ctx.level + 1, parent_type := ctx.type }
                  simp only [beq_self_eq_true, if_true]
                  refine ⟨?_, ?_⟩
                  · rw [hs.1, parse_new_namespace_accepted _ _ _ hsome]
                    simp [section_allowed]
                  · intro c1 hc; simpa [section_new_type] using hs.2 c1 hc
                · have h7b : (type == "namespace") = false := by simpa using h7
                  simp [h7b, accepted, section_allowed, h1b, h2b, h3b, h4b, h5b, h6b]
  refine ⟨key.1, key.2, ?_⟩
  intro hna
  rw [← key.1] at hna
  cases hr : parse_section cfg (some type) name ctx with
  | ok c => simp [hr, accepted] at hna
  | error m => exact ⟨m, rfl⟩

theorem C13_section_table_witness :
    ctx_targets (ctx_after [.sect (some "auth") "default"]) = true ∧
    listen_after_socket (ctx_after [.sect (some "auth") "default"]) "socket" "listen" = false ∧
    section_allowed (ctx_after [.sect (some "auth") "default"]) "socket" "listen" = true ∧
    accepted (parse_section sample_cfg (some "socket") "listen"
      (ctx_after [.sect (some "auth") "default"])) =
      section_allowed (ctx_after [.sect (some "auth") "default"]) "socket" "listen" ∧
    ctx_targets ctx_listen = true ∧
    listen_after_socket ctx_listen "socket" "connect" = false ∧
    section_allowed ctx_listen "socket" "connect" = false ∧
    ∃ msg, parse_section sample_cfg (some "socket") "connect" ctx_listen = .error msg :=
  ⟨by decide, by decide, by decide,
    (C13_section_table sample_cfg (ctx_after [.sect (some "auth") "default"]) "socket" "listen"
      (by decide) (by decide)).1,
    by decide, by decide, by decide,
    (C13_section_table sample_cfg ctx_listen "socket" "connect" (by decide) (by decide)).2.2
      (by decide)⟩

/-! ## Closing a section and the protocol scope of a key (C14, C15) -/

theorem parse_setting_from_defs_cell (defs : List setting_def) (base : fields)
    (key value : String) :
    parse_setting_from_defs defs base key value =
      match parse_cell defs key value with
      | .ok (n, x) => .ok (Function.update base n x)
      | .error e => .error e := by
  unfold parse_setting_from_defs parse_cell
  split
  · rfl
  · split
    · rfl
    · split <;> rfl
    · split <;> rfl

theorem parse_cell_name {defs : List setting_def} {key value n : String} {x : set_value}
    (h : parse_cell defs key value = .ok (n, x)) : n = key := by
  unfold parse_cell at h
  split at h
  · simp at h
  · next d hd =>
    have hname : d.name = key := by
      have := List.find?_some hd
      simpa using this
    split at h
    · injection h with h; injection h with h1 _; rw [← h1, hname]
    · split at h
      · injection h with h; injection h with h1 _; rw [← h1, hname]
      · simp at h
    · split at h
      · injection h with h; injection h with h1 _; rw [← h1, hname]
      · simp at h

theorem assign_protocol_cell (server : server_settings) (proto : mail_protocol)
    (key value : String) (imap pop3 : settings)
    (hi : server.imap = some imap) (hp : server.pop3 = some pop3) :
    assign_protocol server proto key value =
      match parse_cell setting_defs key value with
      | .ok (n, x) =>
        (none,
          match proto with
          | MAIL_PROTOCOL_POP3 =>
            { server with pop3 := some { pop3 with vals := Function.update pop3.vals n x } }
          | _ =>
            { server with imap := some { imap with vals := Function.update imap.vals n x } })
      | .error e => (some e, server) := by
  unfold assign_protocol
  cases proto <;> simp only [hi, hp, parse_setting_from_defs_cell] <;>
    cases parse_cell setting_defs key value <;> rfl

theorem protocol_sets_assign_auth {ctx ctx1 : settings_parse_ctx} {key value : String}
    (h : assign_auth ctx key value = .ok ctx1) :
    protocol_sets ctx1.root = protocol_sets ctx.root := by
  unfold assign_auth at h
  split at h
  · simp at h
  · split at h
    · injection h with h
      subst h
      exact protocol_sets_auth_write _ _ _
    · simp at h

/-- C14 (code defect): the top-level section `protocol imap` is opened and
closed, then the line `login_greeting = hello` follows; all three events are
accepted. After the close the depth is 0, the type is Root, the server and
auth pointers are back at the root server and its template and no namespace is
active, but the protocol scope is still Imap; the line is written to the imap
settings of the root server only, the pop3 settings keep the default
greeting. -/
theorem C14_protocol_scope_survives_close :
    (settings_read sample_input_imap_block parse_setting (parse_section sample_cfg)
      (initial_ctx sample_cfg)).1 = true ∧
    (let c := ctx_after (sample_input_imap_block.take 2)
     (c.level, c.type, c.server, c.auth, c.namespace_, c.protocol)) =
      (0, SETTINGS_TYPE_ROOT, 0, auth_ptr.defaults 0, none, MAIL_PROTOCOL_IMAP) ∧
    ((ctx_after sample_input_imap_block).root[0]?).map
      (fun s => (s.imap.map (fun set => set.str "login_greeting"),
                 s.pop3.map (fun set => set.str "login_greeting"))) =
      some (some (some "hello"), some (some "Dovecot ready.")) := by
  refine ⟨by decide, by decide, by decide⟩

/-- C15 (counterexample): at Root scope with the protocol scope Any the line
`auth_user = vmail` is accepted, although the assignment of the key
`auth_user` in the general schema fails on the imap settings: the key is
assigned through the auth pointer instead. -/
theorem C15_auth_key_accepted_without_assignment :
    (initial_ctx sample_cfg).type = SETTINGS_TYPE_ROOT ∧
    (initial_ctx sample_cfg).protocol = MAIL_PROTOCOL_ANY ∧
    accepted (parse_setting "auth_user" "vmail" (initial_ctx sample_cfg)) = true ∧
    (((initial_ctx sample_cfg).root[0]?).bind (fun s => s.imap)).map
      (fun set => accepted (parse_setting_from_defs setting_defs set.vals "auth_user" "vmail")) =
      some false := by
  refine ⟨by decide, by decide, by decide, by decide⟩

/-- C15 (amended): at Root or Server scope, for every key other than auth and
login, when `parse_setting` returns success then either the key is in the
general schema and its parsed value is written, in the field of the key, to
both the imap and the pop3 settings of the active server when the scope is
Any, to the imap settings only (pop3 unchanged) when the scope is Imap, to the
pop3 settings only (imap unchanged) when the scope is Pop3, nothing else being
changed; or the key starts with `auth_`, the assignment in the general schema
failed, the rest of the key has been assigned through the active auth pointer
and no imap or pop3 settings object has changed. -/
theorem C15_assignment_scope (key value : String) (ctx ctx1 : settings_parse_ctx)
    (srv : server_settings) (imap pop3 : settings)
    (hk : key ≠ "auth") (hl : key ≠ "login") (ht : root_or_server ctx.type = true)
    (hsrv : ctx.root[ctx.server]? = some srv) (hi : srv.imap = some imap)
    (hp : srv.pop3 = some pop3) (h : parse_setting key value ctx = .ok ctx1) :
    (∃ x, parse_cell setting_defs key value = .ok (key, x) ∧
      ctx1 = { ctx with
        root := ctx.root.set ctx.server
          (match ctx.protocol with
           | MAIL_PROTOCOL_ANY =>
             { srv with
               imap := some { imap with vals := Function.update imap.vals key x }
               pop3 := some { pop3 with vals := Function.update pop3.vals key x } }
           | MAIL_PROTOCOL_IMAP =>
             { srv with imap := some { imap with vals := Function.update imap.vals key x } }
           | MAIL_PROTOCOL_POP3 =>
             { srv with pop3 := some { pop3 with vals := Function.update pop3.vals key x } }) })
    ∨
    (strncmp_eq key "auth_" = true ∧ (∃ e, parse_cell setting_defs key value = .error e) ∧
      assign_auth ctx (str_skip key 5) value = .ok ctx1 ∧
      protocol_sets ctx1.root = protocol_sets ctx.root) := by
  have hps : parse_setting_server key value ctx = .ok ctx1 := by
    unfold parse_setting at h
    have hk1 : (key == "auth") = false := by simpa using hk
    have hl1 : (key == "login") = false := by simpa using hl
    simp only [hk1, hl1, Bool.false_eq_true, if_false] at h
    simp only [root_or_server, Bool.or_eq_true, beq_iff_eq] at ht
    rcases ht with ht | ht <;> simpa [ht] using h
  unfold parse_setting_server at hps
  simp only [hsrv] at hps
  cases hc : parse_cell setting_defs key value with
  | error e =>
    right
    have hr : assign_protocols ctx.protocol srv key value = (some e, srv) := by
      unfold assign_protocols
      cases ctx.protocol <;>
        simp [assign_protocol_cell _ _ _ _ imap pop3 hi hp, hc]
    simp only [hr, set_same _ _ _ hsrv] at hps
    split at hps
    · next hpre =>
      exact ⟨hpre, ⟨e, rfl⟩, hps, protocol_sets_assign_auth hps⟩
    · simp at hps
  | ok nx =>
    obtain ⟨n, x⟩ := nx
    have hn := parse_cell_name hc
    subst hn
    left
    refine ⟨x, rfl, ?_⟩
    cases hproto : ctx.protocol with
    | MAIL_PROTOCOL_ANY =>
      have hr : assign_protocols MAIL_PROTOCOL_ANY srv n value =
          (none, { srv with
               imap := some { imap with vals := Function.update imap.vals n x }
               pop3 := some { pop3 with vals := Function.update pop3.vals n x } }) := by
        unfold assign_protocols
        have h2 := assign_protocol_cell
          { srv with imap := some { imap with vals := Function.update imap.vals n x } }
          MAIL_PROTOCOL_POP3 n value
          { imap with vals := Function.update imap.vals n x } pop3 rfl hp
        simp only [hc] at h2
        simp [assign_protocol_cell _ _ _ _ imap pop3 hi hp, hc, h2]
      simp only [hproto, hr] at hps
      injection hps with hps
      rw [← hps]
    | MAIL_PROTOCOL_IMAP =>
      have hr : assign_protocols MAIL_PROTOCOL_IMAP srv n value =
          (none, { srv with
               imap := some { imap with vals := Function.update imap.vals n x } }) := by
        unfold assign_protocols
        simp [assign_protocol_cell _ _ _ _ imap pop3 hi hp, hc]
      simp only [hproto, hr] at hps
      injection hps with hps
      rw [← hps]
    | MAIL_PROTOCOL_POP3 =>
      have hr : assign_protocols MAIL_PROTOCOL_POP3 srv n value =
          (none, { srv with
               pop3 := some { pop3 with vals := Function.update pop3.vals n x } }) := by
        unfold assign_protocols
        simp [assign_protocol_cell _ _ _ _ imap pop3 hi hp, hc]
      simp only [hproto, hr] at hps
      injection hps with hps
      rw [← hps]

theorem C15_assignment_scope_witness :
    parse_setting "login_greeting" "hello" (initial_ctx sample_cfg) =
      .ok (ctx_after [.key_value "login_greeting" "hello"]) ∧
    (initial_ctx sample_cfg).protocol = MAIL_PROTOCOL_ANY ∧
    ∃ x, parse_cell setting_defs "login_greeting" "hello" = .ok ("login_greeting", x) ∧
      ctx_after [.key_value "login_greeting" "hello"] =
        { initial_ctx sample_cfg with
          root := (initial_ctx sample_cfg).root.set 0
            { sample_default_server with
              imap := some { sample_default_imap with
                vals := Function.update sample_default_imap.vals "login_greeting" x }
              pop3 := some { sample_default_pop3 with
                vals := Function.update sample_default_pop3.vals "login_greeting" x } } } :=
  ⟨rfl, rfl,
    (C15_assignment_scope "login_greeting" "hello" (initial_ctx sample_cfg)
      (ctx_after [.key_value "login_greeting" "hello"]) sample_default_server
      sample_default_imap sample_default_pop3 (by decide) (by decide) (by decide) rfl rfl rfl
      rfl).resolve_right (fun h => absurd h.1 (by decide))⟩

/-! ## When a settings object is active (C18) -/

theorem strstr_list_iff (needle hay : List Char) :
    strstr_list needle hay = true ↔ needle <:+: hay := by
  induction hay with
  | nil => simp [strstr_list, List.infix_nil]
  | cons c cs ih =>
    simp only [strstr_list, Bool.or_eq_true, ih, List.infix_cons_iff, List.isPrefixOf_iff_prefix]

/-- The test of `settings_is_active` is a substring test on the `protocols`
string of the settings object. -/
theorem settings_is_active_iff (set : settings) (p : String)
    (hp : set.str "protocols" = some p) :
    (set.protocol = MAIL_PROTOCOL_IMAP →
      (settings_is_active set = true ↔ "imap".toList <:+: p.toList)) ∧
    (set.protocol = MAIL_PROTOCOL_POP3 →
      (settings_is_active set = true ↔ "pop3".toList <:+: p.toList)) := by
  unfold settings_is_active
  simp only [hp, cstr, Option.getD_some, strstr]
  constructor
  · intro h
    simp only [h, beq_self_eq_true, if_true]
    exact strstr_list_iff _ _
  · intro h
    have hne : (MAIL_PROTOCOL_POP3 == MAIL_PROTOCOL_IMAP) = false := by decide
    simp only [h, hne, Bool.false_eq_true, if_false]
    exact strstr_list_iff _ _

/-- C18 (counterexample): after the line `protocols = imaps` the imap settings
of the default server are active, although imap is not one of the
space-separated words of `imaps`. -/
theorem C18_imaps_counts_as_imap :
    ((ctx_after sample_input_imaps).root[0]?).bind (fun s => s.imap.map
      (fun set => (set.protocol, set.str "protocols", settings_is_active set))) =
        some (MAIL_PROTOCOL_IMAP, some "imaps", true) ∧
    "imap" ∉ space_words "imaps" := by
  refine ⟨by decide, by decide⟩

/-- C18 (amended): `settings_is_active` returns TRUE for an imap settings
object if and only if `imap` is a substring of its protocols string, and
returns TRUE for a pop3 settings object if and only if `pop3` is a substring
of its protocols string. -/
theorem C18_active_iff_substring (set : settings) (p : String)
    (hp : set.str "protocols" = some p) :
    (set.protocol = MAIL_PROTOCOL_IMAP →
      (settings_is_active set = true ↔ "imap".toList <:+: p.toList)) ∧
    (set.protocol = MAIL_PROTOCOL_POP3 →
      (settings_is_active set = true ↔ "pop3".toList <:+: p.toList)) :=
  settings_is_active_iff set p hp

theorem C18_active_iff_substring_witness :
    sample_default_imap.str "protocols" = some "imap imaps" ∧
    sample_default_imap.protocol = MAIL_PROTOCOL_IMAP ∧
    (settings_is_active sample_default_imap = true ↔
      "imap".toList <:+: "imap imaps".toList) :=
  ⟨by decide, by decide,
    (C18_active_iff_substring sample_default_imap "imap imaps" (by decide)).1 (by decide)⟩

/-! ## Frame of the parser: what the auth and namespace writes leave alone -/

theorem map_set_same {β : Type} (f : server_settings → β) {root : List server_settings}
    {i : Nat} {srv s1 : server_settings} (h : root[i]? = some srv) (hs : f s1 = f srv) :
    (root.set i s1).map f = root.map f := by
  rw [List.map_set]
  apply set_same
  simp [h, hs]

theorem map_auth_write {β : Type} {f : server_settings → β} (hf : ignores_auth f)
    (root : List server_settings) (p : auth_ptr) (a1 : auth_settings) :
    (auth_write root p a1).map f = root.map f := by
  cases p with
  | null => rfl
  | defaults s =>
    cases hr : root[s]? with
    | none => simp [auth_write, hr]
    | some srv =>
      simp only [auth_write, hr]
      exact map_set_same f hr (hf srv a1 srv.auths srv.namespaces)
  | node s n =>
    cases hr : root[s]? with
    | none => simp [auth_write, hr]
    | some srv =>
      simp only [auth_write, hr]
      split
      · exact map_set_same f hr (hf srv srv.auth_defaults _ srv.namespaces)
      · rfl

theorem map_auth_socket_write {β : Type} {f : server_settings → β} (hf : ignores_auth f)
    (root : List server_settings) (p : auth_socket_ptr) (as : auth_socket_settings) :
    (auth_socket_write root p as).map f = root.map f := by
  unfold auth_socket_write
  cases auth_read root p.auth with
  | none => rfl
  | some a => exact map_auth_write hf _ _ _

theorem map_socket_write {β : Type} {f : server_settings → β} (hf : ignores_auth f)
    (root : List server_settings) (p : socket_ptr) (so : socket_settings) :
    (socket_write root p so).map f = root.map f := by
  unfold socket_write
  cases auth_socket_read root p.auth_socket with
  | none => rfl
  | some as => cases p.slot <;> exact map_auth_socket_write hf _ _ _

theorem map_namespace_write {β : Type} {f : server_settings → β} (hf : ignores_auth f)
    (root : List server_settings) (p : namespace_ptr) (ns : namespace_settings) :
    (namespace_write root p ns).map f = root.map f := by
  unfold namespace_write
  cases hr : root[p.server]? with
  | none => rfl
  | some srv => exact map_set_same f hr (hf srv srv.auth_defaults srv.auths _)

theorem map_parse_new_auth {β : Type} {f : server_settings → β} (hf : ignores_auth f)
    (root : List server_settings) (server : Nat) (name : String) :
    (parse_new_auth root server name).2.map f = root.map f := by
  unfold parse_new_auth
  split
  · rfl
  · split
    · rfl
    · next srv hs =>
      split
      · rfl
      · simp only [auth_settings_new, hs]
        exact map_set_same f hs (hf srv srv.auth_defaults _ srv.namespaces)

theorem map_parse_new_auth_socket {β : Type} {f : server_settings → β} (hf : ignores_auth f)
    (root : List server_settings) (auth : auth_ptr) (name : String) :
    (parse_new_auth_socket root auth name).2.map f = root.map f := by
  unfold parse_new_auth_socket
  split
  · rfl
  · split
    · rfl
    · next a ha =>
      split
      · rfl
      · simp only [auth_socket_settings_new, ha]
        exact map_auth_write hf _ _ _

theorem map_parse_new_namespace {β : Type} {f : server_settings → β} (hf : ignores_auth f)
    (root : List server_settings) (server : Nat) (name : String) :
    (parse_new_namespace root server name).2.map f = root.map f := by
  unfold parse_new_namespace
  split
  · rfl
  · unfold namespace_settings_new
    split
    · rfl
    · next srv hs => exact map_set_same f hs (hf srv srv.auth_defaults srv.auths _)

theorem map_assign_auth {β : Type} {f : server_settings → β} (hf : ignores_auth f)
    {ctx ctx1 : settings_parse_ctx} {key value : String}
    (h : assign_auth ctx key value = .ok ctx1) : ctx1.root.map f = ctx.root.map f := by
  unfold assign_auth at h
  split at h
  · simp at h
  · split at h
    · injection h with h
      subst h
      exact map_auth_write hf _ _ _
    · simp at h

/-- Effect of an accepted key on a projection that ignores the auth data:
nothing, or the projection of the active server is replaced by that of the
server after the assignment in the general schema. -/
theorem map_parse_setting {β : Type} {f : server_settings → β} (hf : ignores_auth f)
    {ctx ctx1 : settings_parse_ctx} {key value : String}
    (h : parse_setting key value ctx = .ok ctx1) :
    ctx1.root.map f = ctx.root.map f ∨
    ∃ srv, ctx.root[ctx.server]? = some srv ∧
      ctx1.root.map f =
        (ctx.root.map f).set ctx.server (f (assign_protocols ctx.protocol srv key value).2) := by
  unfold parse_setting at h
  split at h
  · split at h
    · next auth root hp =>
      injection h with h
      subst h
      left
      have := map_parse_new_auth hf ctx.root ctx.server value
      rw [hp] at this
      exact this
    · simp at h
  · split at h
    · injection h with h
      subst h
      left; rfl
    · have hserver : parse_setting_server key value ctx = .ok ctx1 →
          ∃ srv, ctx.root[ctx.server]? = some srv ∧
            ctx1.root.map f = (ctx.root.map f).set ctx.server
              (f (assign_protocols ctx.protocol srv key value).2) := by
        intro h
        unfold parse_setting_server at h
        split at h
        · simp at h
        · next srv hs =>
          refine ⟨srv, hs, ?_⟩
          simp only at h
          split at h
          · injection h with h
            subst h
            simp [List.map_set]
          · split at h
            · rw [map_assign_auth hf h]
              simp [List.map_set]
            · simp at h
      split at h
      · right; exact hserver h
      · right; exact hserver h
      · left; exact map_assign_auth hf h
      · left
        unfold parse_setting_auth_socket at h
        split at h
        · simp at h
        · split at h
          · simp at h
          · split at h
            · injection h with h
              subst h
              exact map_auth_socket_write hf _ _ _
            · simp at h
      · left
        unfold parse_setting_namespace at h
        split at h
        · simp at h
        · split at h
          · simp at h
          · split at h
            · injection h with h
              subst h
              exact map_namespace_write hf _ _ _
            · simp at h
      · left
        unfold parse_setting_socket at h
        split at h
        · simp at h
        · split at h
          · simp at h
          · split at h
            · injection h with h
              subst h
              exact map_socket_write hf _ _ _
            · simp at h

/-- Effect of an accepted section event on a projection that ignores the auth
data: nothing, or (for a server section) the projection of the new server is
appended. -/
theorem map_parse_section {β : Type} {f : server_settings → β} (hf : ignores_auth f)
    {cfg : build_config} {t : Option String} {n : String}
    {ctx ctx1 : settings_parse_ctx} (h : parse_section cfg t n ctx = .ok ctx1) :
    (ctx1.root.map f = ctx.root.map f ∧ t ≠ some "server") ∨
    (t = some "server" ∧ ∃ cur imap pop3,
      ctx.root[ctx.server]? = some cur ∧ cur.imap = some imap ∧ cur.pop3 = some pop3 ∧
      ctx1.root.map f =
        ctx.root.map f ++ [f (create_new_server cfg ctx.root.length n imap pop3)]) := by
  unfold parse_section at h
  cases t with
  | none =>
    simp only at h
    injection h with h
    subst h
    left
    refine ⟨?_, by simp⟩
    unfold parse_section_close
    split <;> rfl
  | some t =>
    simp only at h
    unfold parse_section_open at h
    split at h
    · next ht =>
      right
      have ht1 : t = "server" := by simpa using ht
      subst ht1
      refine ⟨rfl, ?_⟩
      unfold section_server at h
      split at h
      · simp at h
      · split at h
        · simp at h
        · next cur hcur =>
          split at h
          · next imap pop3 hi hp =>
            injection h with h
            subst h
            exact ⟨cur, imap, pop3, hcur, hi, hp, by simp⟩
          · simp at h
    · next hns =>
      left
      have hne : some t ≠ some "server" := by
        intro hc
        injection hc with hc
        exact hns (by simp [hc])
      refine ⟨?_, hne⟩
      split at h
      · unfold section_protocol at h
        split at h
        · simp at h
        · split at h
          · injection h with h; subst h; rfl
          · split at h
            · injection h with h; subst h; rfl
            · simp at h
      · split at h
        · unfold section_auth at h
          split at h
          · simp at h
          · split at h
            · next auth root hp =>
              injection h with h; subst h
              have := map_parse_new_auth hf ctx.root ctx.server n
              simp only at hp
              rw [hp] at this
              exact this
            · simp at h
        · split at h
          · unfold section_socket at h
            split at h
            · next as root hp =>
              injection h with h; subst h
              have := map_parse_new_auth_socket hf ctx.root ctx.auth n
              simp only at hp
              rw [hp] at this
              exact this
            · simp at h
          · split at h
            · unfold section_master_client at h
              split at h
              · simp at h
              · injection h with h; subst h; rfl
            · split at h
              · unfold section_master_client at h
                split at h
                · simp at h
                · injection h with h; subst h; rfl
              · split at h
                · unfold section_namespace at h
                  split at h
                  · simp at h
                  · split at h
                    · next ns root hp =>
                      injection h with h; subst h
                      have := map_parse_new_namespace hf ctx.root ctx.server n
                      simp only at hp
                      rw [hp] at this
                      exact this
                    · simp at h
                · simp at h

/-! ## The validation loop, one iteration at a time -/

theorem check_imap_inactive {σ : Type} (cfg : build_config) (env : os_env σ) (nochecks : Bool)
    (os : σ) (s : server_settings) (next : List server_settings) (imap : settings)
    (hi : s.imap = some imap) (ha : settings_is_active imap = false) :
    check_imap cfg env nochecks os s next = (.returned true, { s with imap := none }, os) := by
  unfold check_imap
  simp [hi, ha]

theorem check_pop3_inactive {σ : Type} (cfg : build_config) (env : os_env σ) (nochecks : Bool)
    (os : σ) (s : server_settings) (next : List server_settings) (pop3 : settings)
    (hp : s.pop3 = some pop3) (ha : settings_is_active pop3 = false) :
    check_pop3 cfg env nochecks os s next = (.returned true, { s with pop3 := none }, os) := by
  unfold check_pop3
  simp [hp, ha]

theorem check_imap_active {σ : Type} {cfg : build_config} {env : os_env σ} {nochecks : Bool}
    {os os1 : σ} {s s1 : server_settings} {next : List server_settings} {imap : settings}
    (h : check_imap cfg env nochecks os s next = (.returned true, s1, os1))
    (hi : s.imap = some imap) (ha : settings_is_active imap = true) :
    ∃ set gid, s1 = { s with imap := some set, login_gid := gid,
                             defaults := some MAIL_PROTOCOL_IMAP } ∧
      (nochecks = false →
        settings_verify cfg env os imap s next = (.returned true, set, gid, os1)) := by
  unfold check_imap at h
  simp only [hi, ha, Bool.not_true, Bool.false_eq_true, if_false] at h
  cases nochecks with
  | true =>
    simp only [Bool.not_true, Bool.false_eq_true, if_false] at h
    injection h with _ h
    injection h with h _
    exact ⟨imap, s.login_gid, by rw [← h], by simp⟩
  | false =>
    simp only [Bool.not_false, if_true] at h
    split at h
    · next set gid os2 hv =>
      injection h with _ h
      injection h with h h2
      subst h2
      exact ⟨set, gid, h.symm, fun _ => hv⟩
    · next r set gid os2 hne hv =>
      injection h with h _
      subst h
      exact absurd rfl hne

theorem check_pop3_active {σ : Type} {cfg : build_config} {env : os_env σ} {nochecks : Bool}
    {os os1 : σ} {s s1 : server_settings} {next : List server_settings} {pop3 : settings}
    (h : check_pop3 cfg env nochecks os s next = (.returned true, s1, os1))
    (hp : s.pop3 = some pop3) (ha : settings_is_active pop3 = true) :
    ∃ set gid, s1 = { s with pop3 := some set, login_gid := gid,
                             defaults :=
                               if s.defaults.isNone then some MAIL_PROTOCOL_POP3
                               else s.defaults } ∧
      (nochecks = false →
        settings_verify cfg env os pop3 s next = (.returned true, set, gid, os1)) := by
  unfold check_pop3 at h
  simp only [hp, ha, Bool.not_true, Bool.false_eq_true, if_false] at h
  cases nochecks with
  | true =>
    simp only [Bool.not_true, Bool.false_eq_true, if_false] at h
    injection h with _ h
    injection h with h _
    exact ⟨pop3, s.login_gid, by rw [← h], by simp⟩
  | false =>
    simp only [Bool.not_false, if_true] at h
    split at h
    · next set gid os2 hv =>
      injection h with _ h
      injection h with h h2
      subst h2
      exact ⟨set, gid, h.symm, fun _ => hv⟩
    · next r set gid os2 hne hv =>
      injection h with h _
      subst h
      exact absurd rfl hne

theorem same_frame_refl (a : server_settings) : same_frame a a := ⟨rfl, rfl, rfl, rfl⟩

theorem same_frame_trans {a b c : server_settings} (h1 : same_frame a b) (h2 : same_frame b c) :
    same_frame a c :=
  ⟨h2.1.trans h1.1, h2.2.1.trans h1.2.1, h2.2.2.1.trans h1.2.2.1, h2.2.2.2.trans h1.2.2.2⟩

theorem same_frame_force (s : server_settings) :
    same_frame s { s with pop3 := force_verify_client_cert s.pop3
                          imap := force_verify_client_cert s.imap } := by
  refine ⟨rfl, rfl, ?_, ?_⟩ <;> simp [force_verify_client_cert]

theorem auth_settings_verify_frame {σ : Type} (env : os_env σ) (os : σ)
    (server : server_settings) (auth : auth_settings) :
    same_frame server (auth_settings_verify env os server auth).2.2 ∧
    (auth_settings_verify env os server auth).2.2.auths = server.auths := by
  unfold auth_settings_verify
  split
  · exact ⟨same_frame_refl _, rfl⟩
  · split
    · exact ⟨same_frame_refl _, rfl⟩
    · split
      · exact ⟨same_frame_refl _, rfl⟩
      · simp only
        split
        · exact ⟨same_frame_refl _, rfl⟩
        · split
          · split
            · exact ⟨same_frame_refl _, rfl⟩
            · split
              · exact ⟨same_frame_force _, rfl⟩
              · exact ⟨same_frame_refl _, rfl⟩
          · split
            · exact ⟨same_frame_force _, rfl⟩
            · exact ⟨same_frame_refl _, rfl⟩

theorem verify_auths_frame {σ : Type} (env : os_env σ) (os : σ) (todo : List auth_settings) :
    ∀ (server : server_settings) (done : List auth_settings),
      same_frame server (verify_auths env os server done todo).2 ∧
      (verify_auths env os server done todo).2.auths.length = done.length + todo.length := by
  induction todo with
  | nil =>
    intro server done
    simp only [verify_auths]
    exact ⟨⟨rfl, rfl, rfl, rfl⟩, by simp⟩
  | cons auth rest ih =>
    intro server done
    have hf := auth_settings_verify_frame env os { server with auths := done ++ auth :: rest } auth
    unfold verify_auths
    rcases hv : auth_settings_verify env os { server with auths := done ++ auth :: rest } auth
      with ⟨b, auth1, server1⟩
    rw [hv] at hf
    have hf1 : same_frame server server1 := hf.1
    cases b with
    | true =>
      simp only
      obtain ⟨i1, i2⟩ := ih server1 (done ++ [auth1])
      refine ⟨same_frame_trans hf1 i1, ?_⟩
      rw [i2]
      simp
      omega
    | false =>
      simp only
      refine ⟨⟨hf1.1, hf1.2.1, hf1.2.2.1, hf1.2.2.2⟩, by simp⟩

theorem check_auths_true {σ : Type} {env : os_env σ} {nochecks : Bool} {os : σ}
    {s s1 : server_settings} (h : check_auths env nochecks os s = (true, s1)) :
    same_frame s s1 ∧ s.auths ≠ [] ∧ s1.auths ≠ [] := by
  unfold check_auths at h
  split at h
  · simp at h
  · next hne =>
    have hne1 : s.auths ≠ [] := by simpa using hne
    split at h
    · have hf := verify_auths_frame env os s.auths s []
      split at h
      · simp at h
      · next server1 hv =>
        injection h with _ h
        subst h
        rw [hv] at hf
        refine ⟨hf.1, hne1, ?_⟩
        intro hc
        have := hf.2
        rw [hc] at this
        simp at this
        exact hne1 (List.length_eq_zero.mp this.symm)
    · injection h with _ h
      subst h
      exact ⟨same_frame_refl _, hne1, hne1⟩

/-- What an iteration of the loop that returned TRUE has done. -/
theorem verify_server_true {σ : Type} {cfg : build_config} {env : os_env σ} {nochecks : Bool}
    {os os1 : σ} {s pub : server_settings} {next : List server_settings}
    (h : verify_server cfg env nochecks os s next = (.returned true, pub, os1)) :
    ∃ imap pop3, s.imap = some imap ∧ s.pop3 = some pop3 ∧
      (imap.str "protocols").isSome = true ∧ (pop3.str "protocols").isSome = true ∧
      pub.name = s.name ∧
      pub.imap.isSome = settings_is_active imap ∧
      pub.pop3.isSome = settings_is_active pop3 ∧
      (s.defaults = none →
        pub.defaults.isNone = !(settings_is_active imap || settings_is_active pop3)) ∧
      ((settings_is_active imap || settings_is_active pop3) = true →
        pub.defaults.isNone = false ∧ s.auths ≠ [] ∧ pub.auths ≠ []) ∧
      (settings_is_active imap = true → settings_is_active pop3 = false → nochecks = false →
        ∃ set gid, settings_verify cfg env os imap s next = (.returned true, set, gid, os1)) ∧
      (settings_is_active imap = false → settings_is_active pop3 = false →
        s.defaults = none → pub = { s with imap := none, pop3 := none } ∧ os1 = os) := by
  unfold verify_server at h
  split at h
  · next imap pop3 hi hp =>
    refine ⟨imap, pop3, hi, hp, ?_⟩
    split at h
    · simp at h
    · next hprot =>
      simp only [Bool.or_eq_true, not_or, Bool.not_eq_true, Option.isNone_eq_false_iff] at hprot
      refine ⟨by simpa using hprot.1, by simpa using hprot.2, ?_⟩
      split at h
      · next s1 os2 hci =>
        split at h
        · next s2 os3 hcp =>
          -- the server after the two protocol checks
          have key : ∃ (i2 p2 : Option settings) (gid : Nat) (d : Option mail_protocol),
              s2 = { s with imap := i2, pop3 := p2, login_gid := gid, defaults := d } ∧
              i2.isSome = settings_is_active imap ∧ p2.isSome = settings_is_active pop3 ∧
              (s.defaults = none →
                d.isNone = !(settings_is_active imap || settings_is_active pop3)) ∧
              ((settings_is_active imap || settings_is_active pop3) = true → d.isNone = false) ∧
              (settings_is_active imap = true → settings_is_active pop3 = false →
                nochecks = false →
                ∃ set gid, settings_verify cfg env os imap s next =
                  (.returned true, set, gid, os3)) ∧
              (settings_is_active imap = false → settings_is_active pop3 = false →
                s.defaults = none → s2 = { s with imap := none, pop3 := none } ∧ os3 = os) := by
            cases hai : settings_is_active imap with
            | false =>
              rw [check_imap_inactive cfg env nochecks os s next imap hi hai] at hci
              injection hci with _ hci
              injection hci with hci hos
              subst hci hos
              cases hap : settings_is_active pop3 with
              | false =>
                rw [check_pop3_inactive cfg env nochecks os { s with imap := none } next pop3 hp
                  hap] at hcp
                injection hcp with _ hcp
                injection hcp with hcp hos
                subst hcp hos
                refine ⟨none, none, s.login_gid, s.defaults, rfl, rfl, rfl, ?_, by simp, by simp,
                  ?_⟩
                · intro hd; simp [hd]
                · intro _ _ hd; exact ⟨rfl, rfl⟩
              | true =>
                obtain ⟨set, gid, hs2, _⟩ := check_pop3_active hcp hp hap
                refine ⟨none, some set, gid, _, hs2, rfl, rfl, ?_, ?_, by simp, by simp⟩
                · intro hd; simp [hd]
                · intro _; cases s.defaults <;> simp
            | true =>
              obtain ⟨set, gid, hs1, hv1⟩ := check_imap_active hci hi hai
              subst hs1
              cases hap : settings_is_active pop3 with
              | false =>
                rw [check_pop3_inactive cfg env nochecks os2
                  { s with imap := some set
                           login_gid := gid
                           defaults := some MAIL_PROTOCOL_IMAP } next pop3 hp hap] at hcp
                injection hcp with _ hcp
                injection hcp with hcp hos
                subst hcp hos
                refine ⟨some set, none, gid, some MAIL_PROTOCOL_IMAP, rfl, rfl, rfl, by simp,
                  by simp, ?_, by simp⟩
                intro _ _ hn
                exact ⟨set, gid, hv1 hn⟩
              | true =>
                obtain ⟨set2, gid2, hs2, _⟩ := check_pop3_active hcp hp hap
                refine ⟨some set, some set2, gid2, some MAIL_PROTOCOL_IMAP, ?_, rfl, rfl,
                  by simp, by simp, by simp, by simp⟩
                rw [hs2]
                simp
          obtain ⟨i2, p2, gid, d, hs2, hi2, hp2, hd1, hd2, hv, hdrop⟩ := key
          split at h
          · next hnone =>
            injection h with _ h
            injection h with h hos
            subst h hos
            have hdn : d.isNone = true := by rw [hs2] at hnone; simpa using hnone
            refine ⟨by rw [hs2], by rw [hs2]; exact hi2, by rw [hs2]; exact hp2, ?_, ?_, hv,
              hdrop⟩
            · intro hd; rw [hs2]; exact hd1 hd
            · intro hact; have := hd2 hact; rw [hdn] at this; simp at this
          · next hsome =>
            simp only at h
            injection h with hr h
            injection h with h hos
            injection hr with hr
            have hca : check_auths env nochecks os3 s2 = (true, pub) := by
              rw [← hr, ← h]
            obtain ⟨hf, ha1, ha2⟩ := check_auths_true hca
            subst hos
            have hdn : d.isNone = false := by
              rw [hs2] at hsome
              cases d <;> simp at hsome ⊢
            have hs2a : s2.auths = s.auths := by rw [hs2]
            refine ⟨by rw [hf.1, hs2], by rw [hf.2.2.1, hs2]; exact hi2,
              by rw [hf.2.2.2, hs2]; exact hp2, ?_, ?_, hv, ?_⟩
            · intro hd; rw [hf.2.1, hs2]; exact hd1 hd
            · intro _
              refine ⟨by rw [hf.2.1, hs2]; exact hdn, by rw [← hs2a]; exact ha1, ha2⟩
            · intro h1 h2 hd
              have := hd1 hd
              rw [hdn, h1, h2] at this
              simp at this
        · next r hne =>
          rw [h] at hne
          exact absurd rfl (hne pub os1)
      · next r hne =>
        rw [h] at hne
        exact absurd rfl (hne pub os1)
  · simp at h

/-! ## The validation loop as a whole -/

theorem server_is_active_eq {s : server_settings} {imap pop3 : settings}
    (hi : s.imap = some imap) (hp : s.pop3 = some pop3) :
    server_is_active s = (settings_is_active imap || settings_is_active pop3) := by
  simp [server_is_active, hi, hp]

theorem forall₂_mem_left {α β : Type} {R : α → β → Prop} {l1 : List α} {l2 : List β}
    (h : List.Forall₂ R l1 l2) : ∀ a ∈ l1, ∃ b ∈ l2, R a b := by
  induction h with
  | nil => intro a ha; simp at ha
  | cons hr _ ih =>
    intro a ha
    rcases List.mem_cons.mp ha with ha | ha
    · subst ha; exact ⟨_, List.mem_cons_self _ _, hr⟩
    · obtain ⟨b, hb, hab⟩ := ih a ha
      exact ⟨b, List.mem_cons_of_mem _ hb, hab⟩

theorem forall₂_mem_right {α β : Type} {R : α → β → Prop} {l1 : List α} {l2 : List β}
    (h : List.Forall₂ R l1 l2) : ∀ b ∈ l2, ∃ a ∈ l1, R a b := by
  induction h with
  | nil => intro b hb; simp at hb
  | cons hr _ ih =>
    intro b hb
    rcases List.mem_cons.mp hb with hb | hb
    · subst hb; exact ⟨_, List.mem_cons_self _ _, hr⟩
    · obtain ⟨a, ha, hab⟩ := ih b hb
      exact ⟨a, List.mem_cons_of_mem _ ha, hab⟩

/-- A loop that returned TRUE has kept, in order, the servers with an active
protocol, each as its iteration left it. -/
theorem verify_servers_forall₂ {σ : Type} {cfg : build_config} {env : os_env σ}
    {nochecks : Bool} (servers : List server_settings) :
    ∀ (os os1 : σ) (out : List server_settings),
      (∀ s ∈ servers, s.defaults = none) →
      verify_servers cfg env nochecks os servers = (.returned true, out, os1) →
      List.Forall₂ (published_as cfg env nochecks) (servers.filter server_is_active) out := by
  induction servers with
  | nil =>
    intro os os1 out _ h
    simp only [verify_servers] at h
    injection h with _ h
    injection h with h _
    subst h
    simp
  | cons server next ih =>
    intro os os1 out hd h
    unfold verify_servers at h
    split at h
    · next server1 os2 hv =>
      obtain ⟨imap, pop3, hi, hp, _, _, _, _, _, hdef, _, _, _⟩ := verify_server_true hv
      have hdef1 := hdef (hd server (List.mem_cons_self _ _))
      rw [← server_is_active_eq hi hp] at hdef1
      split at h
      next r servers os3 hrec =>
      split at h
      · next hnone =>
        injection h with h1 h2
        injection h2 with h2 h3
        subst h1 h2 h3
        have hact : server_is_active server = false := by
          rw [hnone] at hdef1
          simpa using hdef1.symm
        rw [List.filter_cons_of_neg (by simp [hact])]
        exact ih _ _ _ (fun s hs => hd s (List.mem_cons_of_mem _ hs)) hrec
      · next hsome =>
        injection h with h1 h2
        injection h2 with h2 h3
        subst h1 h2 h3
        have hact : server_is_active server = true := by
          cases hx : server1.defaults.isNone with
          | true => exact absurd hx hsome
          | false => rw [hx] at hdef1; simpa using hdef1.symm
        rw [List.filter_cons_of_pos hact]
        exact List.Forall₂.cons ⟨os, next, os2, hv⟩
          (ih _ _ _ (fun s hs => hd s (List.mem_cons_of_mem _ hs)) hrec)
    · next r server1 os2 hne hv =>
      injection h with h1 _
      exact absurd h1 hne

/-- A server with an active protocol and no auth backend stops the loop. -/
theorem verify_servers_no_auth {σ : Type} {cfg : build_config} {env : os_env σ}
    {nochecks : Bool} (servers : List server_settings) :
    ∀ (os : σ) (s : server_settings), s ∈ servers → server_is_active s = true →
      s.auths = [] → (verify_servers cfg env nochecks os servers).1 ≠ .returned true := by
  induction servers with
  | nil => intro os s hs; simp at hs
  | cons server next ih =>
    intro os s hs hact hno
    unfold verify_servers
    split
    · next server1 os2 hv =>
      rcases List.mem_cons.mp hs with hs | hs
      · subst hs
        obtain ⟨imap, pop3, hi, hp, _, _, _, _, _, _, hauth, _, _⟩ := verify_server_true hv
        rw [server_is_active_eq hi hp] at hact
        exact absurd hno (hauth hact).2.1
      · have := ih os2 s hs hact hno
        split
        next r servers os3 hrec =>
        rw [hrec] at this
        split <;> exact this
    · next r server1 os2 hne hv => exact hne

theorem verify_server_nochecks {σ : Type} (cfg : build_config) (env : os_env σ) (os : σ)
    (s : server_settings) (next : List server_settings) :
    (verify_server cfg env true os s next).1 ≠ .exited := by
  unfold verify_server
  split
  · split
    · simp
    · have h1 : ∀ (o : σ) (x : server_settings),
          (check_imap cfg env true o x next).1 ≠ .exited := by
        intro o x
        unfold check_imap
        split
        · simp
        · split <;> simp
      have h2 : ∀ (o : σ) (x : server_settings),
          (check_pop3 cfg env true o x next).1 ≠ .exited := by
        intro o x
        unfold check_pop3
        split
        · simp
        · split <;> simp
      split
      · split
        · split <;> simp
        · next s1 os1 hci r hne =>
          exact h2 os1 s1
      · next r hne => exact h1 os s
  · simp

/-- Without checks the loop always returns. -/
theorem verify_servers_nochecks {σ : Type} (cfg : build_config) (env : os_env σ)
    (servers : List server_settings) :
    ∀ (os : σ), (verify_servers cfg env true os servers).1 ≠ .exited := by
  induction servers with
  | nil => intro os; simp [verify_servers]
  | cons server next ih =>
    intro os
    unfold verify_servers
    split
    · next server1 os2 hv =>
      have := ih os2
      split
      next r servers os3 hrec =>
      rw [hrec] at this
      split <;> exact this
    · next r server1 os2 hne hv =>
      have := verify_server_nochecks cfg env os server next
      rw [hv] at this
      exact this

theorem range_ok_congr {a b : settings}
    (h : ∀ n, n ≠ "ssl_parameters_file" → n ≠ "login_dir" → b.vals n = a.vals n) :
    range_ok b ↔ range_ok a := by
  unfold range_ok settings.int
  rw [h "last_valid_uid" (by decide) (by decide), h "first_valid_uid" (by decide) (by decide),
    h "last_valid_gid" (by decide) (by decide), h "first_valid_gid" (by decide) (by decide)]

theorem get_login_uid_vals {σ : Type} (env : os_env σ) (os : σ) (set : settings) (gid : Nat) :
    (get_login_uid env os set gid).2.1.vals = set.vals := by
  unfold get_login_uid
  split
  · rfl
  · split
    · rfl
    · split <;> rfl

/-- A settings object that `settings_verify` accepts has its ranges in order. -/
theorem settings_verify_range_in {σ : Type} {cfg : build_config} {env : os_env σ} {os os1 : σ}
    {set set1 : settings} {server : server_settings} {next : List server_settings} {gid : Nat}
    (h : settings_verify cfg env os set server next = (.returned true, set1, gid, os1)) :
    range_ok set := by
  have hout := settings_verify_range h
  have hvals := get_login_uid_vals env os set server.login_gid
  unfold settings_verify at h
  split at h
  · simp at h
  · next set2 gid2 hg =>
    rw [hg] at hvals
    simp only at hvals
    repeat (split at h; · simp at h)
    simp only at h
    injection h with _ h2
    injection h2 with h2 _
    rw [← h2] at hout
    have h1 : range_ok (settings_fix_paths set2) ↔ range_ok set2 := by
      apply range_ok_congr
      intro n h1 h2
      simp [settings_fix_paths, Function.update, h1, h2]
    have h3 : range_ok set2 ↔ range_ok set := by
      apply range_ok_congr
      intro n _ _
      rw [hvals]
    exact h3.mp (h1.mp hout)

theorem verify_server_input_ranges {σ : Type} {cfg : build_config} {env : os_env σ}
    {os os1 : σ} {s pub : server_settings} {next : List server_settings}
    (h : verify_server cfg env false os s next = (.returned true, pub, os1)) :
    ∀ set, s.imap = some set ∨ s.pop3 = some set → settings_is_active set = true →
      range_ok set := by
  unfold verify_server at h
  split at h
  · next imap pop3 hi hp =>
    split at h
    · simp at h
    · split at h
      · next s1 os2 hci =>
        split at h
        · next s2 os3 hcp =>
          intro set hset hact
          rcases hset with hset | hset
          · rw [hi] at hset
            injection hset with hset
            subst hset
            obtain ⟨_, _, _, hv⟩ := check_imap_active hci hi hact
            exact settings_verify_range_in (hv rfl)
          · rw [hp] at hset
            injection hset with hset
            subst hset
            have hp1 : s1.pop3 = some pop3 := by
              rw [(check_imap_range hci).2, hp]
            obtain ⟨_, _, _, hv⟩ := check_pop3_active hcp hp1 hact
            exact settings_verify_range_in (hv rfl)
        · next r hne =>
          rw [h] at hne
          exact absurd rfl (hne pub os1)
      · next r hne =>
        rw [h] at hne
        exact absurd rfl (hne pub os1)
  · simp at h

/-- A loop with checks that returned TRUE has found the ranges of every active
settings object of every server it visited in order. -/
theorem verify_servers_input_ranges {σ : Type} {cfg : build_config} {env : os_env σ}
    (servers : List server_settings) :
    ∀ (os os1 : σ) (out : List server_settings),
      verify_servers cfg env false os servers = (.returned true, out, os1) →
      ∀ s ∈ servers, ∀ set, s.imap = some set ∨ s.pop3 = some set →
        settings_is_active set = true → range_ok set := by
  induction servers with
  | nil => intro os os1 out _ s hs; simp at hs
  | cons server next ih =>
    intro os os1 out h s hs
    unfold verify_servers at h
    split at h
    · next server1 os2 hv =>
      split at h
      next r servers os3 hrec =>
      have hr : r = .returned true := by
        split at h <;> exact (Prod.mk.inj h).1
      subst hr
      rcases List.mem_cons.mp hs with hs | hs
      · subst hs; exact verify_server_input_ranges hv
      · exact ih _ _ _ hrec s hs
    · next r server1 os2 hne hv =>
      injection h with h1 _
      exact absurd h1 hne

/-! ## What the parser guarantees about every server -/

theorem ignores_auth_core : ignores_auth server_core := by
  intro s ad auths ns
  rfl

theorem parsed_server_of_core {a b : server_settings} (h : server_core b = server_core a)
    (ha : parsed_server a) : parsed_server b := by
  simp only [server_core, Prod.mk.injEq] at h
  obtain ⟨_, h2, h3, h4, _⟩ := h
  unfold parsed_server at ha ⊢
  rw [h2, h3, h4]
  exact ha

theorem parse_cell_protocols {key value : String} {x : set_value}
    (h : parse_cell setting_defs key value = .ok ("protocols", x)) :
    x = set_value.str (some value) := by
  have hk := parse_cell_name h
  subst hk
  have : parse_cell setting_defs "protocols" value =
      .ok ("protocols", set_value.str (some value)) := rfl
  rw [this] at h
  injection h with h
  injection h with _ h
  exact h.symm

theorem parsed_server_assign_protocol {srv : server_settings} (proto : mail_protocol)
    (key value : String) (h : parsed_server srv) :
    parsed_server (assign_protocol srv proto key value).2 := by
  obtain ⟨hd, imap, pop3, hi, hp, hip, hpp, his, hps⟩ := h
  rw [assign_protocol_cell srv proto key value imap pop3 hi hp]
  cases hc : parse_cell setting_defs key value with
  | error e => exact ⟨hd, imap, pop3, hi, hp, hip, hpp, his, hps⟩
  | ok nx =>
    obtain ⟨n, x⟩ := nx
    have hx : ∀ (base : fields), ((base "protocols").get_str).isSome = true →
        ((Function.update base n x "protocols").get_str).isSome = true := by
      intro base hb
      by_cases hn : n = "protocols"
      · subst hn
        rw [parse_cell_protocols hc]
        simp [set_value.get_str]
      · rw [Function.update_noteq (Ne.symm hn)]
        exact hb
    cases proto with
    | MAIL_PROTOCOL_POP3 =>
      exact ⟨hd, imap, _, hi, rfl, hip, hpp, his, hx _ hps⟩
    | MAIL_PROTOCOL_IMAP =>
      exact ⟨hd, _, pop3, rfl, hp, hip, hpp, hx _ his, hps⟩
    | MAIL_PROTOCOL_ANY =>
      exact ⟨hd, _, pop3, rfl, hp, hip, hpp, hx _ his, hps⟩

theorem parsed_server_assign_protocols {srv : server_settings} (protocol : mail_protocol)
    (key value : String) (h : parsed_server srv) :
    parsed_server (assign_protocols protocol srv key value).2 := by
  unfold assign_protocols
  simp only
  split <;> split <;>
    first
      | exact parsed_server_assign_protocol _ _ _ (parsed_server_assign_protocol _ _ _ h)
      | exact parsed_server_assign_protocol _ _ _ h
      | exact h

theorem assign_protocol_name (srv : server_settings) (proto : mail_protocol)
    (key value : String) : (assign_protocol srv proto key value).2.name = srv.name := by
  unfold assign_protocol
  cases proto <;> simp only <;> split <;> try rfl
  all_goals (split <;> rfl)

theorem assign_protocols_name (protocol : mail_protocol) (srv : server_settings)
    (key value : String) : (assign_protocols protocol srv key value).2.name = srv.name := by
  unfold assign_protocols
  simp only
  split <;> split <;> simp [assign_protocol_name]

theorem parsed_server_create (cfg : build_config) (self : Nat) (name : String)
    (imap pop3 : settings) (hi : (imap.str "protocols").isSome = true)
    (hp : (pop3.str "protocols").isSome = true) :
    parsed_server (create_new_server cfg self name imap pop3) := by
  refine ⟨rfl, _, _, rfl, rfl, rfl, rfl, ?_, ?_⟩
  · simpa [settings.str, Function.update] using hi
  · simpa [settings.str, Function.update] using hp

theorem parsed_server_initial (cfg : build_config) :
    ∀ s ∈ (initial_ctx cfg).root, parsed_server s := by
  intro s hs
  simp only [initial_ctx, List.mem_singleton] at hs
  subst hs
  apply parsed_server_create <;> rfl

theorem forall_of_map_eq {β : Type} {f : server_settings → β} {P : server_settings → Prop}
    (hP : ∀ a b, f b = f a → P a → P b) {l l1 : List server_settings}
    (h : l1.map f = l.map f) (hl : ∀ s ∈ l, P s) : ∀ s ∈ l1, P s := by
  intro s hs
  have : f s ∈ l.map f := by rw [← h]; exact List.mem_map_of_mem f hs
  obtain ⟨a, ha, hfa⟩ := List.mem_map.mp this
  exact hP a s hfa.symm (hl a ha)

theorem forall_of_map_set {β : Type} {f : server_settings → β} {P : server_settings → Prop}
    (hP : ∀ a b, f b = f a → P a → P b) {l l1 : List server_settings} {i : Nat}
    {x : server_settings} (h : l1.map f = (l.map f).set i (f x)) (hx : P x)
    (hl : ∀ s ∈ l, P s) : ∀ s ∈ l1, P s := by
  intro s hs
  have : f s ∈ (l.map f).set i (f x) := by rw [← h]; exact List.mem_map_of_mem f hs
  rcases List.mem_or_eq_of_mem_set this with hm | hm
  · obtain ⟨a, ha, hfa⟩ := List.mem_map.mp hm
    exact hP a s hfa.symm (hl a ha)
  · exact hP x s hm hx

theorem forall_of_map_append {β : Type} {f : server_settings → β} {P : server_settings → Prop}
    (hP : ∀ a b, f b = f a → P a → P b) {l l1 : List server_settings}
    {x : server_settings} (h : l1.map f = l.map f ++ [f x]) (hx : P x)
    (hl : ∀ s ∈ l, P s) : ∀ s ∈ l1, P s := by
  intro s hs
  have : f s ∈ l.map f ++ [f x] := by rw [← h]; exact List.mem_map_of_mem f hs
  rcases List.mem_append.mp this with hm | hm
  · obtain ⟨a, ha, hfa⟩ := List.mem_map.mp hm
    exact hP a s hfa.symm (hl a ha)
  · exact hP x s (by simpa using hm) hx

theorem parsed_server_parse_setting {ctx ctx1 : settings_parse_ctx} {key value : String}
    (h : parse_setting key value ctx = .ok ctx1) (hc : ∀ s ∈ ctx.root, parsed_server s) :
    ∀ s ∈ ctx1.root, parsed_server s := by
  rcases map_parse_setting ignores_auth_core h with hm | ⟨srv, hsrv, hm⟩
  · exact forall_of_map_eq (fun a b => parsed_server_of_core) hm hc
  · exact forall_of_map_set (fun a b => parsed_server_of_core) hm
      (parsed_server_assign_protocols _ _ _ (hc srv (List.getElem?_mem hsrv))) hc

theorem parsed_server_parse_section {cfg : build_config} {t : Option String} {n : String}
    {ctx ctx1 : settings_parse_ctx} (h : parse_section cfg t n ctx = .ok ctx1)
    (hc : ∀ s ∈ ctx.root, parsed_server s) : ∀ s ∈ ctx1.root, parsed_server s := by
  rcases map_parse_section ignores_auth_core h with ⟨hm, _⟩ | ⟨_, cur, imap, pop3, hcur, hi, hp, hm⟩
  · exact forall_of_map_eq (fun a b => parsed_server_of_core) hm hc
  · obtain ⟨_, i0, p0, hi0, hp0, _, _, his, hps⟩ := hc cur (List.getElem?_mem hcur)
    rw [hi] at hi0
    rw [hp] at hp0
    injection hi0 with hi0
    injection hp0 with hp0
    subst hi0 hp0
    exact forall_of_map_append (fun a b => parsed_server_of_core) hm
      (parsed_server_create cfg _ n imap pop3 his hps) hc

/-- An invariant of the two callbacks holds for the context that
`settings_read` hands back, whether it returned TRUE or FALSE. -/
theorem settings_read_invariant_any {γ : Type} (P : γ → Prop)
    (callback : String → String → γ → Except String γ)
    (sect_callback : Option String → String → γ → Except String γ)
    (hkv : ∀ k v c c1, P c → callback k v c = .ok c1 → P c1)
    (hsect : ∀ t n c c1, P c → sect_callback t n c = .ok c1 → P c1)
    (input : List settings_event) :
    ∀ c, P c → P (settings_read input callback sect_callback c).2 := by
  induction input with
  | nil => intro c hc; simpa [settings_read_nil] using hc
  | cons e rest ih =>
    intro c hc
    cases e with
    | key_value k v =>
      rw [settings_read_key_value]
      cases hcb : callback k v c with
      | error e => simpa using hc
      | ok c1 => exact ih c1 (hkv k v c c1 hc hcb)
    | sect t n =>
      rw [settings_read_sect]
      cases hcb : sect_callback t n c with
      | error e => simpa using hc
      | ok c1 => exact ih c1 (hsect t n c c1 hc hcb)
    | invalid => rw [settings_read_invalid]; exact hc

/-- Every server the parser hands to the validation loop has the shape
`parsed_server`. -/
theorem candidates_parsed (cfg : build_config) (input : List settings_event) :
    ∀ s ∈ candidates cfg input, parsed_server s := by
  have hroot : ∀ s ∈ (settings_read input parse_setting (parse_section cfg)
      (initial_ctx cfg)).2.root, parsed_server s :=
    settings_read_invariant_any (fun c => ∀ s ∈ c.root, parsed_server s) parse_setting
      (parse_section cfg)
      (fun k v c c1 hc h => parsed_server_parse_setting h hc)
      (fun t n c c1 hc h => parsed_server_parse_section h hc)
      input (initial_ctx cfg) (parsed_server_initial cfg)
  intro s hs
  unfold candidates at hs
  simp only at hs
  split at hs
  · exact hroot s hs
  · exact hroot s (List.mem_of_mem_tail hs)

/-- The names of the servers after a reading that returned TRUE: those before
it, then the names of the server sections of the source. -/
theorem settings_read_names (cfg : build_config) (input : List settings_event) :
    ∀ c, (settings_read input parse_setting (parse_section cfg) c).1 = true →
      (settings_read input parse_setting (parse_section cfg) c).2.root.map (fun s => s.name) =
        c.root.map (fun s => s.name) ++ (declared_servers input).map some := by
  have hname : ignores_auth (fun s : server_settings => s.name) := by
    intro s ad auths ns; rfl
  induction input with
  | nil => intro c _; simp [settings_read_nil, declared_servers]
  | cons e rest ih =>
    intro c h
    cases e with
    | key_value k v =>
      rw [settings_read_key_value] at h ⊢
      cases hcb : parse_setting k v c with
      | error e => simp [hcb] at h
      | ok c1 =>
        simp only [hcb] at h ⊢
        rw [ih c1 h]
        have hm : c1.root.map (fun s => s.name) = c.root.map (fun s => s.name) := by
          rcases map_parse_setting hname hcb with hm | ⟨srv, hsrv, hm⟩
          · exact hm
          · rw [hm, assign_protocols_name]
            apply set_same
            simp [hsrv]
        rw [hm]
        simp [declared_servers]
    | sect t n =>
      rw [settings_read_sect] at h ⊢
      cases hcb : parse_section cfg t n c with
      | error e => simp [hcb] at h
      | ok c1 =>
        simp only [hcb] at h ⊢
        rw [ih c1 h]
        rcases map_parse_section hname hcb with ⟨hm, hne⟩ | ⟨ht, cur, imap, pop3, _, _, _, hm⟩
        · rw [hm]
          have : declared_servers (.sect t n :: rest) = declared_servers rest := by
            cases t with
            | none => simp [declared_servers]
            | some t =>
              have ht : t ≠ "server" := fun hc => hne (by rw [hc])
              simp [declared_servers, List.filterMap_cons, ht]
          rw [this]
        · subst ht
          rw [hm]
          simp [declared_servers, create_new_server]
    | invalid => simp [settings_read_invalid] at h

/-! ## From the result of a load back to the validation loop -/

/-- A load that returned TRUE has read the source with success, and its
published list is what the validation loop made of the candidates. -/
theorem master_settings_read_true {σ : Type} {cfg : build_config} {env : os_env σ} {os : σ}
    {st : master_state} {input : List settings_event} {nochecks : Bool}
    (h : (master_settings_read cfg env os st input nochecks).1 = .returned true) :
    (settings_read input parse_setting (parse_section cfg) (initial_ctx cfg)).1 = true ∧
    ∃ os1, verify_servers cfg env nochecks os (candidates cfg input) =
      (.returned true, (master_settings_read cfg env os st input nochecks).2.1.published,
        os1) := by
  rcases master_settings_read_cases cfg env os st input nochecks with
    ⟨ctx, servers, os1, hread, _, hv, hres⟩ | ⟨hne, _⟩
  · refine ⟨by rw [hread], os1, ?_⟩
    have hc : candidates cfg input =
        if ctx.root.tail.isEmpty then ctx.root else ctx.root.tail := by
      unfold candidates
      rw [hread]
    rw [hc, hv, hres]
    have hp : ∀ (st2 : master_state),
        st2 = { settings_pool := st.settings2_pool
                settings2_pool := st.settings_pool
                mem := Function.update (Function.update st.mem st.settings_pool [])
                  st.settings_pool servers
                settings_root := if servers.isEmpty then none else some st.settings_pool } →
        st2.published = servers := by
      intro st2 hst
      subst hst
      cases servers with
      | nil => simp [master_state.published]
      | cons x xs => simp [master_state.published]
    rw [hp _ rfl]
  · exact absurd h hne

/-- A load that did not return TRUE leaves `settings_root` as it was. -/
theorem master_settings_read_root {σ : Type} {cfg : build_config} {env : os_env σ} {os : σ}
    {st : master_state} {input : List settings_event} {nochecks : Bool}
    (h : (master_settings_read cfg env os st input nochecks).1 ≠ .returned true) :
    (master_settings_read cfg env os st input nochecks).2.1.settings_root =
      st.settings_root := by
  rcases master_settings_read_cases cfg env os st input nochecks with
    ⟨ctx, servers, os1, _, _, _, hres⟩ | ⟨_, tree, htree⟩
  · rw [hres] at h
    exact absurd rfl h
  · rw [htree]
    rfl

/-- Without checks a load always returns. -/
theorem master_settings_read_nochecks {σ : Type} (cfg : build_config) (env : os_env σ) (os : σ)
    (st : master_state) (input : List settings_event) :
    (master_settings_read cfg env os st input true).1 ≠ .exited := by
  unfold master_settings_read
  rcases hread : settings_read input parse_setting (parse_section cfg) (initial_ctx cfg)
    with ⟨b, ctx⟩
  cases b with
  | false => simp
  | true =>
    simp only
    split
    · simp
    · have hx := verify_servers_nochecks cfg env
        (if ctx.root.tail.isEmpty then ctx.root else ctx.root.tail) os
      split
      · simp
      · next r servers os1 hne hv =>
        rw [hv] at hx
        exact hx

theorem candidates_names {cfg : build_config} {input : List settings_event}
    (h : (settings_read input parse_setting (parse_section cfg) (initial_ctx cfg)).1 = true) :
    (candidates cfg input).map (fun s => s.name) =
      if declared_servers input = [] then [some "default"]
      else (declared_servers input).map some := by
  have hn := settings_read_names cfg input (initial_ctx cfg) h
  unfold candidates
  simp only
  generalize (settings_read input parse_setting (parse_section cfg) (initial_ctx cfg)).2.root
    = root at hn ⊢
  have h0 : (initial_ctx cfg).root.map (fun s => s.name) = [some "default"] := rfl
  rw [h0] at hn
  cases hd : declared_servers input with
  | nil =>
    rw [hd] at hn
    simp only [List.map_nil, List.append_nil] at hn
    cases root with
    | nil => simp at hn
    | cons x xs =>
      cases xs with
      | nil => simpa using hn
      | cons y ys => simp at hn
  | cons d ds =>
    rw [hd] at hn
    cases root with
    | nil => simp at hn
    | cons x xs =>
      cases xs with
      | nil => simp at hn
      | cons y ys =>
        simp only [List.map_cons, List.singleton_append, List.cons.injEq] at hn
        simp [hn.2.1, hn.2.2]

theorem forall₂_map_eq {α β γ : Type} {R : α → β → Prop} {f : α → γ} {g : β → γ}
    {l1 : List α} {l2 : List β} (h : List.Forall₂ R l1 l2) (hR : ∀ a b, R a b → g b = f a) :
    l2.map g = l1.map f := by
  induction h with
  | nil => rfl
  | cons hr _ ih => simp [hR _ _ hr, ih]

/-- The iteration of the loop on a parsed server without active protocol: the
two settings objects are dropped, the result is TRUE and the system is not
touched. -/
theorem verify_server_inactive {σ : Type} (cfg : build_config) (env : os_env σ)
    (nochecks : Bool) (os : σ) (s : server_settings) (next : List server_settings)
    (hs : parsed_server s) (hact : server_is_active s = false) :
    verify_server cfg env nochecks os s next =
      (.returned true, { s with imap := none, pop3 := none }, os) := by
  obtain ⟨hd, imap, pop3, hi, hp, _, _, his, hps⟩ := hs
  rw [server_is_active_eq hi hp] at hact
  simp only [Bool.or_eq_false_iff] at hact
  have his1 : (imap.str "protocols").isNone = false := by
    cases hx : imap.str "protocols" <;> simp_all
  have hps1 : (pop3.str "protocols").isNone = false := by
    cases hx : pop3.str "protocols" <;> simp_all
  unfold verify_server
  simp only [hi, hp, his1, hps1, Bool.or_self, Bool.false_eq_true, if_false]
  rw [check_imap_inactive cfg env nochecks os s next imap hi hact.1]
  simp only
  rw [check_pop3_inactive cfg env nochecks os { s with imap := none } next pop3 hp hact.2]
  simp [hd]

/-! ## The claims about the validation loop -/

/-- C11 (counterexample): the source sets `first_valid_uid = 600` and
`last_valid_uid = 500` at top level and declares a server a that resets
`last_valid_uid` to 0. The imap settings of the default server end the parse
active with 600 and 500, yet the load with checks returns TRUE and
`settings_root`, NULL before, is set: the validation loop skips the default
server. -/
theorem C11_sentinel_range_not_checked :
    (((ctx_after sample_input_template_range).root[0]?).bind (fun s => s.imap)).map
      (fun set => (settings_is_active set, set.int "first_valid_uid",
        set.int "last_valid_uid")) = some (true, 600, 500) ∧
    (master_settings_read sample_cfg sample_env () master_settings_init
      sample_input_template_range false).1 = .returned true ∧
    master_settings_init.settings_root = none ∧
    (master_settings_read sample_cfg sample_env () master_settings_init
      sample_input_template_range false).2.1.settings_root = some pool_t.settings := by
  refine ⟨by decide, by decide, by decide, by decide⟩

/-- C11 (amended): with checks enabled and for every environment, a load in
which some active protocol settings object of a server that the validation
loop visits (the declared servers, or the default server when no server
section was read) ends the parse with `last_valid_uid != 0` and
`first_valid_uid > last_valid_uid`, or with `last_valid_gid != 0` and
`first_valid_gid > last_valid_gid`, does not return TRUE and leaves
`settings_root` unchanged. -/
theorem C11_range_violation_rejected {σ : Type} (cfg : build_config) (env : os_env σ) (os : σ)
    (st : master_state) (input : List settings_event) (s : server_settings) (set : settings)
    (hs : s ∈ candidates cfg input) (hset : s.imap = some set ∨ s.pop3 = some set)
    (hact : settings_is_active set = true)
    (hbad : (set.int "last_valid_uid" ≠ 0 ∧
        set.int "first_valid_uid" > set.int "last_valid_uid") ∨
      (set.int "last_valid_gid" ≠ 0 ∧
        set.int "first_valid_gid" > set.int "last_valid_gid")) :
    (master_settings_read cfg env os st input false).1 ≠ .returned true ∧
    (master_settings_read cfg env os st input false).2.1.settings_root = st.settings_root := by
  have hne : (master_settings_read cfg env os st input false).1 ≠ .returned true := by
    intro h
    obtain ⟨_, os1, hv⟩ := master_settings_read_true h
    have hr := verify_servers_input_ranges _ _ _ _ hv s hs set hset hact
    unfold range_ok at hr
    rcases hbad with ⟨h1, h2⟩ | ⟨h1, h2⟩
    · have := hr.1 h1; omega
    · have := hr.2 h1; omega
  exact ⟨hne, master_settings_read_root hne⟩

theorem C11_range_violation_rejected_witness :
    (master_settings_read sample_cfg sample_env () master_settings_init
      sample_input_range false).1 ≠ .returned true ∧
    (master_settings_read sample_cfg sample_env () master_settings_init
      sample_input_range false).2.1.settings_root = master_settings_init.settings_root :=
  C11_range_violation_rejected sample_cfg sample_env () master_settings_init
    sample_input_range (sample_candidate sample_input_range)
    (sample_candidate_imap sample_input_range)
    (List.getElem?_mem
      (show (candidates sample_cfg sample_input_range)[0]? =
        some (sample_candidate sample_input_range) from rfl))
    (Or.inl rfl) (by decide) (Or.inl (by decide))

/-- On a server the parser leaves, a protocol is active exactly when its name
is a substring of the `protocols` string of its settings object. -/
theorem server_is_active_iff {s : server_settings} (hs : parsed_server s) :
    ∃ imap pop3 pi pp, s.imap = some imap ∧ s.pop3 = some pop3 ∧
      imap.str "protocols" = some pi ∧ pop3.str "protocols" = some pp ∧
      (server_is_active s = true ↔
        ("imap".toList <:+: pi.toList ∨ "pop3".toList <:+: pp.toList)) := by
  obtain ⟨_, imap, pop3, hi, hp, hip, hpp, his, hps⟩ := hs
  cases hpi : imap.str "protocols" with
  | none => rw [hpi] at his; simp at his
  | some pi =>
    cases hpq : pop3.str "protocols" with
    | none => rw [hpq] at hps; simp at hps
    | some pp =>
      refine ⟨imap, pop3, pi, pp, hi, hp, hpi, hpq, ?_⟩
      rw [server_is_active_eq hi hp, Bool.or_eq_true,
        (settings_is_active_iff imap pi hpi).1 hip, (settings_is_active_iff pop3 pp hpq).2 hpp]

/-- C16 (counterexample): the server a has `protocols = imaps pop3s`, whose
space-separated words are imaps and pop3s: neither imap nor pop3 is listed.
After the successful load the server a is in the published list, with both
its settings objects. -/
theorem C16_ssl_names_keep_server :
    (master_settings_read sample_cfg sample_env () master_settings_init
      sample_input_ssl_names false).1 = .returned true ∧
    (master_settings_read sample_cfg sample_env () master_settings_init
      sample_input_ssl_names false).2.1.published.map
        (fun s => (s.name, s.imap.map (fun set => set.str "protocols"),
          s.pop3.map (fun set => set.str "protocols"))) =
      [(some "a", some (some "imaps pop3s"), some (some "imaps pop3s"))] ∧
    space_words "imaps pop3s" = ["imaps", "pop3s"] ∧
    "imap" ∉ space_words "imaps pop3s" ∧ "pop3" ∉ space_words "imaps pop3s" := by
  refine ⟨by decide, by decide, by decide, by decide, by decide⟩

/-- C16 (amended): on every successful load the servers the validation loop
starts from are the declared servers in declaration order if a server section
was read, and the single default server otherwise; the published list consists
of exactly those of them that have an active imap or pop3 settings object, in
the same order, each as its loop iteration left it (with its name), a protocol
being active when its name is a substring of the `protocols` string of the
settings object; and the iteration of a server without active protocol returns
TRUE, for every state of the system and without touching it, so such a server
never makes the load fail. -/
theorem C16_published_servers {σ : Type} (cfg : build_config) (env : os_env σ) (os : σ)
    (st : master_state) (input : List settings_event) (nochecks : Bool) :
    ((master_settings_read cfg env os st input nochecks).1 = .returned true →
      (candidates cfg input).map (fun s => s.name) =
        (if declared_servers input = [] then [some "default"]
         else (declared_servers input).map some) ∧
      List.Forall₂ (published_as cfg env nochecks)
        ((candidates cfg input).filter server_is_active)
        (master_settings_read cfg env os st input nochecks).2.1.published ∧
      (master_settings_read cfg env os st input nochecks).2.1.published.map (fun s => s.name) =
        ((candidates cfg input).filter server_is_active).map (fun s => s.name)) ∧
    (∀ s ∈ candidates cfg input, server_is_active s = false →
      ∀ (os0 : σ) (next : List server_settings),
        verify_server cfg env nochecks os0 s next =
          (.returned true, { s with imap := none, pop3 := none }, os0)) ∧
    (∀ s ∈ candidates cfg input,
      ∃ imap pop3 pi pp, s.imap = some imap ∧ s.pop3 = some pop3 ∧
        imap.str "protocols" = some pi ∧ pop3.str "protocols" = some pp ∧
        (server_is_active s = true ↔
          ("imap".toList <:+: pi.toList ∨ "pop3".toList <:+: pp.toList))) := by
  refine ⟨?_, ?_, ?_⟩
  · intro h
    obtain ⟨hread, os1, hv⟩ := master_settings_read_true h
    have hf := verify_servers_forall₂ _ _ _ _
      (fun s hs => (candidates_parsed cfg input s hs).1) hv
    refine ⟨candidates_names hread, hf, ?_⟩
    apply forall₂_map_eq hf
    intro a b hab
    obtain ⟨os0, next, os2, hvs⟩ := hab
    obtain ⟨_, _, _, _, _, _, hname, _⟩ := verify_server_true hvs
    exact hname
  · intro s hs hact os0 next
    exact verify_server_inactive cfg env nochecks os0 s next (candidates_parsed cfg input s hs)
      hact
  · intro s hs
    exact server_is_active_iff (candidates_parsed cfg input s hs)

theorem C16_published_servers_witness :
    (master_settings_read sample_cfg sample_env () master_settings_init
      sample_input_two_servers false).1 = .returned true ∧
    declared_servers sample_input_two_servers = ["a", "b"] ∧
    (candidates sample_cfg sample_input_two_servers).map server_is_active = [false, true] ∧
    (master_settings_read sample_cfg sample_env () master_settings_init
        sample_input_two_servers false).2.1.published.map (fun s => s.name) =
      ((candidates sample_cfg sample_input_two_servers).filter server_is_active).map
        (fun s => s.name) :=
  ⟨by decide, by decide, by decide,
    ((C16_published_servers sample_cfg sample_env () master_settings_init
      sample_input_two_servers false).1 (by decide)).2.2⟩

/-- C17 (counterexample): the server a has `protocols = imap pop3s`, whose
words are imap and pop3s; after the successful load it is published with both
its imap and its pop3 settings present. The default server of the same source
has `protocols = imap` and is not in the published list. -/
theorem C17_pop3s_keeps_pop3 :
    (master_settings_read sample_cfg sample_env () master_settings_init
      sample_input_pop3s false).1 = .returned true ∧
    (master_settings_read sample_cfg sample_env () master_settings_init
      sample_input_pop3s false).2.1.published.map
        (fun s => (s.name, s.imap.map (fun set => set.str "protocols"),
          s.pop3.map (fun set => set.str "protocols"))) =
      [(some "a", some (some "imap pop3s"), some (some "imap pop3s"))] ∧
    space_words "imap pop3s" = ["imap", "pop3s"] ∧
    ((ctx_after sample_input_pop3s).root[0]?).map
      (fun s => (s.name, s.imap.map (fun set => set.str "protocols"),
        s.pop3.map (fun set => set.str "protocols"))) =
      some (some "default", some (some "imap"), some (some "imap")) := by
  refine ⟨by decide, by decide, by decide, by decide⟩

/-- C17 (amended): for every server that the validation loop visits, whose
imap settings have `imap` as a substring of their protocols string and whose
pop3 settings do not have `pop3` as a substring of theirs, after a successful
load the server is published (under its name) with its imap settings present
and its pop3 settings absent; with checks, `settings_verify` has accepted the
imap settings and the state of the system after the iteration is the one that
call left; the pop3 settings are dropped without being verified. -/
theorem C17_imap_only_server {σ : Type} (cfg : build_config) (env : os_env σ) (os : σ)
    (st : master_state) (input : List settings_event) (nochecks : Bool)
    (s : server_settings) (imap pop3 : settings) (pi pp : String)
    (hload : (master_settings_read cfg env os st input nochecks).1 = .returned true)
    (hs : s ∈ candidates cfg input) (hi : s.imap = some imap) (hp : s.pop3 = some pop3)
    (hip : imap.str "protocols" = some pi) (hpp : pop3.str "protocols" = some pp)
    (hia : "imap".toList <:+: pi.toList) (hpa : ¬ "pop3".toList <:+: pp.toList) :
    (∃ pub ∈ (master_settings_read cfg env os st input nochecks).2.1.published,
      ∃ (os0 : σ) (next : List server_settings) (os2 : σ),
        verify_server cfg env nochecks os0 s next = (.returned true, pub, os2) ∧
        pub.name = s.name ∧ pub.imap.isSome = true ∧ pub.pop3 = none ∧
        (nochecks = false →
          ∃ set gid, settings_verify cfg env os0 imap s next =
            (.returned true, set, gid, os2))) ∧
    (∀ (os0 : σ) (s1 : server_settings) (next : List server_settings),
      s1.pop3 = some pop3 →
      check_pop3 cfg env nochecks os0 s1 next = (.returned true, { s1 with pop3 := none }, os0))
    := by
  obtain ⟨_, i0, p0, hi0, hp0, hiprot, hpprot, _, _⟩ := candidates_parsed cfg input s hs
  rw [hi] at hi0
  rw [hp] at hp0
  injection hi0 with hi0
  injection hp0 with hp0
  subst hi0 hp0
  have hai : settings_is_active imap = true :=
    ((settings_is_active_iff imap pi hip).1 hiprot).mpr hia
  have hap : settings_is_active pop3 = false := by
    cases hx : settings_is_active pop3 with
    | false => rfl
    | true => exact absurd (((settings_is_active_iff pop3 pp hpp).2 hpprot).mp hx) hpa
  constructor
  · obtain ⟨_, os1, hv⟩ := master_settings_read_true hload
    have hf := verify_servers_forall₂ _ _ _ _
      (fun s hs => (candidates_parsed cfg input s hs).1) hv
    have hmem : s ∈ (candidates cfg input).filter server_is_active := by
      rw [List.mem_filter]
      refine ⟨hs, ?_⟩
      rw [server_is_active_eq hi hp, hai]
      rfl
    obtain ⟨pub, hpub, os0, next, os2, hvs⟩ := forall₂_mem_left hf s hmem
    refine ⟨pub, hpub, os0, next, os2, hvs, ?_⟩
    obtain ⟨i1, p1, hi1, hp1, _, _, hname, hpi, hpp1, _, _, hver, _⟩ := verify_server_true hvs
    rw [hi] at hi1
    rw [hp] at hp1
    injection hi1 with hi1
    injection hp1 with hp1
    subst hi1 hp1
    refine ⟨hname, by rw [hpi, hai], ?_, hver hai hap⟩
    rw [hap] at hpp1
    cases hx : pub.pop3 with
    | none => rfl
    | some x => rw [hx] at hpp1; simp at hpp1
  · intro os0 s1 next hs1
    exact check_pop3_inactive cfg env nochecks os0 s1 next pop3 hs1 hap

theorem C17_imap_only_server_witness :
    (master_settings_read sample_cfg sample_env () master_settings_init
      sample_input_imap_only false).1 = .returned true ∧
    (sample_candidate_imap sample_input_imap_only).str "protocols" = some "imap" ∧
    (sample_candidate_pop3 sample_input_imap_only).str "protocols" = some "imap" ∧
    ∃ pub ∈ (master_settings_read sample_cfg sample_env () master_settings_init
        sample_input_imap_only false).2.1.published,
      pub.name = (sample_candidate sample_input_imap_only).name ∧
      pub.imap.isSome = true ∧ pub.pop3 = none :=
  ⟨by decide, by decide, by decide,
    match (C17_imap_only_server sample_cfg sample_env () master_settings_init
      sample_input_imap_only false (sample_candidate sample_input_imap_only)
      (sample_candidate_imap sample_input_imap_only)
      (sample_candidate_pop3 sample_input_imap_only) "imap" "imap" (by decide)
      (List.getElem?_mem
        (show (candidates sample_cfg sample_input_imap_only)[0]? =
          some (sample_candidate sample_input_imap_only) from rfl))
      rfl rfl (by decide) (by decide)
      ((strstr_list_iff _ _).mp (by decide))
      (fun h => absurd ((strstr_list_iff _ _).mpr h) (by decide))).1 with
    | ⟨pub, hpub, _, _, _, _, hname, hi, hp, _⟩ => ⟨pub, hpub, hname, hi, hp⟩⟩

/-- C19 (counterexample): first, a source without auth section whose
`ssl_ca_file` cannot be read: the default server is the one server the loop
visits, it has an active protocol and no auth backend, and the load with
checks does not return FALSE, the process exits. Second, a source that
declares a server a with an auth backend: the default server has an active
protocol and no auth backend, and the load returns TRUE. -/
theorem C19_fatal_exit_or_unvisited_server :
    (master_settings_read sample_cfg sample_env_users () master_settings_init
      sample_input_missing_ca false).1 = .exited ∧
    (candidates sample_cfg sample_input_missing_ca).map
      (fun s => (s.name, server_is_active s, s.auths.length)) = [(some "default", true, 0)] ∧
    (master_settings_read sample_cfg sample_env () master_settings_init
      sample_input_server_a false).1 = .returned true ∧
    ((ctx_after sample_input_server_a).root[0]?).map
      (fun s => (s.name, server_is_active s, s.auths.length)) = some (some "default", true, 0) := by
  refine ⟨by decide, by decide, by decide, by decide⟩

/-- C19 (amended): for every successful `master_settings_read` (with or
without checks), every server in the published list has at least one of its
imap/pop3 settings objects present and has at least one auth backend; a server
that the validation loop visits with an active protocol and an empty auth list
makes the load not return TRUE, and return FALSE when the checks are
disabled. -/
theorem C19_published_have_protocol_and_auth {σ : Type} (cfg : build_config) (env : os_env σ)
    (os : σ) (st : master_state) (input : List settings_event) (nochecks : Bool) :
    ((master_settings_read cfg env os st input nochecks).1 = .returned true →
      ∀ pub ∈ (master_settings_read cfg env os st input nochecks).2.1.published,
        (pub.imap.isSome = true ∨ pub.pop3.isSome = true) ∧ pub.auths ≠ []) ∧
    (∀ s ∈ candidates cfg input, server_is_active s = true → s.auths = [] →
      (master_settings_read cfg env os st input nochecks).1 ≠ .returned true ∧
      (nochecks = true →
        (master_settings_read cfg env os st input nochecks).1 = .returned false)) := by
  constructor
  · intro h pub hpub
    obtain ⟨_, os1, hv⟩ := master_settings_read_true h
    have hf := verify_servers_forall₂ _ _ _ _
      (fun s hs => (candidates_parsed cfg input s hs).1) hv
    obtain ⟨s, hs, os0, next, os2, hvs⟩ := forall₂_mem_right hf pub hpub
    rw [List.mem_filter] at hs
    obtain ⟨imap, pop3, hi, hp, _, _, _, hpi, hpp, _, hauth, _, _⟩ := verify_server_true hvs
    have hact := hs.2
    rw [server_is_active_eq hi hp] at hact
    refine ⟨?_, (hauth hact).2.2⟩
    rw [hpi, hpp]
    simpa using hact
  · intro s hs hact hno
    have hne : (master_settings_read cfg env os st input nochecks).1 ≠ .returned true := by
      intro h
      obtain ⟨_, os1, hv⟩ := master_settings_read_true h
      have hx : (verify_servers cfg env nochecks os (candidates cfg input)).1 ≠
          .returned true := verify_servers_no_auth (candidates cfg input) os s hs hact hno
      rw [hv] at hx
      exact hx rfl
    refine ⟨hne, ?_⟩
    intro hn
    subst hn
    have hx := master_settings_read_nochecks cfg env os st input
    cases hr : (master_settings_read cfg env os st input true).1 with
    | exited => exact absurd hr hx
    | returned b =>
      cases b with
      | false => rfl
      | true => exact absurd hr hne

theorem C19_published_have_protocol_and_auth_witness :
    (master_settings_read sample_cfg sample_env () master_settings_init
      sample_input_ok false).1 = .returned true ∧
    (master_settings_read sample_cfg sample_env () master_settings_init
      sample_input_ok false).2.1.published.length = 1 ∧
    ∀ pub ∈ (master_settings_read sample_cfg sample_env () master_settings_init
        sample_input_ok false).2.1.published,
      (pub.imap.isSome = true ∨ pub.pop3.isSome = true) ∧ pub.auths ≠ [] :=
  ⟨by decide, by decide,
    (C19_published_have_protocol_and_auth sample_cfg sample_env () master_settings_init
      sample_input_ok false).1 (by decide)⟩

/-- C20 (code defect): with checks enabled, the source with
`login_user = imaplogin` for imap, `login_user = poplogin` for pop3 and an
auth backend with `user = poplogin` is loaded with success. In the published
server both protocols are active, the login uid of the pop3 settings is 101
and the uid of the auth backend is 101 as well, while the master uid is 0. -/
theorem C20_pop3_login_shares_auth_uid :
    (master_settings_read sample_cfg sample_env_users () master_settings_init
      sample_input_two_logins false).1 = .returned true ∧
    (master_settings_read sample_cfg sample_env_users () master_settings_init
      sample_input_two_logins false).2.1.published.map
        (fun s => (s.imap.map (fun set => (settings_is_active set, set.login_uid)),
          s.pop3.map (fun set => (settings_is_active set, set.login_uid)),
          s.auths.map (fun a => a.uid))) =
      [(some (true, 100), some (true, 101), [101])] ∧
    sample_env_users.master_uid = 0 := by
  refine ⟨by decide, by decide, by decide⟩

/-! ## The contexts the reader can reach have their pointers bound -/

theorem ctx_wf_targets {ctx : settings_parse_ctx} (h : ctx_wf ctx) : ctx_targets ctx = true := by
  obtain ⟨hp, hs, ha⟩ := h
  have hget : ctx.root[ctx.server]? = some (ctx.root[ctx.server]) := List.getElem?_eq_getElem hs
  obtain ⟨_, imap, pop3, hi, hpo, _⟩ := hp _ (List.getElem?_mem hget)
  unfold ctx_targets
  rw [hget]
  simp only [Option.map_some', hi, hpo, Option.isSome_some, Bool.and_self, beq_self_eq_true,
    Bool.true_and, Bool.or_eq_true, bne_iff_ne, ne_eq]
  by_cases ht : ctx.type = SETTINGS_TYPE_AUTH_SOCKET
  · right; exact ha (Or.inl ht)
  · left; exact ht

theorem ctx_wf_initial (cfg : build_config) : ctx_wf (initial_ctx cfg) := by
  refine ⟨parsed_server_initial cfg, by simp [initial_ctx], ?_⟩
  intro h
  rcases h with h | h <;> simp [initial_ctx] at h

theorem length_of_map_eq {β : Type} {f : server_settings → β} {l l1 : List server_settings}
    (h : l1.map f = l.map f) : l1.length = l.length := by
  have := congrArg List.length h
  simpa using this

theorem ctx_wf_parse_setting {ctx ctx1 : settings_parse_ctx} {key value : String}
    (h : parse_setting key value ctx = .ok ctx1) (hc : ctx_wf ctx) : ctx_wf ctx1 := by
  obtain ⟨hp, hs, ha⟩ := hc
  obtain ⟨h1, h2, h3, h4, _, _⟩ := parse_setting_ctx h
  have hlen : ctx1.root.length = ctx.root.length := by
    rcases map_parse_setting (f := fun _ => ()) (fun _ _ _ _ => rfl) h with hm | ⟨_, _, hm⟩
    · exact length_of_map_eq hm
    · have := congrArg List.length hm
      simpa using this
  refine ⟨parsed_server_parse_setting h hp, by rw [h3, hlen]; exact hs, ?_⟩
  rw [h1, h2, h4]
  exact ha

/-- What an accepted section-open event does to the members of the context
other than the tree. -/
theorem parse_section_open_ctx {cfg : build_config} {t n : String}
    {ctx ctx1 : settings_parse_ctx} (h : parse_section_open cfg t n ctx = .ok ctx1) :
    ctx1.parent_type = ctx.parent_type ∧
    (ctx1.server = ctx.server ∨ (t = "server" ∧ ctx1.server = ctx.root.length)) ∧
    (ctx1.type = SETTINGS_TYPE_AUTH_SOCKET → ctx1.auth_socket.isSome = true) ∧
    (ctx1.auth_socket = ctx.auth_socket ∨ ctx1.auth_socket.isSome = true) := by
  unfold parse_section_open at h
  split at h
  · next ht =>
    have ht1 : t = "server" := by simpa using ht
    unfold section_server at h
    split at h
    · simp at h
    · split at h
      · simp at h
      · split at h
        · injection h with h
          subst h
          exact ⟨rfl, Or.inr ⟨ht1, rfl⟩, by simp, Or.inl rfl⟩
        · simp at h
  · split at h
    · unfold section_protocol at h
      split at h
      · simp at h
      · next hty =>
        have hna : ctx.type ≠ SETTINGS_TYPE_AUTH_SOCKET := by
          intro hc
          rw [hc] at hty
          simp at hty
        split at h
        · injection h with h; subst h
          exact ⟨rfl, Or.inl rfl, fun hc => absurd hc hna, Or.inl rfl⟩
        · split at h
          · injection h with h; subst h
            exact ⟨rfl, Or.inl rfl, fun hc => absurd hc hna, Or.inl rfl⟩
          · simp at h
    · split at h
      · unfold section_auth at h
        split at h
        · simp at h
        · split at h
          · injection h with h; subst h
            exact ⟨rfl, Or.inl rfl, by simp, Or.inl rfl⟩
          · simp at h
      · split at h
        · unfold section_socket at h
          split at h
          · injection h with h; subst h
            exact ⟨rfl, Or.inl rfl, by simp, Or.inr rfl⟩
          · simp at h
        · split at h
          · unfold section_master_client at h
            split at h
            · simp at h
            · injection h with h; subst h
              exact ⟨rfl, Or.inl rfl, by simp, Or.inl rfl⟩
          · split at h
            · unfold section_master_client at h
              split at h
              · simp at h
              · injection h with h; subst h
                exact ⟨rfl, Or.inl rfl, by simp, Or.inl rfl⟩
            · split at h
              · unfold section_namespace at h
                split at h
                · simp at h
                · split at h
                  · injection h with h; subst h
                    exact ⟨rfl, Or.inl rfl, by simp, Or.inl rfl⟩
                  · simp at h
              · simp at h

theorem ctx_wf_parse_section {cfg : build_config} {t : Option String} {n : String}
    {ctx ctx1 : settings_parse_ctx} (h : parse_section cfg t n ctx = .ok ctx1)
    (hc : ctx_wf ctx) : ctx_wf ctx1 := by
  obtain ⟨hp, hs, ha⟩ := hc
  have hp1 := parsed_server_parse_section h hp
  have hm := map_parse_section (f := fun _ => ()) (fun _ _ _ _ => rfl) h
  cases t with
  | none =>
    unfold parse_section at h
    simp only at h
    injection h with h
    subst h
    refine ⟨hp1, ?_, ?_⟩
    · unfold parse_section_close
      split
      · exact hs
      · exact Nat.lt_of_le_of_lt (Nat.zero_le _) hs
    · unfold parse_section_close
      split
      · simp only
        intro hx
        rcases hx with hx | hx
        · exact ha (Or.inr hx)
        · split at hx <;> simp at hx
      · simp only
        intro hx
        rcases hx with hx | hx
        · simp at hx
        · exact ha (Or.inr hx)
  | some t =>
    unfold parse_section at h
    simp only at h
    obtain ⟨h1, h2, h3, h4⟩ := parse_section_open_ctx h
    simp only at h1 h2 h4
    refine ⟨hp1, ?_, ?_⟩
    · rcases hm with ⟨hm, hne⟩ | ⟨_, _, _, _, _, _, _, hm⟩
      · rcases h2 with h2 | ⟨ht, _⟩
        · rw [h2, length_of_map_eq hm]; exact hs
        · exact absurd (by rw [ht]) hne
      · have hl : ctx1.root.length = ctx.root.length + 1 := by
          have := congrArg List.length hm
          simpa using this
        rcases h2 with h2 | ⟨_, h2⟩
        · rw [h2, hl]; exact Nat.lt_succ_of_lt hs
        · rw [h2, hl]; exact Nat.lt_succ_self _
    · intro hx
      rcases hx with hx | hx
      · exact h3 hx
      · rw [h1] at hx
        rcases h4 with h4 | h4
        · rw [h4]; exact ha (Or.inl hx)
        · exact h4

/-- Every context the reader hands back, after any source, has its pointers
bound. -/
theorem ctx_wf_read (cfg : build_config) (input : List settings_event) :
    ctx_wf (settings_read input parse_setting (parse_section cfg) (initial_ctx cfg)).2 :=
  settings_read_invariant_any ctx_wf parse_setting (parse_section cfg)
    (fun _ _ _ _ hc h => ctx_wf_parse_setting h hc)
    (fun _ _ _ _ hc h => ctx_wf_parse_section h hc)
    input (initial_ctx cfg) (ctx_wf_initial cfg)

/-- The hypothesis `ctx_targets` holds in every context the reader can be in. -/
theorem ctx_targets_read (cfg : build_config) (input : List settings_event) :
    ctx_targets (settings_read input parse_setting (parse_section cfg) (initial_ctx cfg)).2 =
      true :=
  ctx_wf_targets (ctx_wf_read cfg input)

/-! ## Client certificates: what the auth checks write into the settings objects -/

theorem force_verify_client_cert_idem (o : Option settings) :
    force_verify_client_cert (force_verify_client_cert o) = force_verify_client_cert o := by
  cases o <;> simp [force_verify_client_cert]

theorem force_verify_client_cert_value {o : Option settings} {set : settings}
    (h : force_verify_client_cert o = some set) :
    set.bool "ssl_verify_client_cert" = true := by
  cases o with
  | none => simp [force_verify_client_cert] at h
  | some s =>
    simp only [force_verify_client_cert, Option.map_some', Option.some.injEq] at h
    subst h
    simp [settings.bool, set_value.get_bool]

/-- An accepted backend keeps its `ssl_require_client_cert`, and the settings
objects of its server are forced exactly when it is set. -/
theorem auth_settings_verify_cert {σ : Type} {env : os_env σ} {os : σ}
    {server server1 : server_settings} {auth auth1 : auth_settings}
    (h : auth_settings_verify env os server auth = (true, auth1, server1)) :
    auth_requires_cert auth1 = auth_requires_cert auth ∧
    server1.imap =
      (if auth_requires_cert auth then force_verify_client_cert server.imap else server.imap) ∧
    server1.pop3 =
      (if auth_requires_cert auth then force_verify_client_cert server.pop3 else server.pop3) := by
  have hreq : ∀ (u g : Nat) (c : Option String),
      ((Function.update ({ auth with uid := u, gid := g } : auth_settings).vals "chroot"
        (set_value.str c)) "ssl_require_client_cert").get_bool = auth_requires_cert auth := by
    intro u g c
    simp [auth_requires_cert, Function.update]
  unfold auth_settings_verify at h
  split at h
  · simp at h
  · next pw _ =>
    split at h
    · simp at h
    · split at h
      · simp at h
      · simp only at h
        split at h
        · simp at h
        · split at h
          · split at h
            · simp at h
            · split at h
              · next hr =>
                injection h with _ h
                injection h with h1 h2
                subst h1 h2
                rw [hreq] at hr
                simp [auth_requires_cert, Function.update] at hr ⊢
                simp [hr]
              · next hr =>
                injection h with _ h
                injection h with h1 h2
                subst h1 h2
                rw [hreq] at hr
                simp [auth_requires_cert, Function.update] at hr ⊢
                simp [hr]
          · split at h
            · next hr =>
              injection h with _ h
              injection h with h1 h2
              subst h1 h2
              rw [hreq] at hr
              simp [auth_requires_cert, Function.update] at hr ⊢
              simp [hr]
            · next hr =>
              injection h with _ h
              injection h with h1 h2
              subst h1 h2
              rw [hreq] at hr
              simp [auth_requires_cert, Function.update] at hr ⊢
              simp [hr]

theorem verify_auths_cert {σ : Type} (env : os_env σ) (os : σ) (todo : List auth_settings) :
    ∀ (server s1 : server_settings) (done : List auth_settings),
      verify_auths env os server done todo = (true, s1) →
      s1.auths.map auth_requires_cert = (done ++ todo).map auth_requires_cert ∧
      s1.imap =
        (if todo.any auth_requires_cert then force_verify_client_cert server.imap
         else server.imap) ∧
      s1.pop3 =
        (if todo.any auth_requires_cert then force_verify_client_cert server.pop3
         else server.pop3) := by
  induction todo with
  | nil =>
    intro server s1 done h
    simp only [verify_auths] at h
    injection h with _ h
    subst h
    simp
  | cons auth rest ih =>
    intro server s1 done h
    unfold verify_auths at h
    rcases hv : auth_settings_verify env os { server with auths := done ++ auth :: rest } auth
      with ⟨b, auth1, server1⟩
    rw [hv] at h
    cases b with
    | false => simp at h
    | true =>
      simp only at h
      obtain ⟨hr, hi, hp⟩ := auth_settings_verify_cert hv
      obtain ⟨i1, i2, i3⟩ := ih server1 s1 (done ++ [auth1]) h
      simp only at hi hp
      refine ⟨?_, ?_, ?_⟩
      · rw [i1]
        simp [hr]
      · rw [i2, hi, List.any_cons]
        cases ha : auth_requires_cert auth <;> cases hb : rest.any auth_requires_cert <;>
          simp [force_verify_client_cert_idem]
      · rw [i3, hp, List.any_cons]
        cases ha : auth_requires_cert auth <;> cases hb : rest.any auth_requires_cert <;>
          simp [force_verify_client_cert_idem]

theorem check_auths_cert {σ : Type} {env : os_env σ} {os : σ} {s s1 : server_settings}
    (h : check_auths env false os s = (true, s1)) :
    s1.auths.map auth_requires_cert = s.auths.map auth_requires_cert ∧
    s1.imap =
      (if s.auths.any auth_requires_cert then force_verify_client_cert s.imap else s.imap) ∧
    s1.pop3 =
      (if s.auths.any auth_requires_cert then force_verify_client_cert s.pop3 else s.pop3) := by
  unfold check_auths at h
  split at h
  · simp at h
  · simp only [Bool.not_false, if_true] at h
    split at h
    · simp at h
    · next server1 hv =>
      injection h with _ h
      subst h
      simpa using verify_auths_cert env os s.auths s server1 [] hv

/-- The function `settings_verify` writes no field of the schema other than
`ssl_parameters_file` and `login_dir`. -/
theorem settings_verify_vals {σ : Type} (cfg : build_config) (env : os_env σ) (os : σ)
    (set : settings) (server : server_settings) (next : List server_settings) (n : String)
    (h1 : n ≠ "ssl_parameters_file") (h2 : n ≠ "login_dir") :
    (settings_verify cfg env os set server next).2.1.vals n = set.vals n := by
  have hvals := get_login_uid_vals env os set server.login_gid
  unfold settings_verify
  split
  · next set1 gid hg => rw [hg] at hvals; simp only at hvals ⊢; rw [hvals]
  · next set1 gid hg =>
    rw [hg] at hvals
    simp only at hvals
    have hfix : (settings_fix_paths set1).vals n = set.vals n := by
      rw [← hvals]
      simp [settings_fix_paths, Function.update, h1, h2]
    repeat (split; · simp only; rw [hvals])
    simp only
    exact hfix

theorem check_imap_cert {σ : Type} {cfg : build_config} {env : os_env σ} {os os1 : σ}
    {s s1 : server_settings} {next : List server_settings}
    (h : check_imap cfg env false os s next = (.returned true, s1, os1)) :
    s1.auths = s.auths ∧ s1.pop3 = s.pop3 ∧
    ∀ set, s1.imap = some set → ∃ set0, s.imap = some set0 ∧
      set.bool "ssl_verify_client_cert" = set0.bool "ssl_verify_client_cert" := by
  unfold check_imap at h
  split at h
  · simp at h
  · next imap hi =>
    split at h
    · injection h with _ h
      injection h with h _
      subst h
      simp
    · simp only [Bool.not_false, if_true] at h
      have hv := settings_verify_vals cfg env os imap s next "ssl_verify_client_cert"
        (by decide) (by decide)
      split at h
      · next set gid os2 hsv =>
        injection h with _ h
        injection h with h _
        subst h
        rw [hsv] at hv
        refine ⟨rfl, rfl, ?_⟩
        intro set1 hs1
        simp only [Option.some.injEq] at hs1
        subst hs1
        exact ⟨imap, hi, by simp only [settings.bool]; rw [hv]⟩
      · next r set gid os2 hne hsv =>
        injection h with h _
        subst h
        exact absurd rfl hne

theorem check_pop3_cert {σ : Type} {cfg : build_config} {env : os_env σ} {os os1 : σ}
    {s s1 : server_settings} {next : List server_settings}
    (h : check_pop3 cfg env false os s next = (.returned true, s1, os1)) :
    s1.auths = s.auths ∧ s1.imap = s.imap ∧
    ∀ set, s1.pop3 = some set → ∃ set0, s.pop3 = some set0 ∧
      set.bool "ssl_verify_client_cert" = set0.bool "ssl_verify_client_cert" := by
  unfold check_pop3 at h
  split at h
  · simp at h
  · next pop3 hp =>
    split at h
    · injection h with _ h
      injection h with h _
      subst h
      simp
    · simp only [Bool.not_false, if_true] at h
      have hv := settings_verify_vals cfg env os pop3 s next "ssl_verify_client_cert"
        (by decide) (by decide)
      split at h
      · next set gid os2 hsv =>
        injection h with _ h
        injection h with h _
        subst h
        rw [hsv] at hv
        refine ⟨rfl, rfl, ?_⟩
        intro set1 hs1
        simp only [Option.some.injEq] at hs1
        subst hs1
        exact ⟨pop3, hp, by simp only [settings.bool]; rw [hv]⟩
      · next r set gid os2 hne hsv =>
        injection h with h _
        subst h
        exact absurd rfl hne

/-- The iteration of the loop, with checks, on a server that is kept. -/
theorem verify_server_cert {σ : Type} {cfg : build_config} {env : os_env σ} {os os1 : σ}
    {s pub : server_settings} {next : List server_settings}
    (h : verify_server cfg env false os s next = (.returned true, pub, os1))
    (hd : pub.defaults.isNone = false) : cert_checked s pub := by
  unfold verify_server at h
  split at h
  · split at h
    · simp at h
    · split at h
      · next s1 os2 hci =>
        split at h
        · next s2 os3 hcp =>
          obtain ⟨ha1, hp1, hi1⟩ := check_imap_cert hci
          obtain ⟨ha2, hi2, hp2⟩ := check_pop3_cert hcp
          split at h
          · next hnone =>
            injection h with _ h
            injection h with h _
            subst h
            rw [hnone] at hd
            simp at hd
          · simp only at h
            injection h with hr h
            injection h with h _
            injection hr with hr
            have hca : check_auths env false os3 s2 = (true, pub) := by rw [← hr, ← h]
            obtain ⟨hm, hi3, hp3⟩ := check_auths_cert hca
            have hauths : s2.auths = s.auths := by rw [ha2, ha1]
            have hany : pub.auths.any auth_requires_cert = s.auths.any auth_requires_cert := by
              have : ∀ l : List auth_settings,
                  l.any auth_requires_cert = (l.map auth_requires_cert).any id := by
                intro l
                induction l with
                | nil => rfl
                | cons a l ih => simp only [List.any_cons, List.map_cons, ih, id]
              rw [this pub.auths, this s.auths, hm, hauths]
            rw [hauths] at hm hi3 hp3
            refine ⟨hm, ?_, ?_⟩
            · intro hreq set hset
              rw [hany] at hreq
              rw [hreq] at hi3 hp3
              simp only [if_true] at hi3 hp3
              rcases hset with hset | hset
              · rw [hi3] at hset; exact force_verify_client_cert_value hset
              · rw [hp3] at hset; exact force_verify_client_cert_value hset
            · intro hreq
              rw [hany] at hreq
              rw [hreq] at hi3 hp3
              simp only [Bool.false_eq_true, if_false] at hi3 hp3
              constructor
              · intro set hset
                rw [hi3, hi2] at hset
                exact hi1 set hset
              · intro set hset
                rw [hp3] at hset
                obtain ⟨set0, h0, hv⟩ := hp2 set hset
                exact ⟨set0, by rw [← hp1]; exact h0, hv⟩
        · next r hne =>
          rw [h] at hne
          exact absurd rfl (hne pub os1)
      · next r hne =>
        rw [h] at hne
        exact absurd rfl (hne pub os1)
  · simp at h

theorem forall₂_and_left {α β : Type} {R : α → β → Prop} {P : α → Prop} {l1 : List α}
    {l2 : List β} (h : List.Forall₂ R l1 l2) :
    (∀ a ∈ l1, P a) → List.Forall₂ (fun a b => R a b ∧ P a) l1 l2 := by
  induction h with
  | nil => intro _; exact List.Forall₂.nil
  | cons hr _ ih =>
    intro hp
    exact List.Forall₂.cons ⟨hr, hp _ (List.mem_cons_self _ _)⟩
      (ih (fun a ha => hp a (List.mem_cons_of_mem _ ha)))

/-- C22: with checks enabled, after a successful load, every published
server that has an auth backend with `ssl_require_client_cert` set has
`ssl_verify_client_cert` true on each of its imap and pop3 settings objects
that are present; and the published servers are, in order, the visited servers
with an active protocol, each with the `ssl_require_client_cert` of its
backends as parsed and, if no backend has it set, with the parsed value of
`ssl_verify_client_cert` in each settings object that is present. -/
theorem C22_client_cert_forced {σ : Type} (cfg : build_config) (env : os_env σ) (os : σ)
    (st : master_state) (input : List settings_event)
    (h : (master_settings_read cfg env os st input false).1 = .returned true) :
    (∀ pub ∈ (master_settings_read cfg env os st input false).2.1.published,
      pub.auths.any auth_requires_cert = true →
      ∀ set, pub.imap = some set ∨ pub.pop3 = some set →
        set.bool "ssl_verify_client_cert" = true) ∧
    List.Forall₂ cert_checked ((candidates cfg input).filter server_is_active)
      (master_settings_read cfg env os st input false).2.1.published := by
  obtain ⟨_, os1, hv⟩ := master_settings_read_true h
  have hf := verify_servers_forall₂ _ _ _ _
    (fun s hs => (candidates_parsed cfg input s hs).1) hv
  have hf2 := forall₂_and_left (P := fun a => server_is_active a = true) hf
    (fun a ha => (List.mem_filter.mp ha).2)
  have hall : List.Forall₂ cert_checked ((candidates cfg input).filter server_is_active)
      (master_settings_read cfg env os st input false).2.1.published := by
    refine List.Forall₂.imp ?_ hf2
    intro orig pub hpair
    obtain ⟨⟨os0, next, os2, hvs⟩, hact⟩ := hpair
    obtain ⟨imap, pop3, hi, hp, _, _, _, _, _, _, hauth, _, _⟩ := verify_server_true hvs
    rw [server_is_active_eq hi hp] at hact
    exact verify_server_cert hvs (hauth hact).1
  refine ⟨?_, hall⟩
  intro pub hpub hreq set hset
  obtain ⟨orig, _, hc⟩ := forall₂_mem_right hall pub hpub
  exact hc.2.1 hreq set hset

theorem C22_client_cert_forced_witness :
    (master_settings_read sample_cfg sample_env () master_settings_init
      sample_input_cert false).1 = .returned true ∧
    (master_settings_read sample_cfg sample_env () master_settings_init
      sample_input_cert false).2.1.published.map
        (fun s => (s.auths.map auth_requires_cert, s.imap.isSome, s.pop3.isSome)) =
      [([true], true, false)] ∧
    (candidates sample_cfg sample_input_cert).map
        (fun s => s.imap.map (fun set => set.bool "ssl_verify_client_cert")) =
      [some false] ∧
    ∀ pub ∈ (master_settings_read sample_cfg sample_env () master_settings_init
        sample_input_cert false).2.1.published,
      pub.auths.any auth_requires_cert = true →
      ∀ set, pub.imap = some set ∨ pub.pop3 = some set →
        set.bool "ssl_verify_client_cert" = true :=
  ⟨by decide, by decide, by decide,
    (C22_client_cert_forced sample_cfg sample_env () master_settings_init sample_input_cert
      (by decide)).1⟩

/-! ## The login group, the nesting of sections and the active auth target
(C21, C23, C24) -/

/-- C21 (code defect): with checks enabled, both protocols of the default
server are active, the login user of imap has gid 0 and the one of pop3 has
gid 50. The load returns TRUE and the published server has `login_gid` 50,
which is not the gid of its imap login user. With the two login users
exchanged (gid 50 first, gid 0 second) the load returns FALSE. -/
theorem C21_gid_zero_not_compared :
    (sample_env_wheel.getpwnam () "imaplogin").map (fun pw => pw.pw_gid) = some 0 ∧
    (sample_env_wheel.getpwnam () "poplogin").map (fun pw => pw.pw_gid) = some 50 ∧
    (master_settings_read sample_cfg sample_env_wheel () master_settings_init
      sample_input_two_groups false).1 = .returned true ∧
    (master_settings_read sample_cfg sample_env_wheel () master_settings_init
      sample_input_two_groups false).2.1.published.map
        (fun s => (s.login_gid,
          s.imap.map (fun set => (settings_is_active set, set.str "login_user")),
          s.pop3.map (fun set => (settings_is_active set, set.str "login_user")))) =
      [(50, some (true, some "imaplogin"), some (true, some "poplogin"))] ∧
    (master_settings_read sample_cfg sample_env_wheel () master_settings_init
      sample_input_two_groups_swapped false).1 = .returned false := by
  refine ⟨by decide, by decide, by decide, by decide, by decide⟩

/-- C23 (code defect): all events of `server a { auth x { socket listen { } }`
are accepted. Before the auth section is opened the depth is 1, the type is
Server and the scope is Any; after the socket and the auth section have been
closed the depth is 1 again but the type is Root, and a section `server b`,
refused right after `server a {`, is accepted there. In
`protocol imap { auth x { } login_greeting = hello` the scope is Imap before
the auth section is opened and Any after it has been closed, the depth being 1
both times, and the greeting is written to the imap and to the pop3
settings. -/
theorem C23_close_loses_enclosing_scope :
    (settings_read sample_input_nested parse_setting (parse_section sample_cfg)
      (initial_ctx sample_cfg)).1 = true ∧
    (let c := ctx_after (sample_input_nested.take 1)
     (c.level, c.type, c.protocol)) = (1, SETTINGS_TYPE_SERVER, MAIL_PROTOCOL_ANY) ∧
    (let c := ctx_after sample_input_nested
     (c.level, c.type, c.protocol)) = (1, SETTINGS_TYPE_ROOT, MAIL_PROTOCOL_ANY) ∧
    accepted (parse_section sample_cfg (some "server") "b"
      (ctx_after (sample_input_nested.take 1))) = false ∧
    accepted (parse_section sample_cfg (some "server") "b"
      (ctx_after sample_input_nested)) = true ∧
    (settings_read sample_input_in_protocol parse_setting (parse_section sample_cfg)
      (initial_ctx sample_cfg)).1 = true ∧
    (let c := ctx_after (sample_input_in_protocol.take 1)
     (c.level, c.type, c.protocol)) = (1, SETTINGS_TYPE_ROOT, MAIL_PROTOCOL_IMAP) ∧
    (let c := ctx_after (sample_input_in_protocol.take 3)
     (c.level, c.type, c.protocol)) = (1, SETTINGS_TYPE_ROOT, MAIL_PROTOCOL_ANY) ∧
    ((ctx_after sample_input_in_protocol).root[0]?).map
      (fun s => (s.imap.map (fun set => set.str "login_greeting"),
                 s.pop3.map (fun set => set.str "login_greeting"))) =
      some (some (some "hello"), some (some "hello")) := by
  refine ⟨by decide, by decide, by decide, by decide, by decide, by decide, by decide,
    by decide, by decide⟩

/-- C24 (code defect): the events of `server a { auth_user = vmail` are
accepted. After the server section has been opened the active server is the
new server a (index 1) while the active auth target is still the template of
the default server (index 0); the line `auth_user = vmail` is written to the
template of the default server and the template of the server a keeps the
user root. -/
theorem C24_auth_key_written_to_root_template :
    (settings_read sample_input_server_auth_user parse_setting (parse_section sample_cfg)
      (initial_ctx sample_cfg)).1 = true ∧
    (let c := ctx_after (sample_input_server_auth_user.take 1)
     (c.type, c.server, c.auth)) = (SETTINGS_TYPE_SERVER, 1, auth_ptr.defaults 0) ∧
    (ctx_after (sample_input_server_auth_user.take 1)).root.map
      (fun s => (s.name, (s.auth_defaults.vals "user").get_str, s.auths.length)) =
      [(some "default", some "root", 0), (some "a", some "root", 0)] ∧
    (ctx_after sample_input_server_auth_user).root.map
      (fun s => (s.name, (s.auth_defaults.vals "user").get_str, s.auths.length)) =
      [(some "default", some "vmail", 0), (some "a", some "root", 0)] := by
  refine ⟨by decide, by decide, by decide, by decide⟩


end MasterSettings
